import Mathlib

/-!
Verification of the AES and Camellia block-cipher engines of CycloneCrypto
(files `aes.c` and `camellia.c`), shallowly embedded over `Nat`.

Modelling conventions:
* 32-bit machine words are natural numbers below `2^32`; wherever the C code
  truncates (left shifts, rotations), the embedding takes `% 4294967296`
  explicitly.
* Byte buffers are `List Nat` whose entries are below 256.
* The repository targets little-endian ARM Cortex-M devices (see the
  board-support headers), so the host byte order used by the C type punning
  (`AesState.b` viewed as `AesState.w`, `memcpy` of key bytes into `uint32_t`
  arrays) is little-endian: a word with bytes `b0 b1 b2 b3` in memory has
  value `b0 + 256*b1 + 2^16*b2 + 2^24*b3`.
* C functions that return `error_t` and write through a context pointer are
  modelled as functions returning a pair of the error code and the new
  context; the error path returns the context argument unchanged, exactly as
  the C code returns before any store to the context.
-/

namespace CycloneCrypto

set_option maxRecDepth 100000
set_option maxHeartbeats 1600000

/-- Error codes used by the cipher initializers (`error_t` in the C code). -/
inductive ErrorT where
  | noError
  | invalidKeyLength
deriving DecidableEq

/-- Little-endian packing of four bytes into a host-order 32-bit word. -/
def le32 (b0 b1 b2 b3 : Nat) : Nat :=
  b0 + 256 * (b1 + 256 * (b2 + 256 * b3))

/-- Byte 0 (least significant) of a host-order word. -/
def byte0 (w : Nat) : Nat := w % 256

/-- Byte 1 of a host-order word. -/
def byte1 (w : Nat) : Nat := w / 256 % 256

/-- Byte 2 of a host-order word. -/
def byte2 (w : Nat) : Nat := w / 65536 % 256

/-- Byte 3 (most significant) of a host-order word. -/
def byte3 (w : Nat) : Nat := w / 16777216 % 256

/-- Modelled from the spec: 32-bit rotate left (`ROL32` of the missing
`crypto.h`): `((x << n) | (x >> (32 - n)))` on `uint32_t`, the left shift
truncated to 32 bits. -/
def rol32 (x n : Nat) : Nat :=
  (x * 2 ^ n) % 4294967296 ||| x / 2 ^ (32 - n)

/-- Modelled from the spec: 32-bit rotate right (`ROR32` of the missing
`crypto.h`): `((x >> n) | (x << (32 - n)))` on `uint32_t`, the left shift
truncated to 32 bits. -/
def ror32 (x n : Nat) : Nat :=
  x / 2 ^ n ||| (x * 2 ^ (32 - n)) % 4294967296

/-- Modelled from the spec: load a 32-bit word from four bytes in big-endian
order (`LOAD32BE` of the missing `crypto.h`), reading `b[i..i+3]`. -/
def load32be (b : List Nat) (i : Nat) : Nat :=
  b.getD i 0 * 16777216 + b.getD (i + 1) 0 * 65536 +
    b.getD (i + 2) 0 * 256 + b.getD (i + 3) 0

/-- Modelled from the spec: store a 32-bit word as four bytes in big-endian
order (`STORE32BE` of the missing `crypto.h`). -/
def store32be (w : Nat) : List Nat :=
  [w / 16777216 % 256, w / 65536 % 256, w / 256 % 256, w % 256]

/-- Modelled from the spec: big-endian-to-host conversion (`betoh32` of the
missing headers); on the little-endian target this is a byte swap. -/
def byteswap32 (x : Nat) : Nat :=
  x % 256 * 16777216 + x / 256 % 256 * 65536 +
    x / 65536 % 256 * 256 + x / 16777216 % 256

/-- `memcpy` of a byte buffer into an array of host-order (little-endian)
32-bit words; a trailing group of fewer than four bytes is never used by the
callers (all key lengths are multiples of four). -/
def bytesToWords : List Nat → List Nat
  | b0 :: b1 :: b2 :: b3 :: rest => le32 b0 b1 b2 b3 :: bytesToWords rest
  | _ => []


/-- AES forward S-box table, from aes.c. -/
def sboxT : List Nat :=
  [99, 124, 119, 123, 242, 107, 111, 197, 48, 1, 103, 43, 254, 215, 171, 118,
   202, 130, 201, 125, 250, 89, 71, 240, 173, 212, 162, 175, 156, 164, 114, 192,
   183, 253, 147, 38, 54, 63, 247, 204, 52, 165, 229, 241, 113, 216, 49, 21,
   4, 199, 35, 195, 24, 150, 5, 154, 7, 18, 128, 226, 235, 39, 178, 117,
   9, 131, 44, 26, 27, 110, 90, 160, 82, 59, 214, 179, 41, 227, 47, 132,
   83, 209, 0, 237, 32, 252, 177, 91, 106, 203, 190, 57, 74, 76, 88, 207,
   208, 239, 170, 251, 67, 77, 51, 133, 69, 249, 2, 127, 80, 60, 159, 168,
   81, 163, 64, 143, 146, 157, 56, 245, 188, 182, 218, 33, 16, 255, 243, 210,
   205, 12, 19, 236, 95, 151, 68, 23, 196, 167, 126, 61, 100, 93, 25, 115,
   96, 129, 79, 220, 34, 42, 144, 136, 70, 238, 184, 20, 222, 94, 11, 219,
   224, 50, 58, 10, 73, 6, 36, 92, 194, 211, 172, 98, 145, 149, 228, 121,
   231, 200, 55, 109, 141, 213, 78, 169, 108, 86, 244, 234, 101, 122, 174, 8,
   186, 120, 37, 46, 28, 166, 180, 198, 232, 221, 116, 31, 75, 189, 139, 138,
   112, 62, 181, 102, 72, 3, 246, 14, 97, 53, 87, 185, 134, 193, 29, 158,
   225, 248, 152, 17, 105, 217, 142, 148, 155, 30, 135, 233, 206, 85, 40, 223,
   140, 161, 137, 13, 191, 230, 66, 104, 65, 153, 45, 15, 176, 84, 187, 22]

/-- AES inverse S-box table, from aes.c. -/
def isboxT : List Nat :=
  [82, 9, 106, 213, 48, 54, 165, 56, 191, 64, 163, 158, 129, 243, 215, 251,
   124, 227, 57, 130, 155, 47, 255, 135, 52, 142, 67, 68, 196, 222, 233, 203,
   84, 123, 148, 50, 166, 194, 35, 61, 238, 76, 149, 11, 66, 250, 195, 78,
   8, 46, 161, 102, 40, 217, 36, 178, 118, 91, 162, 73, 109, 139, 209, 37,
   114, 248, 246, 100, 134, 104, 152, 22, 212, 164, 92, 204, 93, 101, 182, 146,
   108, 112, 72, 80, 253, 237, 185, 218, 94, 21, 70, 87, 167, 141, 157, 132,
   144, 216, 171, 0, 140, 188, 211, 10, 247, 228, 88, 5, 184, 179, 69, 6,
   208, 44, 30, 143, 202, 63, 15, 2, 193, 175, 189, 3, 1, 19, 138, 107,
   58, 145, 17, 65, 79, 103, 220, 234, 151, 242, 207, 206, 240, 180, 230, 115,
   150, 172, 116, 34, 231, 173, 53, 133, 226, 249, 55, 232, 28, 117, 223, 110,
   71, 241, 26, 113, 29, 41, 197, 137, 111, 183, 98, 14, 170, 24, 190, 27,
   252, 86, 62, 75, 198, 210, 121, 32, 154, 219, 192, 254, 120, 205, 90, 244,
   31, 221, 168, 51, 136, 7, 199, 49, 177, 18, 16, 89, 39, 128, 236, 95,
   96, 81, 127, 169, 25, 181, 74, 13, 45, 229, 122, 159, 147, 201, 156, 239,
   160, 224, 59, 77, 174, 42, 245, 176, 200, 235, 187, 60, 131, 83, 153, 97,
   23, 43, 4, 126, 186, 119, 214, 38, 225, 105, 20, 99, 85, 33, 12, 125]

/-- AES multiplication-by-2 table for GF(256), from aes.c. -/
def mul2T : List Nat :=
  [0, 2, 4, 6, 8, 10, 12, 14, 16, 18, 20, 22, 24, 26, 28, 30,
   32, 34, 36, 38, 40, 42, 44, 46, 48, 50, 52, 54, 56, 58, 60, 62,
   64, 66, 68, 70, 72, 74, 76, 78, 80, 82, 84, 86, 88, 90, 92, 94,
   96, 98, 100, 102, 104, 106, 108, 110, 112, 114, 116, 118, 120, 122, 124, 126,
   128, 130, 132, 134, 136, 138, 140, 142, 144, 146, 148, 150, 152, 154, 156, 158,
   160, 162, 164, 166, 168, 170, 172, 174, 176, 178, 180, 182, 184, 186, 188, 190,
   192, 194, 196, 198, 200, 202, 204, 206, 208, 210, 212, 214, 216, 218, 220, 222,
   224, 226, 228, 230, 232, 234, 236, 238, 240, 242, 244, 246, 248, 250, 252, 254,
   27, 25, 31, 29, 19, 17, 23, 21, 11, 9, 15, 13, 3, 1, 7, 5,
   59, 57, 63, 61, 51, 49, 55, 53, 43, 41, 47, 45, 35, 33, 39, 37,
   91, 89, 95, 93, 83, 81, 87, 85, 75, 73, 79, 77, 67, 65, 71, 69,
   123, 121, 127, 125, 115, 113, 119, 117, 107, 105, 111, 109, 99, 97, 103, 101,
   155, 153, 159, 157, 147, 145, 151, 149, 139, 137, 143, 141, 131, 129, 135, 133,
   187, 185, 191, 189, 179, 177, 183, 181, 171, 169, 175, 173, 163, 161, 167, 165,
   219, 217, 223, 221, 211, 209, 215, 213, 203, 201, 207, 205, 195, 193, 199, 197,
   251, 249, 255, 253, 243, 241, 247, 245, 235, 233, 239, 237, 227, 225, 231, 229]

/-- Camellia substitution table 1, from camellia.c. -/
def sbox1T : List Nat :=
  [112, 130, 44, 236, 179, 39, 192, 229, 228, 133, 87, 53, 234, 12, 174, 65,
   35, 239, 107, 147, 69, 25, 165, 33, 237, 14, 79, 78, 29, 101, 146, 189,
   134, 184, 175, 143, 124, 235, 31, 206, 62, 48, 220, 95, 94, 197, 11, 26,
   166, 225, 57, 202, 213, 71, 93, 61, 217, 1, 90, 214, 81, 86, 108, 77,
   139, 13, 154, 102, 251, 204, 176, 45, 116, 18, 43, 32, 240, 177, 132, 153,
   223, 76, 203, 194, 52, 126, 118, 5, 109, 183, 169, 49, 209, 23, 4, 215,
   20, 88, 58, 97, 222, 27, 17, 28, 50, 15, 156, 22, 83, 24, 242, 34,
   254, 68, 207, 178, 195, 181, 122, 145, 36, 8, 232, 168, 96, 252, 105, 80,
   170, 208, 160, 125, 161, 137, 98, 151, 84, 91, 30, 149, 224, 255, 100, 210,
   16, 196, 0, 72, 163, 247, 117, 219, 138, 3, 230, 218, 9, 63, 221, 148,
   135, 92, 131, 2, 205, 74, 144, 51, 115, 103, 246, 243, 157, 127, 191, 226,
   82, 155, 216, 38, 200, 55, 198, 59, 129, 150, 111, 75, 19, 190, 99, 46,
   233, 121, 167, 140, 159, 110, 188, 142, 41, 245, 249, 182, 47, 253, 180, 89,
   120, 152, 6, 106, 231, 70, 113, 186, 212, 37, 171, 66, 136, 162, 141, 250,
   114, 7, 185, 85, 248, 238, 172, 10, 54, 73, 42, 104, 60, 56, 241, 164,
   64, 40, 211, 123, 187, 201, 67, 193, 21, 227, 173, 244, 119, 199, 128, 158]

/-- Camellia substitution table 2, from camellia.c. -/
def sbox2T : List Nat :=
  [224, 5, 88, 217, 103, 78, 129, 203, 201, 11, 174, 106, 213, 24, 93, 130,
   70, 223, 214, 39, 138, 50, 75, 66, 219, 28, 158, 156, 58, 202, 37, 123,
   13, 113, 95, 31, 248, 215, 62, 157, 124, 96, 185, 190, 188, 139, 22, 52,
   77, 195, 114, 149, 171, 142, 186, 122, 179, 2, 180, 173, 162, 172, 216, 154,
   23, 26, 53, 204, 247, 153, 97, 90, 232, 36, 86, 64, 225, 99, 9, 51,
   191, 152, 151, 133, 104, 252, 236, 10, 218, 111, 83, 98, 163, 46, 8, 175,
   40, 176, 116, 194, 189, 54, 34, 56, 100, 30, 57, 44, 166, 48, 229, 68,
   253, 136, 159, 101, 135, 107, 244, 35, 72, 16, 209, 81, 192, 249, 210, 160,
   85, 161, 65, 250, 67, 19, 196, 47, 168, 182, 60, 43, 193, 255, 200, 165,
   32, 137, 0, 144, 71, 239, 234, 183, 21, 6, 205, 181, 18, 126, 187, 41,
   15, 184, 7, 4, 155, 148, 33, 102, 230, 206, 237, 231, 59, 254, 127, 197,
   164, 55, 177, 76, 145, 110, 141, 118, 3, 45, 222, 150, 38, 125, 198, 92,
   211, 242, 79, 25, 63, 220, 121, 29, 82, 235, 243, 109, 94, 251, 105, 178,
   240, 49, 12, 212, 207, 140, 226, 117, 169, 74, 87, 132, 17, 69, 27, 245,
   228, 14, 115, 170, 241, 221, 89, 20, 108, 146, 84, 208, 120, 112, 227, 73,
   128, 80, 167, 246, 119, 147, 134, 131, 42, 199, 91, 233, 238, 143, 1, 61]

/-- Camellia substitution table 3, from camellia.c. -/
def sbox3T : List Nat :=
  [56, 65, 22, 118, 217, 147, 96, 242, 114, 194, 171, 154, 117, 6, 87, 160,
   145, 247, 181, 201, 162, 140, 210, 144, 246, 7, 167, 39, 142, 178, 73, 222,
   67, 92, 215, 199, 62, 245, 143, 103, 31, 24, 110, 175, 47, 226, 133, 13,
   83, 240, 156, 101, 234, 163, 174, 158, 236, 128, 45, 107, 168, 43, 54, 166,
   197, 134, 77, 51, 253, 102, 88, 150, 58, 9, 149, 16, 120, 216, 66, 204,
   239, 38, 229, 97, 26, 63, 59, 130, 182, 219, 212, 152, 232, 139, 2, 235,
   10, 44, 29, 176, 111, 141, 136, 14, 25, 135, 78, 11, 169, 12, 121, 17,
   127, 34, 231, 89, 225, 218, 61, 200, 18, 4, 116, 84, 48, 126, 180, 40,
   85, 104, 80, 190, 208, 196, 49, 203, 42, 173, 15, 202, 112, 255, 50, 105,
   8, 98, 0, 36, 209, 251, 186, 237, 69, 129, 115, 109, 132, 159, 238, 74,
   195, 46, 193, 1, 230, 37, 72, 153, 185, 179, 123, 249, 206, 191, 223, 113,
   41, 205, 108, 19, 100, 155, 99, 157, 192, 75, 183, 165, 137, 95, 177, 23,
   244, 188, 211, 70, 207, 55, 94, 71, 148, 250, 252, 91, 151, 254, 90, 172,
   60, 76, 3, 53, 243, 35, 184, 93, 106, 146, 213, 33, 68, 81, 198, 125,
   57, 131, 220, 170, 124, 119, 86, 5, 27, 164, 21, 52, 30, 28, 248, 82,
   32, 20, 233, 189, 221, 228, 161, 224, 138, 241, 214, 122, 187, 227, 64, 79]

/-- Camellia substitution table 4, from camellia.c. -/
def sbox4T : List Nat :=
  [112, 44, 179, 192, 228, 87, 234, 174, 35, 107, 69, 165, 237, 79, 29, 146,
   134, 175, 124, 31, 62, 220, 94, 11, 166, 57, 213, 93, 217, 90, 81, 108,
   139, 154, 251, 176, 116, 43, 240, 132, 223, 203, 52, 118, 109, 169, 209, 4,
   20, 58, 222, 17, 50, 156, 83, 242, 254, 207, 195, 122, 36, 232, 96, 105,
   170, 160, 161, 98, 84, 30, 224, 100, 16, 0, 163, 117, 138, 230, 9, 221,
   135, 131, 205, 144, 115, 246, 157, 191, 82, 216, 200, 198, 129, 111, 19, 99,
   233, 167, 159, 188, 41, 249, 47, 180, 120, 6, 231, 113, 212, 171, 136, 141,
   114, 185, 248, 172, 54, 42, 60, 241, 64, 211, 187, 67, 21, 173, 119, 128,
   130, 236, 39, 229, 133, 53, 12, 65, 239, 147, 25, 33, 14, 78, 101, 189,
   184, 143, 235, 206, 48, 95, 197, 26, 225, 202, 71, 61, 1, 214, 86, 77,
   13, 102, 204, 45, 18, 32, 177, 153, 76, 194, 126, 5, 183, 49, 23, 215,
   88, 97, 27, 28, 15, 22, 24, 34, 68, 178, 181, 145, 8, 168, 252, 80,
   208, 125, 137, 151, 91, 149, 255, 210, 196, 72, 247, 219, 3, 218, 63, 148,
   92, 2, 74, 51, 103, 243, 127, 226, 155, 38, 55, 59, 150, 75, 190, 46,
   121, 140, 110, 142, 245, 182, 253, 89, 152, 106, 70, 186, 37, 66, 162, 250,
   7, 85, 238, 10, 73, 104, 56, 164, 40, 123, 201, 193, 227, 244, 199, 158]

/-- Camellia key schedule constants sigma, from camellia.c. -/
def sigmaT : List Nat :=
  [2694735487, 1003262091, 3061508184, 1286239154, 3337565999, 3914302142, 1426019237, 4057165596, 283453434, 3731369245, 2958461122, 3018244605]

/-- AES round constant word array rcon, from aes.c. -/
def rconT : List Nat :=
  [0, 1, 2, 4, 8, 16, 32, 64, 128, 27, 54]

/-- AES forward S-box lookup (`sbox[x]` in aes.c). -/
def sb (x : Nat) : Nat := sboxT.getD x 0

/-- AES inverse S-box lookup (`isbox[x]` in aes.c). -/
def isb (x : Nat) : Nat := isboxT.getD x 0

/-- AES multiply-by-two lookup (`mul2[x]` in aes.c). -/
def m2 (x : Nat) : Nat := mul2T.getD x 0

/-- The `rotWord` macro of aes.c: `ROR32(w, 8)`. -/
def rotWord (w : Nat) : Nat := ror32 w 8

/-- The `subWord` transformation of aes.c: the forward S-box applied to each
byte of the word (the C code writes the bytes through a pointer). -/
def subWord (w : Nat) : Nat :=
  le32 (sb (byte0 w)) (sb (byte1 w)) (sb (byte2 w)) (sb (byte3 w))

/-- AES context: round count `nr` and expanded key schedule `w`
(host-order 32-bit words). -/
structure AesContext where
  nr : Nat
  w : List Nat
deriving DecidableEq

/-- The transformed previous word of the key-expansion loop of `aesInit`:
`temp` is `w[i-1]`, sent through `subWord ∘ rotWord` plus the round constant
when `i` is a multiple of `Nk`, through `subWord` alone when `Nk > 6` and
`i mod Nk = 4`, and unchanged otherwise. -/
def aesTemp (nk : Nat) (w : List Nat) (i : Nat) : Nat :=
  if i % nk == 0 then subWord (rotWord (w.getD (i - 1) 0)) ^^^ rconT.getD (i / nk) 0
  else if nk > 6 && i % nk == 4 then subWord (w.getD (i - 1) 0)
  else w.getD (i - 1) 0

/-- One iteration of the key-expansion loop of `aesInit`: with `i` the
current schedule length, append `w[i] = w[i - nk] ^^^ temp`. -/
def aesExpandStep (nk : Nat) (ws : List Nat) : List Nat :=
  ws ++ [ws.getD (ws.length - nk) 0 ^^^ aesTemp nk ws ws.length]

/-- The key-expansion loop of `aesInit`, running `n` iterations. -/
def aesExpand (nk : Nat) : Nat → List Nat → List Nat
  | 0, ws => ws
  | n + 1, ws => aesExpand nk n (aesExpandStep nk ws)

/-- `aesInit` of aes.c: reject key lengths outside {16, 24, 32} before any
store to the context; otherwise set `nr`, copy the key into `w` and run the
key expansion up to `4 * (nr + 1)` words. -/
def aesInit (context : AesContext) (key : List Nat) : ErrorT × AesContext :=
  if key.length = 16 ∨ key.length = 24 ∨ key.length = 32 then
    let nr := if key.length = 16 then 10 else if key.length = 24 then 12 else 14
    let nk := key.length / 4
    let keyScheduleSize := 4 * (nr + 1)
    (ErrorT.noError,
      { nr := nr, w := aesExpand nk (keyScheduleSize - nk) (bytesToWords key) })
  else
    (ErrorT.invalidKeyLength, context)

/-- `addRoundKey` of aes.c: the state words (the byte state viewed as four
host-order words) are XORed with four consecutive schedule words `k[0..3]`. -/
def addRoundKey (s : List Nat) (k : List Nat) : List Nat :=
  match s with
  | [b0, b1, b2, b3, b4, b5, b6, b7, b8, b9, b10, b11, b12, b13, b14, b15] =>
    let w0 := le32 b0 b1 b2 b3 ^^^ k.getD 0 0
    let w1 := le32 b4 b5 b6 b7 ^^^ k.getD 1 0
    let w2 := le32 b8 b9 b10 b11 ^^^ k.getD 2 0
    let w3 := le32 b12 b13 b14 b15 ^^^ k.getD 3 0
    [byte0 w0, byte1 w0, byte2 w0, byte3 w0,
     byte0 w1, byte1 w1, byte2 w1, byte3 w1,
     byte0 w2, byte1 w2, byte2 w2, byte3 w2,
     byte0 w3, byte1 w3, byte2 w3, byte3 w3]
  | s => s

/-- `subBytes` of aes.c: forward S-box applied to each state byte. -/
def subBytes (s : List Nat) : List Nat := s.map sb

/-- `invSubBytes` of aes.c: inverse S-box applied to each state byte. -/
def invSubBytes (s : List Nat) : List Nat := s.map isb

/-- `shiftRows` of aes.c: row `r` of the column-major state rotated left by
`r` bytes. -/
def shiftRows (s : List Nat) : List Nat :=
  match s with
  | [b0, b1, b2, b3, b4, b5, b6, b7, b8, b9, b10, b11, b12, b13, b14, b15] =>
    [b0, b5, b10, b15, b4, b9, b14, b3, b8, b13, b2, b7, b12, b1, b6, b11]
  | s => s

/-- `invShiftRows` of aes.c: row `r` rotated right by `r` bytes. -/
def invShiftRows (s : List Nat) : List Nat :=
  match s with
  | [b0, b1, b2, b3, b4, b5, b6, b7, b8, b9, b10, b11, b12, b13, b14, b15] =>
    [b0, b13, b10, b7, b4, b1, b14, b11, b8, b5, b2, b15, b12, b9, b6, b3]
  | s => s

/-- One column of `mixColumns` of aes.c. -/
def mixCol : Nat × Nat × Nat × Nat → Nat × Nat × Nat × Nat
  | (b0, b1, b2, b3) =>
    let p := b0 ^^^ b1 ^^^ b2 ^^^ b3
    (p ^^^ b0 ^^^ m2 (b0 ^^^ b1), p ^^^ b1 ^^^ m2 (b1 ^^^ b2),
     p ^^^ b2 ^^^ m2 (b2 ^^^ b3), p ^^^ b3 ^^^ m2 (b3 ^^^ b0))

/-- One column of `invMixColumns` of aes.c. -/
def invMixCol : Nat × Nat × Nat × Nat → Nat × Nat × Nat × Nat
  | (b0, b1, b2, b3) =>
    let q0 := b0 ^^^ b1 ^^^ b2 ^^^ b3
    let q := q0 ^^^ m2 (m2 (m2 q0))
    let p := q ^^^ m2 (m2 (b0 ^^^ b2))
    let q2 := q ^^^ m2 (m2 (b1 ^^^ b3))
    (p ^^^ b0 ^^^ m2 (b0 ^^^ b1), q2 ^^^ b1 ^^^ m2 (b1 ^^^ b2),
     p ^^^ b2 ^^^ m2 (b2 ^^^ b3), q2 ^^^ b3 ^^^ m2 (b3 ^^^ b0))

/-- `mixColumns` of aes.c: `mixCol` applied to each of the four columns. -/
def mixColumns (s : List Nat) : List Nat :=
  match s with
  | [b0, b1, b2, b3, b4, b5, b6, b7, b8, b9, b10, b11, b12, b13, b14, b15] =>
    let c := mixCol (b0, b1, b2, b3)
    let d := mixCol (b4, b5, b6, b7)
    let e := mixCol (b8, b9, b10, b11)
    let f := mixCol (b12, b13, b14, b15)
    [c.1, c.2.1, c.2.2.1, c.2.2.2, d.1, d.2.1, d.2.2.1, d.2.2.2,
     e.1, e.2.1, e.2.2.1, e.2.2.2, f.1, f.2.1, f.2.2.1, f.2.2.2]
  | s => s

/-- `invMixColumns` of aes.c: `invMixCol` applied to each column. -/
def invMixColumns (s : List Nat) : List Nat :=
  match s with
  | [b0, b1, b2, b3, b4, b5, b6, b7, b8, b9, b10, b11, b12, b13, b14, b15] =>
    let c := invMixCol (b0, b1, b2, b3)
    let d := invMixCol (b4, b5, b6, b7)
    let e := invMixCol (b8, b9, b10, b11)
    let f := invMixCol (b12, b13, b14, b15)
    [c.1, c.2.1, c.2.2.1, c.2.2.2, d.1, d.2.1, d.2.2.1, d.2.2.2,
     e.1, e.2.1, e.2.2.1, e.2.2.2, f.1, f.2.1, f.2.2.1, f.2.2.2]
  | s => s

/-- `aesEncryptBlock` of aes.c: initial round-key addition, `nr - 1` full
rounds, then the final round without `mixColumns`.  `context.w.drop (4*i)`
is the round-key pointer `context->w + 4*i`. -/
def aesEncryptBlock (context : AesContext) (input : List Nat) : List Nat :=
  let state := input
  let state := addRoundKey state context.w
  let state := (List.range' 1 (context.nr - 1)).foldl
    (fun state i =>
      addRoundKey (mixColumns (shiftRows (subBytes state))) (context.w.drop (4 * i)))
    state
  addRoundKey (shiftRows (subBytes state)) (context.w.drop (4 * context.nr))

/-- `aesDecryptBlock` of aes.c: round-key addition with the last round key,
`nr - 1` inverse rounds with `i` descending from `nr - 1` to `1`, then the
final inverse round. -/
def aesDecryptBlock (context : AesContext) (input : List Nat) : List Nat :=
  let state := input
  let state := addRoundKey state (context.w.drop (4 * context.nr))
  let state := (List.range' 1 (context.nr - 1)).reverse.foldl
    (fun state i =>
      invMixColumns (addRoundKey (invSubBytes (invShiftRows state)) (context.w.drop (4 * i))))
    state
  addRoundKey (invSubBytes (invShiftRows state)) context.w


/-- Camellia context: round count `nr`, intermediate key banks `k`
(16 words: KL at 0, KR at 4, KA at 8, KB at 12) and the subkey sequence
`ks`. -/
structure CamelliaContext where
  nr : Nat
  k : List Nat
  ks : List Nat
deriving DecidableEq

/-- An entry of the Camellia key-schedule tables (`CamelliaSubkey` in the C
headers): output index, source bank offset, rotate amount, half selector
(0 for L, 64 for R). -/
structure CamelliaSubkey where
  index : Nat
  key : Nat
  shift : Nat
  position : Nat
deriving DecidableEq


/-- Camellia key schedule table ks1 (index, bank offset, shift, position), from camellia.c. -/
def ks1 : List CamelliaSubkey :=
  [⟨0, 0, 0, 0⟩,
   ⟨2, 0, 0, 64⟩,
   ⟨4, 8, 0, 0⟩,
   ⟨6, 8, 0, 64⟩,
   ⟨8, 0, 15, 0⟩,
   ⟨10, 0, 15, 64⟩,
   ⟨12, 8, 15, 0⟩,
   ⟨14, 8, 15, 64⟩,
   ⟨16, 8, 30, 0⟩,
   ⟨18, 8, 30, 64⟩,
   ⟨20, 0, 45, 0⟩,
   ⟨22, 0, 45, 64⟩,
   ⟨24, 8, 45, 0⟩,
   ⟨26, 0, 60, 64⟩,
   ⟨28, 8, 60, 0⟩,
   ⟨30, 8, 60, 64⟩,
   ⟨32, 0, 77, 0⟩,
   ⟨34, 0, 77, 64⟩,
   ⟨36, 0, 94, 0⟩,
   ⟨38, 0, 94, 64⟩,
   ⟨40, 8, 94, 0⟩,
   ⟨42, 8, 94, 64⟩,
   ⟨44, 0, 111, 0⟩,
   ⟨46, 0, 111, 64⟩,
   ⟨48, 8, 111, 0⟩,
   ⟨50, 8, 111, 64⟩]

/-- Camellia key schedule table ks2 (index, bank offset, shift, position), from camellia.c. -/
def ks2 : List CamelliaSubkey :=
  [⟨0, 0, 0, 0⟩,
   ⟨2, 0, 0, 64⟩,
   ⟨4, 12, 0, 0⟩,
   ⟨6, 12, 0, 64⟩,
   ⟨8, 4, 15, 0⟩,
   ⟨10, 4, 15, 64⟩,
   ⟨12, 8, 15, 0⟩,
   ⟨14, 8, 15, 64⟩,
   ⟨16, 4, 30, 0⟩,
   ⟨18, 4, 30, 64⟩,
   ⟨20, 12, 30, 0⟩,
   ⟨22, 12, 30, 64⟩,
   ⟨24, 0, 45, 0⟩,
   ⟨26, 0, 45, 64⟩,
   ⟨28, 8, 45, 0⟩,
   ⟨30, 8, 45, 64⟩,
   ⟨32, 0, 60, 0⟩,
   ⟨34, 0, 60, 64⟩,
   ⟨36, 4, 60, 0⟩,
   ⟨38, 4, 60, 64⟩,
   ⟨40, 12, 60, 0⟩,
   ⟨42, 12, 60, 64⟩,
   ⟨44, 0, 77, 0⟩,
   ⟨46, 0, 77, 64⟩,
   ⟨48, 8, 77, 0⟩,
   ⟨50, 8, 77, 64⟩,
   ⟨52, 4, 94, 0⟩,
   ⟨54, 4, 94, 64⟩,
   ⟨56, 8, 94, 0⟩,
   ⟨58, 8, 94, 64⟩,
   ⟨60, 0, 111, 0⟩,
   ⟨62, 0, 111, 64⟩,
   ⟨64, 12, 111, 0⟩,
   ⟨66, 12, 111, 64⟩]

/-- The `CAMELLIA_S` macro: byte-wise substitution through the four S-boxes,
`sbox1..4` on the left word and the rotated tuple `sbox2,3,4,1` on the
right word. -/
def camS (zl zr : Nat) : Nat × Nat :=
  (sbox1T.getD (zl / 16777216 % 256) 0 * 16777216 |||
     sbox2T.getD (zl / 65536 % 256) 0 * 65536 |||
     sbox3T.getD (zl / 256 % 256) 0 * 256 |||
     sbox4T.getD (zl % 256) 0,
   sbox2T.getD (zr / 16777216 % 256) 0 * 16777216 |||
     sbox3T.getD (zr / 65536 % 256) 0 * 65536 |||
     sbox4T.getD (zr / 256 % 256) 0 * 256 |||
     sbox1T.getD (zr % 256) 0)

/-- The `CAMELLIA_P` macro: the linear diffusion layer. -/
def camP (zl zr : Nat) : Nat × Nat :=
  let zl := zl ^^^ rol32 zr 8
  let zr := zr ^^^ rol32 zl 16
  let zl := zl ^^^ ror32 zr 8
  let zr := zr ^^^ ror32 zl 8
  (zl, zr)

/-- The S-layer followed by the P-layer, as performed inside
`CAMELLIA_ROUND` after the key XOR. -/
def camSP (t1 t2 : Nat) : Nat × Nat :=
  camP (camS t1 t2).1 (camS t1 t2).2

/-- The `CAMELLIA_ROUND` macro of camellia.c, as a function from the state
words `(left1, left2, right1, right2)` and the key pair to the new state
`(left1, left2, right1, right2)`. -/
def camelliaRound (k1 k2 l1 l2 r1 r2 : Nat) : Nat × Nat × Nat × Nat :=
  let t := camSP (l1 ^^^ k1) (l2 ^^^ k2)
  (t.2 ^^^ r1, t.1 ^^^ r2, l1, l2)

/-- The `CAMELLIA_FL` macro. -/
def camelliaFL (xl xr kl kr : Nat) : Nat × Nat :=
  let temp1 := xl &&& kl
  let xr := xr ^^^ rol32 temp1 1
  let xl := xl ^^^ (xr ||| kr)
  (xl, xr)

/-- The `CAMELLIA_INV_FL` macro. -/
def camelliaInvFL (yl yr kl kr : Nat) : Nat × Nat :=
  let yl := yl ^^^ (yr ||| kr)
  let temp1 := yl &&& kl
  let yr := yr ^^^ rol32 temp1 1
  (yl, yr)

/-- The 128-bit state of the Camellia round pipeline, as four words; the
first pair is the half the round function is applied to. -/
abbrev CamSt := Nat × Nat × Nat × Nat

/-- The round loop of `camelliaEncryptBlock`: fuel counts the loop variable
`i` down from `nr`; `idx` is the current position of the `ks` pointer.
After the round, when `i = 7`, `13` or `19`, apply `CAMELLIA_FL` to the left
half and `CAMELLIA_INV_FL` to the right half using four further subkey
words.  Returns the final state and the final `ks` position. -/
def camEncRounds (ksl : List Nat) : Nat → Nat → CamSt → CamSt × Nat
  | 0, idx, s => (s, idx)
  | i + 1, idx, s =>
    let s2 := camelliaRound (ksl.getD idx 0) (ksl.getD (idx + 1) 0) s.1 s.2.1 s.2.2.1 s.2.2.2
    if i + 1 = 7 ∨ i + 1 = 13 ∨ i + 1 = 19 then
      let fl := camelliaFL s2.1 s2.2.1 (ksl.getD (idx + 2) 0) (ksl.getD (idx + 3) 0)
      let ifl := camelliaInvFL s2.2.2.1 s2.2.2.2 (ksl.getD (idx + 4) 0) (ksl.getD (idx + 5) 0)
      camEncRounds ksl i (idx + 6) (fl.1, fl.2, ifl.1, ifl.2)
    else
      camEncRounds ksl i (idx + 2) s2

/-- The round loop of `camelliaDecryptBlock`: the `ks` pointer moves down,
each iteration first stepping back by two words, applying the round, and on
`i = 7`, `13`, `19` stepping back four more words and applying
`CAMELLIA_FL` / `CAMELLIA_INV_FL`. -/
def camDecRounds (ksl : List Nat) : Nat → Nat → CamSt → CamSt × Nat
  | 0, idx, s => (s, idx)
  | i + 1, idx, s =>
    let s2 := camelliaRound (ksl.getD (idx - 2) 0) (ksl.getD (idx - 1) 0) s.1 s.2.1 s.2.2.1 s.2.2.2
    if i + 1 = 7 ∨ i + 1 = 13 ∨ i + 1 = 19 then
      let fl := camelliaFL s2.1 s2.2.1 (ksl.getD (idx - 4) 0) (ksl.getD (idx - 3) 0)
      let ifl := camelliaInvFL s2.2.2.1 s2.2.2.2 (ksl.getD (idx - 6) 0) (ksl.getD (idx - 5) 0)
      camDecRounds ksl i (idx - 6) (fl.1, fl.2, ifl.1, ifl.2)
    else
      camDecRounds ksl i (idx - 2) s2

/-- `camelliaEncryptBlock` of camellia.c: big-endian load, whitening with
`kw1`/`kw2` (`ks[0..3]`), the round pipeline, final XOR of the swapped
halves with `kw3`/`kw4` at the final `ks` position, big-endian store of
`(right, left)`. -/
def camelliaEncryptBlock (context : CamelliaContext) (input : List Nat) : List Nat :=
  let left1 := load32be input 0
  let left2 := load32be input 4
  let right1 := load32be input 8
  let right2 := load32be input 12
  let ksl := context.ks
  let left1 := left1 ^^^ ksl.getD 0 0
  let left2 := left2 ^^^ ksl.getD 1 0
  let right1 := right1 ^^^ ksl.getD 2 0
  let right2 := right2 ^^^ ksl.getD 3 0
  let r := camEncRounds ksl context.nr 4 (left1, left2, right1, right2)
  let s := r.1
  let idx := r.2
  store32be (s.2.2.1 ^^^ ksl.getD idx 0) ++ store32be (s.2.2.2 ^^^ ksl.getD (idx + 1) 0) ++
    store32be (s.1 ^^^ ksl.getD (idx + 2) 0) ++ store32be (s.2.1 ^^^ ksl.getD (idx + 3) 0)

/-- `camelliaDecryptBlock` of camellia.c: the `ks` pointer starts at 48
(`nr = 18`) or 64 (`nr = 24`), the rounds run with the halves swapped, and
the schedule is consumed in reverse. -/
def camelliaDecryptBlock (context : CamelliaContext) (input : List Nat) : List Nat :=
  let right1 := load32be input 0
  let right2 := load32be input 4
  let left1 := load32be input 8
  let left2 := load32be input 12
  let ksl := context.ks
  let start := if context.nr = 18 then 48 else 64
  let right1 := right1 ^^^ ksl.getD start 0
  let right2 := right2 ^^^ ksl.getD (start + 1) 0
  let left1 := left1 ^^^ ksl.getD (start + 2) 0
  let left2 := left2 ^^^ ksl.getD (start + 3) 0
  let r := camDecRounds ksl context.nr start (right1, right2, left1, left2)
  let s := r.1
  let idx := r.2 - 4
  store32be (s.2.2.1 ^^^ ksl.getD idx 0) ++ store32be (s.2.2.2 ^^^ ksl.getD (idx + 1) 0) ++
    store32be (s.1 ^^^ ksl.getD (idx + 2) 0) ++ store32be (s.2.1 ^^^ ksl.getD (idx + 3) 0)

/-- The key-loading phase of `camelliaInit`, up to but not including the six
sigma rounds: zero the 64-byte `k` region, copy the key, for a 24-byte key
complement `KR[0..1]` into `KR[2..3]`, then convert `KL` and `KR` from
big-endian storage to host order and set `KB = KL ^^^ KR`. -/
def camelliaLoadKey (key : List Nat) : List Nat :=
  let k := bytesToWords (key ++ List.replicate (64 - key.length) 0)
  let k := if key.length = 24 then
      (k.set 6 (4294967295 ^^^ k.getD 4 0)).set 7 (4294967295 ^^^ k.getD 5 0)
    else k
  (List.range 4).foldl (fun k i =>
    let k := k.set i (byteswap32 (k.getD i 0))
    let k := k.set (4 + i) (byteswap32 (k.getD (4 + i) 0))
    k.set (12 + i) (k.getD i 0 ^^^ k.getD (4 + i) 0)) k

/-- The six sigma rounds of `camelliaInit` generating `KA` (bank 8) and `KB`
(bank 12), with the XOR of `KL` after round 2 and the snapshot of `KA` plus
the XOR of `KR` after round 4. -/
def camelliaKARounds (k : List Nat) : List Nat :=
  (List.range 6).foldl (fun k i =>
    let r := camelliaRound (sigmaT.getD (2 * i) 0) (sigmaT.getD (2 * i + 1) 0)
        (k.getD 12 0) (k.getD 13 0) (k.getD 14 0) (k.getD 15 0)
    let k := (((k.set 12 r.1).set 13 r.2.1).set 14 r.2.2.1).set 15 r.2.2.2
    if i = 1 then
      let k := k.set 12 (k.getD 12 0 ^^^ k.getD 0 0)
      let k := k.set 13 (k.getD 13 0 ^^^ k.getD 1 0)
      let k := k.set 14 (k.getD 14 0 ^^^ k.getD 2 0)
      k.set 15 (k.getD 15 0 ^^^ k.getD 3 0)
    else if i = 3 then
      let k := (((k.set 8 (k.getD 12 0)).set 9 (k.getD 13 0)).set 10 (k.getD 14 0)).set 11 (k.getD 15 0)
      let k := k.set 12 (k.getD 12 0 ^^^ k.getD 4 0)
      let k := k.set 13 (k.getD 13 0 ^^^ k.getD 5 0)
      let k := k.set 14 (k.getD 14 0 ^^^ k.getD 6 0)
      k.set 15 (k.getD 15 0 ^^^ k.getD 7 0)
    else k) k

/-- One entry of the subkey-materialization loop of `camelliaInit`: read two
consecutive words of the selected bank, treated as a cyclic four-word
buffer, rotated left by `shift + position` bits; left shifts are truncated
to 32 bits as in the C code. -/
def camelliaSubkey (k : List Nat) (e : CamelliaSubkey) : List Nat :=
  let n := (e.shift + e.position) / 32
  let m := (e.shift + e.position) % 32
  if m = 0 then
    [k.getD (e.key + n % 4) 0, k.getD (e.key + (n + 1) % 4) 0]
  else
    [k.getD (e.key + n % 4) 0 * 2 ^ m % 4294967296 |||
       k.getD (e.key + (n + 1) % 4) 0 / 2 ^ (32 - m),
     k.getD (e.key + (n + 1) % 4) 0 * 2 ^ m % 4294967296 |||
       k.getD (e.key + (n + 2) % 4) 0 / 2 ^ (32 - m)]

/-- `camelliaInit` of camellia.c: reject unsupported key lengths before any
store to the context; otherwise set `nr`, build the `k` banks, and
materialize the subkey sequence from `ks1` (128-bit keys) or `ks2`
(192/256-bit keys); the table indices are consecutive, so the sequence is
built by appending each two-word subkey in table order. -/
def camelliaInit (context : CamelliaContext) (key : List Nat) : ErrorT × CamelliaContext :=
  if key.length = 16 ∨ key.length = 24 ∨ key.length = 32 then
    let nr := if key.length = 16 then 18 else 24
    let k := camelliaKARounds (camelliaLoadKey key)
    let tbl := if key.length = 16 then ks1 else ks2
    let ksl := tbl.foldl (fun acc e => acc ++ camelliaSubkey k e) []
    (ErrorT.noError, { nr := nr, k := k, ks := ksl })
  else
    (ErrorT.invalidKeyLength, context)


def aes128Key : List Nat := [0, 1, 2, 3, 4, 5, 6, 7, 8, 9, 10, 11, 12, 13, 14, 15]
def aes192Key : List Nat := [0, 1, 2, 3, 4, 5, 6, 7, 8, 9, 10, 11, 12, 13, 14, 15, 16, 17, 18, 19, 20, 21, 22, 23]
def aes256Key : List Nat := [0, 1, 2, 3, 4, 5, 6, 7, 8, 9, 10, 11, 12, 13, 14, 15, 16, 17, 18, 19, 20, 21, 22, 23, 24, 25, 26, 27, 28, 29, 30, 31]
def aesPlain : List Nat := [0, 17, 34, 51, 68, 85, 102, 119, 136, 153, 170, 187, 204, 221, 238, 255]
def aes128Ct : List Nat := [105, 196, 224, 216, 106, 123, 4, 48, 216, 205, 183, 128, 112, 180, 197, 90]
def aes192Ct : List Nat := [221, 169, 124, 164, 134, 76, 223, 224, 110, 175, 112, 160, 236, 13, 113, 145]
def aes256Ct : List Nat := [142, 162, 183, 202, 81, 103, 69, 191, 234, 252, 73, 144, 75, 73, 96, 137]
def cam128Key : List Nat := [1, 35, 69, 103, 137, 171, 205, 239, 254, 220, 186, 152, 118, 84, 50, 16]
def cam192Key : List Nat := [1, 35, 69, 103, 137, 171, 205, 239, 254, 220, 186, 152, 118, 84, 50, 16, 0, 17, 34, 51, 68, 85, 102, 119]
def cam256Key : List Nat := [1, 35, 69, 103, 137, 171, 205, 239, 254, 220, 186, 152, 118, 84, 50, 16, 0, 17, 34, 51, 68, 85, 102, 119, 136, 153, 170, 187, 204, 221, 238, 255]
def camPlain : List Nat := [1, 35, 69, 103, 137, 171, 205, 239, 254, 220, 186, 152, 118, 84, 50, 16]
def cam128Ct : List Nat := [103, 103, 49, 56, 84, 150, 105, 115, 8, 87, 6, 86, 72, 234, 190, 67]
def cam192Ct : List Nat := [180, 153, 52, 1, 179, 233, 150, 248, 78, 229, 206, 231, 215, 155, 9, 185]
def cam256Ct : List Nat := [154, 204, 35, 125, 255, 22, 215, 108, 32, 239, 124, 145, 158, 58, 117, 9]



/-! ### Bit-level facts about packing, bytes and XOR -/

/-- `testBit` of a low part plus a shifted high part. -/
lemma addLow_testBit (k : Nat) : ∀ (a x i : Nat), a < 2 ^ k →
    (a + 2 ^ k * x).testBit i = if i < k then a.testBit i else x.testBit (i - k) := by
  induction k with
  | zero =>
    intro a x i ha
    have hz : a = 0 := by omega
    subst hz
    simp
  | succ k ih =>
    intro a x i ha
    have h2 : a + 2 ^ (k + 1) * x = a + 2 * (2 ^ k * x) := by ring
    have ha2 : a < 2 * 2 ^ k := by
      have hp : 2 ^ (k + 1) = 2 * 2 ^ k := by ring
      omega
    rw [h2]
    cases i with
    | zero =>
      simp only [Nat.testBit_zero, Nat.zero_lt_succ, if_true]
      have hm : (a + 2 * (2 ^ k * x)) % 2 = a % 2 := by omega
      rw [hm]
    | succ i =>
      have hdiv : (a + 2 * (2 ^ k * x)) / 2 = a / 2 + 2 ^ k * x := by omega
      rw [Nat.testBit_succ, hdiv, ih (a / 2) x i (by omega), ← Nat.testBit_succ]
      have hsub : i + 1 - (k + 1) = i - k := by omega
      rw [hsub]
      simp only [Nat.add_lt_add_iff_right]

/-- XOR acts independently on a low byte-part and a shifted high part. -/
lemma xor_pack {k : Nat} (a b x y : Nat) (ha : a < 2 ^ k) (hb : b < 2 ^ k) :
    (a + 2 ^ k * x) ^^^ (b + 2 ^ k * y) = (a ^^^ b) + 2 ^ k * (x ^^^ y) := by
  apply Nat.eq_of_testBit_eq
  intro i
  rw [Nat.testBit_xor, addLow_testBit k a x i ha, addLow_testBit k b y i hb,
    addLow_testBit k (a ^^^ b) (x ^^^ y) i (Nat.xor_lt_two_pow ha hb)]
  by_cases h : i < k <;> simp [h, Nat.testBit_xor]

/-- `xor_pack` at byte granularity. -/
lemma xor_pack8 (a b x y : Nat) (ha : a < 256) (hb : b < 256) :
    (a + 256 * x) ^^^ (b + 256 * y) = (a ^^^ b) + 256 * (x ^^^ y) := by
  have h := xor_pack (k := 8) a b x y (by omega) (by omega)
  norm_num at h
  exact h

/-- XOR of two words is the bytewise XOR of their little-endian bytes. -/
lemma le32_xor (b0 b1 b2 b3 c0 c1 c2 c3 : Nat)
    (h0 : b0 < 256) (h1 : b1 < 256) (h2 : b2 < 256)
    (g0 : c0 < 256) (g1 : c1 < 256) (g2 : c2 < 256) :
    le32 b0 b1 b2 b3 ^^^ le32 c0 c1 c2 c3 =
      le32 (b0 ^^^ c0) (b1 ^^^ c1) (b2 ^^^ c2) (b3 ^^^ c3) := by
  unfold le32
  rw [xor_pack8 _ _ _ _ h0 g0, xor_pack8 _ _ _ _ h1 g1, xor_pack8 _ _ _ _ h2 g2]

/-- A word below `2^32` is the packing of its four bytes. -/
lemma le32_bytes (w : Nat) (hw : w < 4294967296) :
    le32 (byte0 w) (byte1 w) (byte2 w) (byte3 w) = w := by
  unfold le32 byte0 byte1 byte2 byte3
  omega

lemma byte0_lt (w : Nat) : byte0 w < 256 := Nat.mod_lt _ (by norm_num)

lemma byte1_lt (w : Nat) : byte1 w < 256 := Nat.mod_lt _ (by norm_num)

lemma byte2_lt (w : Nat) : byte2 w < 256 := Nat.mod_lt _ (by norm_num)

lemma byte3_lt (w : Nat) : byte3 w < 256 := Nat.mod_lt _ (by norm_num)

lemma byte0_le32 (b0 b1 b2 b3 : Nat) (h0 : b0 < 256) :
    byte0 (le32 b0 b1 b2 b3) = b0 := by unfold byte0 le32; omega

lemma byte1_le32 (b0 b1 b2 b3 : Nat) (h0 : b0 < 256) (h1 : b1 < 256) :
    byte1 (le32 b0 b1 b2 b3) = b1 := by unfold byte1 le32; omega

lemma byte2_le32 (b0 b1 b2 b3 : Nat) (h0 : b0 < 256) (h1 : b1 < 256) (h2 : b2 < 256) :
    byte2 (le32 b0 b1 b2 b3) = b2 := by unfold byte2 le32; omega

lemma byte3_le32 (b0 b1 b2 b3 : Nat) (h0 : b0 < 256) (h1 : b1 < 256) (h2 : b2 < 256)
    (h3 : b3 < 256) : byte3 (le32 b0 b1 b2 b3) = b3 := by unfold byte3 le32; omega

lemma le32_lt (b0 b1 b2 b3 : Nat) (h0 : b0 < 256) (h1 : b1 < 256) (h2 : b2 < 256)
    (h3 : b3 < 256) : le32 b0 b1 b2 b3 < 4294967296 := by unfold le32; omega

/-- XOR of a packed word with an arbitrary word below `2^32`, bytewise. -/
lemma le32_xor_word (b0 b1 b2 b3 kk : Nat) (h0 : b0 < 256) (h1 : b1 < 256)
    (h2 : b2 < 256) (hk : kk < 4294967296) :
    le32 b0 b1 b2 b3 ^^^ kk =
      le32 (b0 ^^^ byte0 kk) (b1 ^^^ byte1 kk) (b2 ^^^ byte2 kk) (b3 ^^^ byte3 kk) := by
  conv_lhs => rw [← le32_bytes kk hk]
  exact le32_xor _ _ _ _ _ _ _ _ h0 h1 h2 (byte0_lt kk) (byte1_lt kk) (byte2_lt kk)

lemma lt256_xor (a b : Nat) (ha : a < 256) (hb : b < 256) : a ^^^ b < 256 := by
  have h := Nat.xor_lt_two_pow (n := 8) (x := a) (y := b) (by omega) (by omega)
  omega

lemma lt32_xor (a b : Nat) (ha : a < 4294967296) (hb : b < 4294967296) :
    a ^^^ b < 4294967296 := by
  have h := Nat.xor_lt_two_pow (n := 32) (x := a) (y := b) (by omega) (by omega)
  omega

lemma lt32_or (a b : Nat) (ha : a < 4294967296) (hb : b < 4294967296) :
    a ||| b < 4294967296 := by
  have h := Nat.or_lt_two_pow (n := 32) (x := a) (y := b) (by omega) (by omega)
  omega

lemma rol32_lt (x n : Nat) (hx : x < 4294967296) : rol32 x n < 4294967296 := by
  unfold rol32
  refine lt32_or _ _ (Nat.mod_lt _ (by norm_num)) ?h
  have h := Nat.div_le_self x (2 ^ (32 - n))
  omega

lemma ror32_lt (x n : Nat) (hx : x < 4294967296) : ror32 x n < 4294967296 := by
  unfold ror32
  refine lt32_or _ _ ?h (Nat.mod_lt _ (by norm_num))
  have h := Nat.div_le_self x (2 ^ n)
  omega

/-- Loading the stored bytes of a word below `2^32` gives the word back. -/
lemma load32be_store32be (w : Nat) (hw : w < 4294967296) :
    load32be (store32be w) 0 = w := by
  unfold load32be store32be
  simp only [List.getD_cons_zero, List.getD_cons_succ]
  omega

/-! ### Table facts -/

lemma sboxT_length : sboxT.length = 256 := by rfl

lemma isboxT_length : isboxT.length = 256 := by rfl

lemma mul2T_length : mul2T.length = 256 := by rfl

lemma sb_ball_lt : ∀ x < 256, sb x < 256 := by decide

lemma isb_ball_lt : ∀ x < 256, isb x < 256 := by decide

lemma m2_ball_lt : ∀ x < 256, m2 x < 256 := by decide

lemma sb_lt (x : Nat) : sb x < 256 := by
  by_cases h : x < 256
  · exact sb_ball_lt x h
  · unfold sb
    rw [List.getD_eq_default _ _ (by rw [sboxT_length]; omega)]
    norm_num

lemma isb_lt (x : Nat) : isb x < 256 := by
  by_cases h : x < 256
  · exact isb_ball_lt x h
  · unfold isb
    rw [List.getD_eq_default _ _ (by rw [isboxT_length]; omega)]
    norm_num

lemma m2_lt (x : Nat) : m2 x < 256 := by
  by_cases h : x < 256
  · exact m2_ball_lt x h
  · unfold m2
    rw [List.getD_eq_default _ _ (by rw [mul2T_length]; omega)]
    norm_num

/-- The inverse S-box inverts the forward S-box. -/
lemma isb_sb : ∀ x < 256, isb (sb x) = x := by decide

/-- The forward S-box inverts the inverse S-box. -/
lemma sb_isb : ∀ x < 256, sb (isb x) = x := by decide

/-- Closed form of the `mul2` table: multiplication by x in
GF(2^8) with reduction polynomial 0x11B. -/
def xtimeF (x : Nat) : Nat := 2 * x ^^^ (if x.testBit 7 then 283 else 0)

lemma m2_eq_xtimeF : ∀ x < 256, m2 x = xtimeF x := by decide

/-- XOR is left-commutative. -/
lemma xor_left_comm (a b c : Nat) : a ^^^ (b ^^^ c) = b ^^^ (a ^^^ c) := by
  rw [← Nat.xor_assoc, Nat.xor_comm a b, Nat.xor_assoc]

/-- Doubling distributes over XOR. -/
lemma two_mul_xor (x y : Nat) : 2 * (x ^^^ y) = 2 * x ^^^ 2 * y := by
  apply Nat.eq_of_testBit_eq
  intro i
  have e : ∀ a : Nat, 2 * a / 2 = a := fun a => by omega
  cases i with
  | zero =>
    simp [Nat.testBit_zero, Nat.testBit_xor, Nat.mul_mod_right]
  | succ i =>
    rw [Nat.testBit_succ, e]
    conv_rhs => rw [Nat.testBit_xor]
    rw [Nat.testBit_succ, e, Nat.testBit_succ, e, ← Nat.testBit_xor]

/-- `xtimeF` is GF(2)-linear. -/
lemma xtimeF_xor (x y : Nat) : xtimeF (x ^^^ y) = xtimeF x ^^^ xtimeF y := by
  unfold xtimeF
  rw [two_mul_xor, Nat.testBit_xor]
  have hx : (if (x.testBit 7).xor (y.testBit 7) then 283 else 0) =
      (if x.testBit 7 then 283 else 0) ^^^ (if y.testBit 7 then 283 else 0) := by
    cases x.testBit 7 <;> cases y.testBit 7 <;> simp [Nat.xor_self]
  rw [hx]
  simp [Nat.xor_assoc, Nat.xor_comm, xor_left_comm]

/-- The `mul2` lookup is GF(2)-linear on bytes. -/
lemma m2_xor (x y : Nat) (hx : x < 256) (hy : y < 256) :
    m2 (x ^^^ y) = m2 x ^^^ m2 y := by
  rw [m2_eq_xtimeF _ (lt256_xor x y hx hy), m2_eq_xtimeF _ hx, m2_eq_xtimeF _ hy,
    xtimeF_xor]

/-! ### MixColumns is inverted by InvMixColumns -/

/-- Componentwise XOR on state columns. -/
def cxor : Nat × Nat × Nat × Nat → Nat × Nat × Nat × Nat → Nat × Nat × Nat × Nat
  | (a0, a1, a2, a3), (b0, b1, b2, b3) =>
    (a0 ^^^ b0, a1 ^^^ b1, a2 ^^^ b2, a3 ^^^ b3)

/-- All four column entries are bytes. -/
def colOk (c : Nat × Nat × Nat × Nat) : Prop :=
  c.1 < 256 ∧ c.2.1 < 256 ∧ c.2.2.1 < 256 ∧ c.2.2.2 < 256

/-- `mixCol` with the table lookup replaced by its closed form. -/
def mixColF : Nat × Nat × Nat × Nat → Nat × Nat × Nat × Nat
  | (b0, b1, b2, b3) =>
    let p := b0 ^^^ b1 ^^^ b2 ^^^ b3
    (p ^^^ b0 ^^^ xtimeF (b0 ^^^ b1), p ^^^ b1 ^^^ xtimeF (b1 ^^^ b2),
     p ^^^ b2 ^^^ xtimeF (b2 ^^^ b3), p ^^^ b3 ^^^ xtimeF (b3 ^^^ b0))

/-- `invMixCol` with the table lookup replaced by its closed form. -/
def invMixColF : Nat × Nat × Nat × Nat → Nat × Nat × Nat × Nat
  | (b0, b1, b2, b3) =>
    let q0 := b0 ^^^ b1 ^^^ b2 ^^^ b3
    let q := q0 ^^^ xtimeF (xtimeF (xtimeF q0))
    let p := q ^^^ xtimeF (xtimeF (b0 ^^^ b2))
    let q2 := q ^^^ xtimeF (xtimeF (b1 ^^^ b3))
    (p ^^^ b0 ^^^ xtimeF (b0 ^^^ b1), q2 ^^^ b1 ^^^ xtimeF (b1 ^^^ b2),
     p ^^^ b2 ^^^ xtimeF (b2 ^^^ b3), q2 ^^^ b3 ^^^ xtimeF (b3 ^^^ b0))

lemma xtimeF_lt : ∀ x < 256, xtimeF x < 256 := by decide

lemma mixCol_eq_F (b0 b1 b2 b3 : Nat) (h0 : b0 < 256) (h1 : b1 < 256)
    (h2 : b2 < 256) (h3 : b3 < 256) :
    mixCol (b0, b1, b2, b3) = mixColF (b0, b1, b2, b3) := by
  simp only [mixCol, mixColF]
  rw [m2_eq_xtimeF _ (lt256_xor b0 b1 h0 h1), m2_eq_xtimeF _ (lt256_xor b1 b2 h1 h2),
    m2_eq_xtimeF _ (lt256_xor b2 b3 h2 h3), m2_eq_xtimeF _ (lt256_xor b3 b0 h3 h0)]

lemma invMixCol_eq_F (b0 b1 b2 b3 : Nat) (h0 : b0 < 256) (h1 : b1 < 256)
    (h2 : b2 < 256) (h3 : b3 < 256) :
    invMixCol (b0, b1, b2, b3) = invMixColF (b0, b1, b2, b3) := by
  have hq0 : b0 ^^^ b1 ^^^ b2 ^^^ b3 < 256 :=
    lt256_xor _ _ (lt256_xor _ _ (lt256_xor _ _ h0 h1) h2) h3
  simp only [invMixCol, invMixColF]
  rw [m2_eq_xtimeF _ hq0, m2_eq_xtimeF _ (xtimeF_lt _ hq0),
    m2_eq_xtimeF _ (xtimeF_lt _ (xtimeF_lt _ hq0)),
    m2_eq_xtimeF _ (lt256_xor b0 b2 h0 h2), m2_eq_xtimeF _ (xtimeF_lt _ (lt256_xor b0 b2 h0 h2)),
    m2_eq_xtimeF _ (lt256_xor b1 b3 h1 h3), m2_eq_xtimeF _ (xtimeF_lt _ (lt256_xor b1 b3 h1 h3)),
    m2_eq_xtimeF _ (lt256_xor b0 b1 h0 h1), m2_eq_xtimeF _ (lt256_xor b1 b2 h1 h2),
    m2_eq_xtimeF _ (lt256_xor b2 b3 h2 h3), m2_eq_xtimeF _ (lt256_xor b3 b0 h3 h0)]

instance : Std.Associative (fun (a b : Nat) => a ^^^ b) := ⟨Nat.xor_assoc⟩

instance : Std.Commutative (fun (a b : Nat) => a ^^^ b) := ⟨Nat.xor_comm⟩

lemma mixColF_linear (a b : Nat × Nat × Nat × Nat) :
    mixColF (cxor a b) = cxor (mixColF a) (mixColF b) := by
  obtain ⟨a0, a1, a2, a3⟩ := a
  obtain ⟨b0, b1, b2, b3⟩ := b
  simp only [mixColF, cxor, xtimeF_xor, Prod.mk.injEq]
  refine ⟨?e0, ?e1, ?e2, ?e3⟩ <;> ac_rfl

lemma invMixColF_linear (a b : Nat × Nat × Nat × Nat) :
    invMixColF (cxor a b) = cxor (invMixColF a) (invMixColF b) := by
  obtain ⟨a0, a1, a2, a3⟩ := a
  obtain ⟨b0, b1, b2, b3⟩ := b
  simp only [invMixColF, cxor, xtimeF_xor, Prod.mk.injEq]
  refine ⟨?e0, ?e1, ?e2, ?e3⟩ <;> ac_rfl

lemma invF_mixF_axis0 : ∀ x < 256, invMixColF (mixColF (x, 0, 0, 0)) = (x, 0, 0, 0) := by decide

lemma invF_mixF_axis1 : ∀ x < 256, invMixColF (mixColF (0, x, 0, 0)) = (0, x, 0, 0) := by decide

lemma invF_mixF_axis2 : ∀ x < 256, invMixColF (mixColF (0, 0, x, 0)) = (0, 0, x, 0) := by decide

lemma invF_mixF_axis3 : ∀ x < 256, invMixColF (mixColF (0, 0, 0, x)) = (0, 0, 0, x) := by decide

lemma mixF_invF_axis0 : ∀ x < 256, mixColF (invMixColF (x, 0, 0, 0)) = (x, 0, 0, 0) := by decide

lemma mixF_invF_axis1 : ∀ x < 256, mixColF (invMixColF (0, x, 0, 0)) = (0, x, 0, 0) := by decide

lemma mixF_invF_axis2 : ∀ x < 256, mixColF (invMixColF (0, 0, x, 0)) = (0, 0, x, 0) := by decide

lemma mixF_invF_axis3 : ∀ x < 256, mixColF (invMixColF (0, 0, 0, x)) = (0, 0, 0, x) := by decide

lemma col_decomp (b0 b1 b2 b3 : Nat) :
    (b0, b1, b2, b3) =
      cxor (cxor (cxor ((b0, 0, 0, 0) : Nat × Nat × Nat × Nat) (0, b1, 0, 0)) (0, 0, b2, 0))
        (0, 0, 0, b3) := by
  simp [cxor]

lemma invF_mixF (b0 b1 b2 b3 : Nat) (h0 : b0 < 256) (h1 : b1 < 256)
    (h2 : b2 < 256) (h3 : b3 < 256) :
    invMixColF (mixColF (b0, b1, b2, b3)) = (b0, b1, b2, b3) := by
  rw [col_decomp b0 b1 b2 b3, mixColF_linear, mixColF_linear, mixColF_linear,
    invMixColF_linear, invMixColF_linear, invMixColF_linear,
    invF_mixF_axis0 b0 h0, invF_mixF_axis1 b1 h1, invF_mixF_axis2 b2 h2,
    invF_mixF_axis3 b3 h3]

lemma mixF_invF (b0 b1 b2 b3 : Nat) (h0 : b0 < 256) (h1 : b1 < 256)
    (h2 : b2 < 256) (h3 : b3 < 256) :
    mixColF (invMixColF (b0, b1, b2, b3)) = (b0, b1, b2, b3) := by
  rw [col_decomp b0 b1 b2 b3, invMixColF_linear, invMixColF_linear, invMixColF_linear,
    mixColF_linear, mixColF_linear, mixColF_linear,
    mixF_invF_axis0 b0 h0, mixF_invF_axis1 b1 h1, mixF_invF_axis2 b2 h2,
    mixF_invF_axis3 b3 h3]

lemma mixColF_ok (b0 b1 b2 b3 : Nat) (h0 : b0 < 256) (h1 : b1 < 256)
    (h2 : b2 < 256) (h3 : b3 < 256) : colOk (mixColF (b0, b1, b2, b3)) := by
  simp only [mixColF, colOk]
  refine ⟨?g0, ?g1, ?g2, ?g3⟩ <;>
    repeat first
      | exact h0
      | exact h1
      | exact h2
      | exact h3
      | apply xtimeF_lt
      | apply lt256_xor

lemma invMixColF_ok (b0 b1 b2 b3 : Nat) (h0 : b0 < 256) (h1 : b1 < 256)
    (h2 : b2 < 256) (h3 : b3 < 256) : colOk (invMixColF (b0, b1, b2, b3)) := by
  simp only [invMixColF, colOk]
  refine ⟨?g0, ?g1, ?g2, ?g3⟩ <;>
    repeat first
      | exact h0
      | exact h1
      | exact h2
      | exact h3
      | apply xtimeF_lt
      | apply lt256_xor

/-- Tuple form of `mixCol_eq_F`. -/
lemma mixCol_eq_F2 (c : Nat × Nat × Nat × Nat) (hc : colOk c) : mixCol c = mixColF c := by
  obtain ⟨b0, b1, b2, b3⟩ := c
  obtain ⟨h0, h1, h2, h3⟩ := hc
  exact mixCol_eq_F b0 b1 b2 b3 h0 h1 h2 h3

/-- Tuple form of `invMixCol_eq_F`. -/
lemma invMixCol_eq_F2 (c : Nat × Nat × Nat × Nat) (hc : colOk c) :
    invMixCol c = invMixColF c := by
  obtain ⟨b0, b1, b2, b3⟩ := c
  obtain ⟨h0, h1, h2, h3⟩ := hc
  exact invMixCol_eq_F b0 b1 b2 b3 h0 h1 h2 h3

/-- Tuple form of `invF_mixF`. -/
lemma invF_mixF2 (c : Nat × Nat × Nat × Nat) (hc : colOk c) :
    invMixColF (mixColF c) = c := by
  obtain ⟨b0, b1, b2, b3⟩ := c
  obtain ⟨h0, h1, h2, h3⟩ := hc
  exact invF_mixF b0 b1 b2 b3 h0 h1 h2 h3

/-- Tuple form of `mixF_invF`. -/
lemma mixF_invF2 (c : Nat × Nat × Nat × Nat) (hc : colOk c) :
    mixColF (invMixColF c) = c := by
  obtain ⟨b0, b1, b2, b3⟩ := c
  obtain ⟨h0, h1, h2, h3⟩ := hc
  exact mixF_invF b0 b1 b2 b3 h0 h1 h2 h3

/-- Tuple form of `mixColF_ok`. -/
lemma mixColF_ok2 (c : Nat × Nat × Nat × Nat) (hc : colOk c) : colOk (mixColF c) := by
  obtain ⟨b0, b1, b2, b3⟩ := c
  obtain ⟨h0, h1, h2, h3⟩ := hc
  exact mixColF_ok b0 b1 b2 b3 h0 h1 h2 h3

/-- Tuple form of `invMixColF_ok`. -/
lemma invMixColF_ok2 (c : Nat × Nat × Nat × Nat) (hc : colOk c) : colOk (invMixColF c) := by
  obtain ⟨b0, b1, b2, b3⟩ := c
  obtain ⟨h0, h1, h2, h3⟩ := hc
  exact invMixColF_ok b0 b1 b2 b3 h0 h1 h2 h3

/-- `invMixCol` inverts `mixCol` on byte columns. -/
lemma invMixCol_mixCol (c : Nat × Nat × Nat × Nat) (hc : colOk c) :
    invMixCol (mixCol c) = c := by
  rw [mixCol_eq_F2 c hc, invMixCol_eq_F2 _ (mixColF_ok2 c hc), invF_mixF2 c hc]

/-- `mixCol` inverts `invMixCol` on byte columns. -/
lemma mixCol_invMixCol (c : Nat × Nat × Nat × Nat) (hc : colOk c) :
    mixCol (invMixCol c) = c := by
  rw [invMixCol_eq_F2 c hc, mixCol_eq_F2 _ (invMixColF_ok2 c hc), mixF_invF2 c hc]

/-! ### 16-byte state facts -/

/-- A well-formed AES state: 16 bytes. -/
def AesOk (s : List Nat) : Prop := s.length = 16 ∧ ∀ b ∈ s, b < 256

/-- Words usable as a round key: the four words read are below `2^32`. -/
def WOk (k : List Nat) : Prop := ∀ j < 4, k.getD j 0 < 4294967296

lemma list16_exists (s : List Nat) (h : s.length = 16) :
    ∃ b0 b1 b2 b3 b4 b5 b6 b7 b8 b9 b10 b11 b12 b13 b14 b15,
      s = [b0, b1, b2, b3, b4, b5, b6, b7, b8, b9, b10, b11, b12, b13, b14, b15] := by
  obtain ⟨b0, s, rfl⟩ := List.exists_of_length_succ s (show s.length = 15 + 1 by omega)
  obtain ⟨b1, s, rfl⟩ := List.exists_of_length_succ s (show s.length = 14 + 1 by simp only [List.length_cons] at h; omega)
  obtain ⟨b2, s, rfl⟩ := List.exists_of_length_succ s (show s.length = 13 + 1 by simp only [List.length_cons] at h; omega)
  obtain ⟨b3, s, rfl⟩ := List.exists_of_length_succ s (show s.length = 12 + 1 by simp only [List.length_cons] at h; omega)
  obtain ⟨b4, s, rfl⟩ := List.exists_of_length_succ s (show s.length = 11 + 1 by simp only [List.length_cons] at h; omega)
  obtain ⟨b5, s, rfl⟩ := List.exists_of_length_succ s (show s.length = 10 + 1 by simp only [List.length_cons] at h; omega)
  obtain ⟨b6, s, rfl⟩ := List.exists_of_length_succ s (show s.length = 9 + 1 by simp only [List.length_cons] at h; omega)
  obtain ⟨b7, s, rfl⟩ := List.exists_of_length_succ s (show s.length = 8 + 1 by simp only [List.length_cons] at h; omega)
  obtain ⟨b8, s, rfl⟩ := List.exists_of_length_succ s (show s.length = 7 + 1 by simp only [List.length_cons] at h; omega)
  obtain ⟨b9, s, rfl⟩ := List.exists_of_length_succ s (show s.length = 6 + 1 by simp only [List.length_cons] at h; omega)
  obtain ⟨b10, s, rfl⟩ := List.exists_of_length_succ s (show s.length = 5 + 1 by simp only [List.length_cons] at h; omega)
  obtain ⟨b11, s, rfl⟩ := List.exists_of_length_succ s (show s.length = 4 + 1 by simp only [List.length_cons] at h; omega)
  obtain ⟨b12, s, rfl⟩ := List.exists_of_length_succ s (show s.length = 3 + 1 by simp only [List.length_cons] at h; omega)
  obtain ⟨b13, s, rfl⟩ := List.exists_of_length_succ s (show s.length = 2 + 1 by simp only [List.length_cons] at h; omega)
  obtain ⟨b14, s, rfl⟩ := List.exists_of_length_succ s (show s.length = 1 + 1 by simp only [List.length_cons] at h; omega)
  obtain ⟨b15, s, rfl⟩ := List.exists_of_length_succ s (show s.length = 0 + 1 by simp only [List.length_cons] at h; omega)
  obtain rfl : s = [] :=
    List.eq_nil_of_length_eq_zero (by simp only [List.length_cons] at h; omega)
  exact ⟨b0, b1, b2, b3, b4, b5, b6, b7, b8, b9, b10, b11, b12, b13, b14, b15, rfl⟩

lemma aesOk_elim (s : List Nat) (h : AesOk s) :
    ∃ b0 b1 b2 b3 b4 b5 b6 b7 b8 b9 b10 b11 b12 b13 b14 b15,
      s = [b0, b1, b2, b3, b4, b5, b6, b7, b8, b9, b10, b11, b12, b13, b14, b15] ∧ b0 < 256 ∧ b1 < 256 ∧ b2 < 256 ∧ b3 < 256 ∧ b4 < 256 ∧ b5 < 256 ∧ b6 < 256 ∧ b7 < 256 ∧ b8 < 256 ∧ b9 < 256 ∧ b10 < 256 ∧ b11 < 256 ∧ b12 < 256 ∧ b13 < 256 ∧ b14 < 256 ∧ b15 < 256 := by
  obtain ⟨hlen, hb⟩ := h
  obtain ⟨b0, b1, b2, b3, b4, b5, b6, b7, b8, b9, b10, b11, b12, b13, b14, b15, rfl⟩ := list16_exists s hlen
  exact ⟨b0, b1, b2, b3, b4, b5, b6, b7, b8, b9, b10, b11, b12, b13, b14, b15, rfl,
    hb b0 (by simp), hb b1 (by simp), hb b2 (by simp), hb b3 (by simp), hb b4 (by simp), hb b5 (by simp), hb b6 (by simp), hb b7 (by simp), hb b8 (by simp), hb b9 (by simp), hb b10 (by simp), hb b11 (by simp), hb b12 (by simp), hb b13 (by simp), hb b14 (by simp), hb b15 (by simp)⟩

/-! ### List-level AES round operations -/

lemma invShiftRows_shiftRows (s : List Nat) (h : s.length = 16) :
    invShiftRows (shiftRows s) = s := by
  obtain ⟨b0, b1, b2, b3, b4, b5, b6, b7, b8, b9, b10, b11, b12, b13, b14, b15, rfl⟩ := list16_exists s h
  rfl

lemma shiftRows_invShiftRows (s : List Nat) (h : s.length = 16) :
    shiftRows (invShiftRows s) = s := by
  obtain ⟨b0, b1, b2, b3, b4, b5, b6, b7, b8, b9, b10, b11, b12, b13, b14, b15, rfl⟩ := list16_exists s h
  rfl

lemma invSubBytes_subBytes (s : List Nat) (hb : ∀ b ∈ s, b < 256) :
    invSubBytes (subBytes s) = s := by
  induction s with
  | nil => rfl
  | cons a t ih =>
    simp only [subBytes, invSubBytes, List.map_cons]
    rw [isb_sb a (hb a (List.mem_cons_self a t))]
    have ht := ih (fun b m => hb b (List.mem_cons_of_mem a m))
    simp only [subBytes, invSubBytes] at ht
    rw [ht]

lemma subBytes_invSubBytes (s : List Nat) (hb : ∀ b ∈ s, b < 256) :
    subBytes (invSubBytes s) = s := by
  induction s with
  | nil => rfl
  | cons a t ih =>
    simp only [subBytes, invSubBytes, List.map_cons]
    rw [sb_isb a (hb a (List.mem_cons_self a t))]
    have ht := ih (fun b m => hb b (List.mem_cons_of_mem a m))
    simp only [subBytes, invSubBytes] at ht
    rw [ht]

lemma subBytes_ok (s : List Nat) (h : AesOk s) : AesOk (subBytes s) := by
  refine ⟨by simp [subBytes, h.1], ?hb⟩
  intro b hbm
  simp only [subBytes, List.mem_map] at hbm
  obtain ⟨x, _, rfl⟩ := hbm
  exact sb_lt x

lemma invSubBytes_ok (s : List Nat) (h : AesOk s) : AesOk (invSubBytes s) := by
  refine ⟨by simp [invSubBytes, h.1], ?hb⟩
  intro b hbm
  simp only [invSubBytes, List.mem_map] at hbm
  obtain ⟨x, _, rfl⟩ := hbm
  exact isb_lt x

lemma shiftRows_ok (s : List Nat) (h : AesOk s) : AesOk (shiftRows s) := by
  obtain ⟨b0, b1, b2, b3, b4, b5, b6, b7, b8, b9, b10, b11, b12, b13, b14, b15, rfl, h0, h1, h2, h3, h4, h5, h6, h7, h8, h9, h10, h11, h12, h13, h14, h15⟩ := aesOk_elim s h
  refine ⟨rfl, ?hb⟩
  intro b hbm
  simp only [shiftRows, List.mem_cons, List.not_mem_nil, or_false] at hbm
  rcases hbm with rfl | rfl | rfl | rfl | rfl | rfl | rfl | rfl | rfl | rfl | rfl | rfl | rfl | rfl | rfl | rfl <;> omega

lemma invShiftRows_ok (s : List Nat) (h : AesOk s) : AesOk (invShiftRows s) := by
  obtain ⟨b0, b1, b2, b3, b4, b5, b6, b7, b8, b9, b10, b11, b12, b13, b14, b15, rfl, h0, h1, h2, h3, h4, h5, h6, h7, h8, h9, h10, h11, h12, h13, h14, h15⟩ := aesOk_elim s h
  refine ⟨rfl, ?hb⟩
  intro b hbm
  simp only [invShiftRows, List.mem_cons, List.not_mem_nil, or_false] at hbm
  rcases hbm with rfl | rfl | rfl | rfl | rfl | rfl | rfl | rfl | rfl | rfl | rfl | rfl | rfl | rfl | rfl | rfl <;> omega

lemma addRoundKey_bytes (b0 b1 b2 b3 b4 b5 b6 b7 b8 b9 b10 b11 b12 b13 b14 b15 : Nat) (k : List Nat)
    (h0 : b0 < 256) (h1 : b1 < 256) (h2 : b2 < 256) (h3 : b3 < 256) (h4 : b4 < 256) (h5 : b5 < 256) (h6 : b6 < 256) (h7 : b7 < 256) (h8 : b8 < 256) (h9 : b9 < 256) (h10 : b10 < 256) (h11 : b11 < 256) (h12 : b12 < 256) (h13 : b13 < 256) (h14 : b14 < 256) (h15 : b15 < 256)
    (hk : WOk k) :
    addRoundKey [b0, b1, b2, b3, b4, b5, b6, b7, b8, b9, b10, b11, b12, b13, b14, b15] k =
      [b0 ^^^ byte0 (k.getD 0 0),
       b1 ^^^ byte1 (k.getD 0 0),
       b2 ^^^ byte2 (k.getD 0 0),
       b3 ^^^ byte3 (k.getD 0 0),
       b4 ^^^ byte0 (k.getD 1 0),
       b5 ^^^ byte1 (k.getD 1 0),
       b6 ^^^ byte2 (k.getD 1 0),
       b7 ^^^ byte3 (k.getD 1 0),
       b8 ^^^ byte0 (k.getD 2 0),
       b9 ^^^ byte1 (k.getD 2 0),
       b10 ^^^ byte2 (k.getD 2 0),
       b11 ^^^ byte3 (k.getD 2 0),
       b12 ^^^ byte0 (k.getD 3 0),
       b13 ^^^ byte1 (k.getD 3 0),
       b14 ^^^ byte2 (k.getD 3 0),
       b15 ^^^ byte3 (k.getD 3 0)] := by
  have hk0 := hk 0 (by omega)
  have hk1 := hk 1 (by omega)
  have hk2 := hk 2 (by omega)
  have hk3 := hk 3 (by omega)
  simp only [addRoundKey]
  rw [le32_xor_word b0 b1 b2 b3 _ h0 h1 h2 hk0,
    le32_xor_word b4 b5 b6 b7 _ h4 h5 h6 hk1,
    le32_xor_word b8 b9 b10 b11 _ h8 h9 h10 hk2,
    le32_xor_word b12 b13 b14 b15 _ h12 h13 h14 hk3]
  rw [byte0_le32 _ _ _ _ (lt256_xor _ _ h0 (byte0_lt _)),
    byte1_le32 _ _ _ _ (lt256_xor _ _ h0 (byte0_lt _)) (lt256_xor _ _ h1 (byte1_lt _)),
    byte2_le32 _ _ _ _ (lt256_xor _ _ h0 (byte0_lt _)) (lt256_xor _ _ h1 (byte1_lt _)) (lt256_xor _ _ h2 (byte2_lt _)),
    byte3_le32 _ _ _ _ (lt256_xor _ _ h0 (byte0_lt _)) (lt256_xor _ _ h1 (byte1_lt _)) (lt256_xor _ _ h2 (byte2_lt _)) (lt256_xor _ _ h3 (byte3_lt _)),
    byte0_le32 _ _ _ _ (lt256_xor _ _ h4 (byte0_lt _)),
    byte1_le32 _ _ _ _ (lt256_xor _ _ h4 (byte0_lt _)) (lt256_xor _ _ h5 (byte1_lt _)),
    byte2_le32 _ _ _ _ (lt256_xor _ _ h4 (byte0_lt _)) (lt256_xor _ _ h5 (byte1_lt _)) (lt256_xor _ _ h6 (byte2_lt _)),
    byte3_le32 _ _ _ _ (lt256_xor _ _ h4 (byte0_lt _)) (lt256_xor _ _ h5 (byte1_lt _)) (lt256_xor _ _ h6 (byte2_lt _)) (lt256_xor _ _ h7 (byte3_lt _)),
    byte0_le32 _ _ _ _ (lt256_xor _ _ h8 (byte0_lt _)),
    byte1_le32 _ _ _ _ (lt256_xor _ _ h8 (byte0_lt _)) (lt256_xor _ _ h9 (byte1_lt _)),
    byte2_le32 _ _ _ _ (lt256_xor _ _ h8 (byte0_lt _)) (lt256_xor _ _ h9 (byte1_lt _)) (lt256_xor _ _ h10 (byte2_lt _)),
    byte3_le32 _ _ _ _ (lt256_xor _ _ h8 (byte0_lt _)) (lt256_xor _ _ h9 (byte1_lt _)) (lt256_xor _ _ h10 (byte2_lt _)) (lt256_xor _ _ h11 (byte3_lt _)),
    byte0_le32 _ _ _ _ (lt256_xor _ _ h12 (byte0_lt _)),
    byte1_le32 _ _ _ _ (lt256_xor _ _ h12 (byte0_lt _)) (lt256_xor _ _ h13 (byte1_lt _)),
    byte2_le32 _ _ _ _ (lt256_xor _ _ h12 (byte0_lt _)) (lt256_xor _ _ h13 (byte1_lt _)) (lt256_xor _ _ h14 (byte2_lt _)),
    byte3_le32 _ _ _ _ (lt256_xor _ _ h12 (byte0_lt _)) (lt256_xor _ _ h13 (byte1_lt _)) (lt256_xor _ _ h14 (byte2_lt _)) (lt256_xor _ _ h15 (byte3_lt _))]

lemma addRoundKey_ok (s k : List Nat) (h : AesOk s) : AesOk (addRoundKey s k) := by
  obtain ⟨b0, b1, b2, b3, b4, b5, b6, b7, b8, b9, b10, b11, b12, b13, b14, b15, rfl, h0, h1, h2, h3, h4, h5, h6, h7, h8, h9, h10, h11, h12, h13, h14, h15⟩ := aesOk_elim s h
  simp only [addRoundKey]
  refine ⟨rfl, ?hb⟩
  intro b hbm
  simp only [List.mem_cons, List.not_mem_nil, or_false] at hbm
  rcases hbm with rfl | rfl | rfl | rfl | rfl | rfl | rfl | rfl | rfl | rfl | rfl | rfl | rfl | rfl | rfl | rfl
  all_goals first
    | exact byte0_lt _
    | exact byte1_lt _
    | exact byte2_lt _
    | exact byte3_lt _

lemma addRoundKey_cancel (s k : List Nat) (h : AesOk s) (hk : WOk k) :
    addRoundKey (addRoundKey s k) k = s := by
  obtain ⟨b0, b1, b2, b3, b4, b5, b6, b7, b8, b9, b10, b11, b12, b13, b14, b15, rfl, h0, h1, h2, h3, h4, h5, h6, h7, h8, h9, h10, h11, h12, h13, h14, h15⟩ := aesOk_elim s h
  rw [addRoundKey_bytes b0 b1 b2 b3 b4 b5 b6 b7 b8 b9 b10 b11 b12 b13 b14 b15 k h0 h1 h2 h3 h4 h5 h6 h7 h8 h9 h10 h11 h12 h13 h14 h15 hk]
  rw [addRoundKey_bytes _ _ _ _ _ _ _ _ _ _ _ _ _ _ _ _ k
    (lt256_xor _ _ h0 (byte0_lt _)) (lt256_xor _ _ h1 (byte1_lt _)) (lt256_xor _ _ h2 (byte2_lt _)) (lt256_xor _ _ h3 (byte3_lt _)) (lt256_xor _ _ h4 (byte0_lt _)) (lt256_xor _ _ h5 (byte1_lt _)) (lt256_xor _ _ h6 (byte2_lt _)) (lt256_xor _ _ h7 (byte3_lt _)) (lt256_xor _ _ h8 (byte0_lt _)) (lt256_xor _ _ h9 (byte1_lt _)) (lt256_xor _ _ h10 (byte2_lt _)) (lt256_xor _ _ h11 (byte3_lt _)) (lt256_xor _ _ h12 (byte0_lt _)) (lt256_xor _ _ h13 (byte1_lt _)) (lt256_xor _ _ h14 (byte2_lt _)) (lt256_xor _ _ h15 (byte3_lt _)) hk]
  simp only [Nat.xor_cancel_right]

lemma invMixColumns_mixColumns (s : List Nat) (h : AesOk s) :
    invMixColumns (mixColumns s) = s := by
  obtain ⟨b0, b1, b2, b3, b4, b5, b6, b7, b8, b9, b10, b11, b12, b13, b14, b15, rfl, h0, h1, h2, h3, h4, h5, h6, h7, h8, h9, h10, h11, h12, h13, h14, h15⟩ := aesOk_elim s h
  simp only [mixColumns, invMixColumns, Prod.mk.eta]
  rw [invMixCol_mixCol _ ⟨h0, h1, h2, h3⟩, invMixCol_mixCol _ ⟨h4, h5, h6, h7⟩,
    invMixCol_mixCol _ ⟨h8, h9, h10, h11⟩, invMixCol_mixCol _ ⟨h12, h13, h14, h15⟩]

lemma mixColumns_invMixColumns (s : List Nat) (h : AesOk s) :
    mixColumns (invMixColumns s) = s := by
  obtain ⟨b0, b1, b2, b3, b4, b5, b6, b7, b8, b9, b10, b11, b12, b13, b14, b15, rfl, h0, h1, h2, h3, h4, h5, h6, h7, h8, h9, h10, h11, h12, h13, h14, h15⟩ := aesOk_elim s h
  simp only [mixColumns, invMixColumns, Prod.mk.eta]
  rw [mixCol_invMixCol _ ⟨h0, h1, h2, h3⟩, mixCol_invMixCol _ ⟨h4, h5, h6, h7⟩,
    mixCol_invMixCol _ ⟨h8, h9, h10, h11⟩, mixCol_invMixCol _ ⟨h12, h13, h14, h15⟩]

lemma mixColumns_ok (s : List Nat) (h : AesOk s) : AesOk (mixColumns s) := by
  obtain ⟨b0, b1, b2, b3, b4, b5, b6, b7, b8, b9, b10, b11, b12, b13, b14, b15, rfl, h0, h1, h2, h3, h4, h5, h6, h7, h8, h9, h10, h11, h12, h13, h14, h15⟩ := aesOk_elim s h
  have o1 : colOk (mixCol (b0, b1, b2, b3)) := by
    rw [mixCol_eq_F2 _ ⟨h0, h1, h2, h3⟩]
    exact mixColF_ok2 _ ⟨h0, h1, h2, h3⟩
  have o2 : colOk (mixCol (b4, b5, b6, b7)) := by
    rw [mixCol_eq_F2 _ ⟨h4, h5, h6, h7⟩]
    exact mixColF_ok2 _ ⟨h4, h5, h6, h7⟩
  have o3 : colOk (mixCol (b8, b9, b10, b11)) := by
    rw [mixCol_eq_F2 _ ⟨h8, h9, h10, h11⟩]
    exact mixColF_ok2 _ ⟨h8, h9, h10, h11⟩
  have o4 : colOk (mixCol (b12, b13, b14, b15)) := by
    rw [mixCol_eq_F2 _ ⟨h12, h13, h14, h15⟩]
    exact mixColF_ok2 _ ⟨h12, h13, h14, h15⟩
  simp only [mixColumns]
  refine ⟨rfl, ?hb⟩
  intro b hbm
  simp only [List.mem_cons, List.not_mem_nil, or_false] at hbm
  rcases hbm with rfl | rfl | rfl | rfl | rfl | rfl | rfl | rfl | rfl | rfl | rfl | rfl | rfl | rfl | rfl | rfl <;> first
    | exact o1.1
    | exact o1.2.1
    | exact o1.2.2.1
    | exact o1.2.2.2
    | exact o2.1
    | exact o2.2.1
    | exact o2.2.2.1
    | exact o2.2.2.2
    | exact o3.1
    | exact o3.2.1
    | exact o3.2.2.1
    | exact o3.2.2.2
    | exact o4.1
    | exact o4.2.1
    | exact o4.2.2.1
    | exact o4.2.2.2

lemma invMixColumns_ok (s : List Nat) (h : AesOk s) : AesOk (invMixColumns s) := by
  obtain ⟨b0, b1, b2, b3, b4, b5, b6, b7, b8, b9, b10, b11, b12, b13, b14, b15, rfl, h0, h1, h2, h3, h4, h5, h6, h7, h8, h9, h10, h11, h12, h13, h14, h15⟩ := aesOk_elim s h
  have o1 : colOk (invMixCol (b0, b1, b2, b3)) := by
    rw [invMixCol_eq_F2 _ ⟨h0, h1, h2, h3⟩]
    exact invMixColF_ok2 _ ⟨h0, h1, h2, h3⟩
  have o2 : colOk (invMixCol (b4, b5, b6, b7)) := by
    rw [invMixCol_eq_F2 _ ⟨h4, h5, h6, h7⟩]
    exact invMixColF_ok2 _ ⟨h4, h5, h6, h7⟩
  have o3 : colOk (invMixCol (b8, b9, b10, b11)) := by
    rw [invMixCol_eq_F2 _ ⟨h8, h9, h10, h11⟩]
    exact invMixColF_ok2 _ ⟨h8, h9, h10, h11⟩
  have o4 : colOk (invMixCol (b12, b13, b14, b15)) := by
    rw [invMixCol_eq_F2 _ ⟨h12, h13, h14, h15⟩]
    exact invMixColF_ok2 _ ⟨h12, h13, h14, h15⟩
  simp only [invMixColumns]
  refine ⟨rfl, ?hb⟩
  intro b hbm
  simp only [List.mem_cons, List.not_mem_nil, or_false] at hbm
  rcases hbm with rfl | rfl | rfl | rfl | rfl | rfl | rfl | rfl | rfl | rfl | rfl | rfl | rfl | rfl | rfl | rfl <;> first
    | exact o1.1
    | exact o1.2.1
    | exact o1.2.2.1
    | exact o1.2.2.2
    | exact o2.1
    | exact o2.2.1
    | exact o2.2.2.1
    | exact o2.2.2.2
    | exact o3.1
    | exact o3.2.1
    | exact o3.2.2.1
    | exact o3.2.2.2
    | exact o4.1
    | exact o4.2.1
    | exact o4.2.2.1
    | exact o4.2.2.2

/-! ### AES block inversion -/

/-- One full encryption round of aes.c (loop body of `aesEncryptBlock`). -/
def aesEncRoundFn (t k : List Nat) : List Nat :=
  addRoundKey (mixColumns (shiftRows (subBytes t))) k

/-- One full decryption round of aes.c (loop body of `aesDecryptBlock`). -/
def aesDecRoundFn (t k : List Nat) : List Nat :=
  invMixColumns (addRoundKey (invSubBytes (invShiftRows t)) k)

lemma getD_drop (l : List Nat) (n j : Nat) :
    (l.drop n).getD j 0 = l.getD (n + j) 0 := by
  simp only [List.getD, List.getElem?_drop, List.get?_drop]

lemma wok_drop (w : List Nat) (n : Nat) (hw : ∀ j, w.getD j 0 < 4294967296) :
    WOk (w.drop n) := by
  intro j _
  rw [getD_drop]
  exact hw (n + j)

lemma wok_of_all (w : List Nat) (hw : ∀ j, w.getD j 0 < 4294967296) : WOk w :=
  fun j _ => hw j

lemma aesEncRoundFn_ok (t k : List Nat) (h : AesOk t) : AesOk (aesEncRoundFn t k) :=
  addRoundKey_ok _ _ (mixColumns_ok _ (shiftRows_ok _ (subBytes_ok _ h)))

lemma aesDecRoundFn_ok (t k : List Nat) (h : AesOk t) : AesOk (aesDecRoundFn t k) :=
  invMixColumns_ok _ (addRoundKey_ok _ _ (invSubBytes_ok _ (invShiftRows_ok _ h)))

lemma encFold_ok (L : List (List Nat)) :
    ∀ s, AesOk s → AesOk (L.foldl aesEncRoundFn s) := by
  induction L with
  | nil => intro s hs; exact hs
  | cons k t ih =>
    intro s hs
    exact ih _ (aesEncRoundFn_ok s k hs)

lemma decFold_ok (L : List (List Nat)) :
    ∀ s, AesOk s → AesOk (L.foldl aesDecRoundFn s) := by
  induction L with
  | nil => intro s hs; exact hs
  | cons k t ih =>
    intro s hs
    exact ih _ (aesDecRoundFn_ok s k hs)

/-- The inverse rounds, run on the reversed key list, peel off the forward
rounds (with the final `shiftRows ∘ subBytes` of the last round exposed). -/
lemma aes_dec_enc_core (L : List (List Nat)) :
    ∀ s, AesOk s → (∀ k ∈ L, WOk k) →
      L.reverse.foldl aesDecRoundFn (shiftRows (subBytes (L.foldl aesEncRoundFn s))) =
        shiftRows (subBytes s) := by
  induction L with
  | nil => intro s _ _; rfl
  | cons k t ih =>
    intro s hs hk
    simp only [List.foldl_cons, List.reverse_cons, List.foldl_append]
    have hs1 : AesOk (aesEncRoundFn s k) := aesEncRoundFn_ok s k hs
    rw [ih (aesEncRoundFn s k) hs1 (fun q m => hk q (List.mem_cons_of_mem k m))]
    simp only [List.foldl_cons, List.foldl_nil]
    unfold aesDecRoundFn aesEncRoundFn
    have hmix : AesOk (mixColumns (shiftRows (subBytes s))) :=
      mixColumns_ok _ (shiftRows_ok _ (subBytes_ok _ hs))
    have hark : AesOk (addRoundKey (mixColumns (shiftRows (subBytes s))) k) :=
      addRoundKey_ok _ _ hmix
    rw [invShiftRows_shiftRows _ (subBytes_ok _ hark).1,
      invSubBytes_subBytes _ hark.2,
      addRoundKey_cancel _ _ hmix (hk k (List.mem_cons_self k t)),
      invMixColumns_mixColumns _ (shiftRows_ok _ (subBytes_ok _ hs))]

/-- The forward rounds, run after the inverse rounds on the reversed key
list, peel off the inverse rounds. -/
lemma aes_enc_dec_core (L : List (List Nat)) :
    ∀ s, AesOk s → (∀ k ∈ L, WOk k) →
      L.foldl aesEncRoundFn (invSubBytes (invShiftRows (L.reverse.foldl aesDecRoundFn s))) =
        invSubBytes (invShiftRows s) := by
  induction L with
  | nil => intro s _ _; rfl
  | cons k t ih =>
    intro s hs hk
    simp only [List.foldl_cons, List.reverse_cons, List.foldl_append, List.foldl_nil]
    have hz : AesOk (t.reverse.foldl aesDecRoundFn s) := decFold_ok t.reverse s hs
    have hstep : ∀ z, AesOk z →
        aesEncRoundFn (invSubBytes (invShiftRows (aesDecRoundFn z k))) k =
          invSubBytes (invShiftRows z) := by
      intro z hzok
      unfold aesDecRoundFn aesEncRoundFn
      have hark : AesOk (addRoundKey (invSubBytes (invShiftRows z)) k) :=
        addRoundKey_ok _ _ (invSubBytes_ok _ (invShiftRows_ok _ hzok))
      have hinv : AesOk (invMixColumns (addRoundKey (invSubBytes (invShiftRows z)) k)) :=
        invMixColumns_ok _ hark
      rw [subBytes_invSubBytes _ (invShiftRows_ok _ hinv).2,
        shiftRows_invShiftRows _ hinv.1,
        mixColumns_invMixColumns _ hark,
        addRoundKey_cancel _ _ (invSubBytes_ok _ (invShiftRows_ok _ hzok))
          (hk k (List.mem_cons_self k t))]
    rw [hstep _ hz]
    exact ih s hs (fun q m => hk q (List.mem_cons_of_mem k m))

/-- `aesEncryptBlock` as whitening, a fold of full rounds over the round-key
list, and the final round. -/
lemma aesEncryptBlock_eq (context : AesContext) (p : List Nat) :
    aesEncryptBlock context p =
      addRoundKey (shiftRows (subBytes
        (((List.range' 1 (context.nr - 1)).map (fun i => context.w.drop (4 * i))).foldl
          aesEncRoundFn (addRoundKey p context.w))))
        (context.w.drop (4 * context.nr)) := by
  unfold aesEncryptBlock
  rw [List.foldl_map]
  rfl

/-- `aesDecryptBlock` as whitening with the last round key, a fold of
inverse rounds over the reversed round-key list, and the final inverse
round. -/
lemma aesDecryptBlock_eq (context : AesContext) (c : List Nat) :
    aesDecryptBlock context c =
      addRoundKey (invSubBytes (invShiftRows
        ((((List.range' 1 (context.nr - 1)).map (fun i => context.w.drop (4 * i))).reverse).foldl
          aesDecRoundFn (addRoundKey c (context.w.drop (4 * context.nr))))))
        context.w := by
  unfold aesDecryptBlock
  rw [← List.map_reverse, List.foldl_map]
  rfl

/-- Decrypting an encryption returns the plaintext, for any context whose
schedule words are 32-bit values. -/
lemma aes_dec_enc (context : AesContext) (p : List Nat) (hp : AesOk p)
    (hw : ∀ j, context.w.getD j 0 < 4294967296) :
    aesDecryptBlock context (aesEncryptBlock context p) = p := by
  rw [aesEncryptBlock_eq, aesDecryptBlock_eq]
  have hkL : ∀ k ∈ (List.range' 1 (context.nr - 1)).map (fun i => context.w.drop (4 * i)),
      WOk k := by
    intro k m
    simp only [List.mem_map] at m
    obtain ⟨i, _, rfl⟩ := m
    exact wok_drop _ _ hw
  have hs0 : AesOk (addRoundKey p context.w) := addRoundKey_ok _ _ hp
  rw [addRoundKey_cancel _ _
    (shiftRows_ok _ (subBytes_ok _ (encFold_ok _ _ hs0))) (wok_drop _ _ hw)]
  rw [aes_dec_enc_core _ _ hs0 hkL]
  rw [invShiftRows_shiftRows _ (subBytes_ok _ hs0).1, invSubBytes_subBytes _ hs0.2,
    addRoundKey_cancel _ _ hp (wok_of_all _ hw)]

/-- Encrypting a decryption returns the ciphertext, for any context whose
schedule words are 32-bit values. -/
lemma aes_enc_dec (context : AesContext) (c : List Nat) (hc : AesOk c)
    (hw : ∀ j, context.w.getD j 0 < 4294967296) :
    aesEncryptBlock context (aesDecryptBlock context c) = c := by
  rw [aesDecryptBlock_eq, aesEncryptBlock_eq]
  have hkL : ∀ k ∈ (List.range' 1 (context.nr - 1)).map (fun i => context.w.drop (4 * i)),
      WOk k := by
    intro k m
    simp only [List.mem_map] at m
    obtain ⟨i, _, rfl⟩ := m
    exact wok_drop _ _ hw
  have hs0 : AesOk (addRoundKey c (context.w.drop (4 * context.nr))) :=
    addRoundKey_ok _ _ hc
  rw [addRoundKey_cancel _ _
    (invSubBytes_ok _ (invShiftRows_ok _ (decFold_ok _ _ hs0))) (wok_of_all _ hw)]
  rw [aes_enc_dec_core _ _ hs0 hkL]
  rw [subBytes_invSubBytes _ (invShiftRows_ok _ hs0).2,
    shiftRows_invShiftRows _ hs0.1,
    addRoundKey_cancel _ _ hc (wok_drop _ _ hw)]

/-! ### Schedule word bounds for aesInit -/

/-- All entries of a word list are 32-bit values. -/
def AllLt32 (l : List Nat) : Prop := ∀ x ∈ l, x < 4294967296

lemma getD_lt_of_all (l : List Nat) (m : Nat) (h : ∀ x ∈ l, x < m) (hm : 0 < m)
    (i : Nat) : l.getD i 0 < m := by
  by_cases hi : i < l.length
  · rw [List.getD_eq_getElem l 0 hi]
    exact h _ (List.getElem_mem hi)
  · rw [List.getD_eq_default _ _ (by omega)]
    exact hm

lemma bytesToWords_allLt32 (key : List Nat) (h : ∀ b ∈ key, b < 256) :
    AllLt32 (bytesToWords key) := by
  induction key using bytesToWords.induct with
  | case1 b0 b1 b2 b3 rest ih =>
    intro x hx
    simp only [bytesToWords, List.mem_cons] at hx
    rcases hx with rfl | hx
    · exact le32_lt _ _ _ _ (h b0 (by simp)) (h b1 (by simp)) (h b2 (by simp)) (h b3 (by simp))
    · exact ih (fun b hb => h b (by simp [hb])) x hx
  | case2 key h2 =>
    intro x hx
    simp only [bytesToWords] at hx
    exact absurd hx (List.not_mem_nil x)

lemma rcon_lt (j : Nat) : rconT.getD j 0 < 4294967296 := by
  have hball : ∀ i < 11, rconT.getD i 0 < 4294967296 := by decide
  by_cases hj : j < 11
  · exact hball j hj
  · rw [List.getD_eq_default _ _ (show rconT.length ≤ j by
      have : rconT.length = 11 := by rfl
      omega)]
    norm_num

lemma subWord_lt (w : Nat) : subWord w < 4294967296 :=
  le32_lt _ _ _ _ (sb_lt _) (sb_lt _) (sb_lt _) (sb_lt _)

lemma aesTemp_lt (nk : Nat) (ws : List Nat) (i : Nat) (h : AllLt32 ws) :
    aesTemp nk ws i < 4294967296 := by
  unfold aesTemp
  by_cases h0 : i % nk == 0
  · simp only [h0, if_true]
    exact lt32_xor _ _ (subWord_lt _) (rcon_lt _)
  · simp only [h0, Bool.false_eq_true, if_false]
    by_cases h4 : nk > 6 && i % nk == 4
    · simp only [h4, if_true]
      exact subWord_lt _
    · simp only [h4, Bool.false_eq_true, if_false]
      exact getD_lt_of_all _ _ h (by norm_num) _

lemma aesExpandStep_allLt32 (nk : Nat) (ws : List Nat) (h : AllLt32 ws) :
    AllLt32 (aesExpandStep nk ws) := by
  intro x hx
  simp only [aesExpandStep, List.mem_append, List.mem_cons, List.not_mem_nil,
    or_false] at hx
  rcases hx with hx | rfl
  · exact h x hx
  · exact lt32_xor _ _ (getD_lt_of_all _ _ h (by norm_num) _) (aesTemp_lt nk ws _ h)

lemma aesExpand_allLt32 (nk : Nat) : ∀ (n : Nat) (ws : List Nat), AllLt32 ws →
    AllLt32 (aesExpand nk n ws) := by
  intro n
  induction n with
  | zero => intro ws h; exact h
  | succ n ih => intro ws h; exact ih _ (aesExpandStep_allLt32 nk ws h)

/-- Every schedule word of a successfully initialized AES context is a
32-bit value. -/
lemma aesInit_wBound (c : AesContext) (key : List Nat)
    (hlen : key.length = 16 ∨ key.length = 24 ∨ key.length = 32)
    (hkey : ∀ b ∈ key, b < 256) (j : Nat) :
    ((aesInit c key).2).w.getD j 0 < 4294967296 := by
  unfold aesInit
  rw [if_pos hlen]
  exact getD_lt_of_all _ _
    (aesExpand_allLt32 _ _ _ (bytesToWords_allLt32 key hkey)) (by norm_num) j

/-! ### Camellia round pipeline inversion -/

/-- One element of the Camellia round pipeline: a Feistel round with a key
pair, or an FL / FL-inverse insertion with four key words. -/
inductive CamOp where
  | round (k1 k2 : Nat)
  | fl (k1 k2 k3 k4 : Nat)

/-- Forward application of a pipeline element, as in
`camelliaEncryptBlock`. -/
def camStepOp (s : CamSt) (o : CamOp) : CamSt :=
  match o with
  | .round k1 k2 => camelliaRound k1 k2 s.1 s.2.1 s.2.2.1 s.2.2.2
  | .fl k1 k2 k3 k4 =>
    let fl := camelliaFL s.1 s.2.1 k1 k2
    let ifl := camelliaInvFL s.2.2.1 s.2.2.2 k3 k4
    (fl.1, fl.2, ifl.1, ifl.2)

/-- Reverse application of a pipeline element, as in
`camelliaDecryptBlock`: the round is unchanged, the FL keys are applied to
the mirrored halves. -/
def camInvStepOp (o : CamOp) (s : CamSt) : CamSt :=
  match o with
  | .round k1 k2 => camelliaRound k1 k2 s.1 s.2.1 s.2.2.1 s.2.2.2
  | .fl k1 k2 k3 k4 =>
    let fl := camelliaFL s.1 s.2.1 k3 k4
    let ifl := camelliaInvFL s.2.2.1 s.2.2.2 k1 k2
    (fl.1, fl.2, ifl.1, ifl.2)

/-- Swapping the two 64-bit halves of the Camellia state. -/
def swapSt (s : CamSt) : CamSt := (s.2.2.1, s.2.2.2, s.1, s.2.1)

/-- `CAMELLIA_INV_FL` inverts `CAMELLIA_FL` under the same keys. -/
lemma camInvFL_camFL (x1 x2 k1 k2 : Nat) :
    camelliaInvFL (camelliaFL x1 x2 k1 k2).1 (camelliaFL x1 x2 k1 k2).2 k1 k2 =
      (x1, x2) := by
  simp [camelliaFL, camelliaInvFL, Nat.xor_cancel_right]

/-- `CAMELLIA_FL` inverts `CAMELLIA_INV_FL` under the same keys. -/
lemma camFL_camInvFL (y1 y2 k1 k2 : Nat) :
    camelliaFL (camelliaInvFL y1 y2 k1 k2).1 (camelliaInvFL y1 y2 k1 k2).2 k1 k2 =
      (y1, y2) := by
  simp [camelliaFL, camelliaInvFL, Nat.xor_cancel_right]

lemma camInvStepOp_camStepOp (o : CamOp) (s : CamSt) :
    camInvStepOp o (swapSt (camStepOp s o)) = swapSt s := by
  obtain ⟨a1, a2, b1, b2⟩ := s
  cases o with
  | round k1 k2 =>
    simp [camStepOp, camInvStepOp, swapSt, camelliaRound, Nat.xor_cancel_left]
  | fl k1 k2 k3 k4 =>
    simp [camStepOp, camInvStepOp, swapSt, camInvFL_camFL, camFL_camInvFL]

lemma camStepOp_camInvStepOp (o : CamOp) (s : CamSt) :
    camStepOp (swapSt (camInvStepOp o s)) o = swapSt s := by
  obtain ⟨a1, a2, b1, b2⟩ := s
  cases o with
  | round k1 k2 =>
    simp [camStepOp, camInvStepOp, swapSt, camelliaRound, Nat.xor_cancel_left]
  | fl k1 k2 k3 k4 =>
    simp [camStepOp, camInvStepOp, swapSt, camInvFL_camFL, camFL_camInvFL]

/-- The reversed pipeline undoes the forward pipeline. -/
lemma cam_dec_enc_fold (ops : List CamOp) : ∀ s : CamSt,
    ops.foldr camInvStepOp (swapSt (ops.foldl camStepOp s)) = swapSt s := by
  induction ops with
  | nil => intro s; rfl
  | cons o t ih =>
    intro s
    simp only [List.foldl_cons, List.foldr_cons]
    rw [ih (camStepOp s o)]
    exact camInvStepOp_camStepOp o s

/-- The forward pipeline undoes the reversed pipeline. -/
lemma cam_enc_dec_fold (ops : List CamOp) : ∀ s : CamSt,
    ops.foldl camStepOp (swapSt (ops.foldr camInvStepOp s)) = swapSt s := by
  induction ops with
  | nil => intro s; rfl
  | cons o t ih =>
    intro s
    simp only [List.foldl_cons, List.foldr_cons]
    rw [camStepOp_camInvStepOp o (t.foldr camInvStepOp s)]
    exact ih s

/-- The pipeline element list consumed by the round loops, read off the
subkey sequence exactly as the loop of `camelliaEncryptBlock` advances. -/
def camOps (ksl : List Nat) : Nat → Nat → List CamOp
  | 0, _ => []
  | i + 1, idx =>
    CamOp.round (ksl.getD idx 0) (ksl.getD (idx + 1) 0) ::
      (if i + 1 = 7 ∨ i + 1 = 13 ∨ i + 1 = 19 then
        CamOp.fl (ksl.getD (idx + 2) 0) (ksl.getD (idx + 3) 0)
            (ksl.getD (idx + 4) 0) (ksl.getD (idx + 5) 0) ::
          camOps ksl i (idx + 6)
      else camOps ksl i (idx + 2))

/-- Subkey words consumed by `i` loop iterations (two per round, four more
at each FL insertion). -/
def camCost : Nat → Nat
  | 0 => 0
  | i + 1 => (if i + 1 = 7 ∨ i + 1 = 13 ∨ i + 1 = 19 then 6 else 2) + camCost i

/-- The encryption round loop is the fold of `camStepOp` over `camOps`,
and advances the subkey position by `camCost`. -/
lemma camEncRounds_eq (ksl : List Nat) : ∀ (i idx : Nat) (s : CamSt),
    camEncRounds ksl i idx s = ((camOps ksl i idx).foldl camStepOp s, idx + camCost i) := by
  intro i
  induction i with
  | zero => intro idx s; simp [camEncRounds, camOps, camCost]
  | succ i ih =>
    intro idx s
    by_cases h : i + 1 = 7 ∨ i + 1 = 13 ∨ i + 1 = 19
    · simp only [camEncRounds, camOps, camCost, if_pos h, List.foldl_cons]
      rw [ih]
      simp only [camStepOp, Prod.mk.injEq]
      exact ⟨trivial, by omega⟩
    · simp only [camEncRounds, camOps, camCost, if_neg h, List.foldl_cons]
      rw [ih]
      simp only [camStepOp, Prod.mk.injEq]
      exact ⟨trivial, by omega⟩

/-- The pipeline elements in the order the decryption loop applies them. -/
def camOpsDec (ksl : List Nat) : Nat → Nat → List CamOp
  | 0, _ => []
  | i + 1, idx =>
    CamOp.round (ksl.getD (idx - 2) 0) (ksl.getD (idx - 1) 0) ::
      (if i + 1 = 7 ∨ i + 1 = 13 ∨ i + 1 = 19 then
        CamOp.fl (ksl.getD (idx - 6) 0) (ksl.getD (idx - 5) 0)
            (ksl.getD (idx - 4) 0) (ksl.getD (idx - 3) 0) ::
          camOpsDec ksl i (idx - 6)
      else camOpsDec ksl i (idx - 2))

/-- The decryption round loop is the fold of `camInvStepOp` over
`camOpsDec`, and moves the subkey position down by `camCost`. -/
lemma camDecRounds_eq (ksl : List Nat) : ∀ (i idx : Nat) (s : CamSt),
    camDecRounds ksl i idx s =
      ((camOpsDec ksl i idx).foldl (fun s o => camInvStepOp o s) s, idx - camCost i) := by
  intro i
  induction i with
  | zero => intro idx s; simp [camDecRounds, camOpsDec, camCost]
  | succ i ih =>
    intro idx s
    by_cases h : i + 1 = 7 ∨ i + 1 = 13 ∨ i + 1 = 19
    · simp only [camDecRounds, camOpsDec, camCost, if_pos h, List.foldl_cons]
      rw [ih]
      simp only [camInvStepOp, Prod.mk.injEq]
      exact ⟨trivial, by omega⟩
    · simp only [camDecRounds, camOpsDec, camCost, if_neg h, List.foldl_cons]
      rw [ih]
      simp only [camInvStepOp, Prod.mk.injEq]
      exact ⟨trivial, by omega⟩

lemma camOpsDec_18 (ksl : List Nat) :
    camOpsDec ksl 18 48 = (camOps ksl 18 4).reverse := rfl

lemma camOpsDec_24 (ksl : List Nat) :
    camOpsDec ksl 24 64 = (camOps ksl 24 4).reverse := rfl

lemma camCost_18 : camCost 18 = 44 := rfl

lemma camCost_24 : camCost 24 = 60 := rfl

lemma camEncRounds_18 (ksl : List Nat) (s : CamSt) :
    camEncRounds ksl 18 4 s = ((camOps ksl 18 4).foldl camStepOp s, 48) := by
  rw [camEncRounds_eq, camCost_18]

lemma camEncRounds_24 (ksl : List Nat) (s : CamSt) :
    camEncRounds ksl 24 4 s = ((camOps ksl 24 4).foldl camStepOp s, 64) := by
  rw [camEncRounds_eq, camCost_24]

lemma camDecRounds_18 (ksl : List Nat) (s : CamSt) :
    camDecRounds ksl 18 48 s = ((camOps ksl 18 4).foldr camInvStepOp s, 4) := by
  rw [camDecRounds_eq, camOpsDec_18, List.foldl_reverse, camCost_18]

lemma camDecRounds_24 (ksl : List Nat) (s : CamSt) :
    camDecRounds ksl 24 64 s = ((camOps ksl 24 4).foldr camInvStepOp s, 4) := by
  rw [camDecRounds_eq, camOpsDec_24, List.foldl_reverse, camCost_24]

/-! ### Camellia word bounds -/

/-- All four state words are 32-bit values. -/
def StOk (s : CamSt) : Prop :=
  s.1 < 4294967296 ∧ s.2.1 < 4294967296 ∧ s.2.2.1 < 4294967296 ∧ s.2.2.2 < 4294967296

/-- Every subkey word read from the schedule is a 32-bit value. -/
def KslOk (ksl : List Nat) : Prop := ∀ j, ksl.getD j 0 < 4294967296

lemma sbox1_ball_lt : ∀ x < 256, sbox1T.getD x 0 < 256 := by decide

lemma sbox2_ball_lt : ∀ x < 256, sbox2T.getD x 0 < 256 := by decide

lemma sbox3_ball_lt : ∀ x < 256, sbox3T.getD x 0 < 256 := by decide

lemma sbox4_ball_lt : ∀ x < 256, sbox4T.getD x 0 < 256 := by decide

lemma sbox1_lt (x : Nat) : sbox1T.getD x 0 < 256 := by
  by_cases h : x < 256
  · exact sbox1_ball_lt x h
  · rw [List.getD_eq_default _ _ (show sbox1T.length ≤ x by
      have hl : sbox1T.length = 256 := by rfl
      omega)]
    norm_num

lemma sbox2_lt (x : Nat) : sbox2T.getD x 0 < 256 := by
  by_cases h : x < 256
  · exact sbox2_ball_lt x h
  · rw [List.getD_eq_default _ _ (show sbox2T.length ≤ x by
      have hl : sbox2T.length = 256 := by rfl
      omega)]
    norm_num

lemma sbox3_lt (x : Nat) : sbox3T.getD x 0 < 256 := by
  by_cases h : x < 256
  · exact sbox3_ball_lt x h
  · rw [List.getD_eq_default _ _ (show sbox3T.length ≤ x by
      have hl : sbox3T.length = 256 := by rfl
      omega)]
    norm_num

lemma sbox4_lt (x : Nat) : sbox4T.getD x 0 < 256 := by
  by_cases h : x < 256
  · exact sbox4_ball_lt x h
  · rw [List.getD_eq_default _ _ (show sbox4T.length ≤ x by
      have hl : sbox4T.length = 256 := by rfl
      omega)]
    norm_num

lemma camS_lt (zl zr : Nat) :
    (camS zl zr).1 < 4294967296 ∧ (camS zl zr).2 < 4294967296 := by
  unfold camS
  constructor
  · refine lt32_or _ _ (lt32_or _ _ (lt32_or _ _ ?_ ?_) ?_) ?_
    · have h := sbox1_lt (zl / 16777216 % 256); omega
    · have h := sbox2_lt (zl / 65536 % 256); omega
    · have h := sbox3_lt (zl / 256 % 256); omega
    · have h := sbox4_lt (zl % 256); omega
  · refine lt32_or _ _ (lt32_or _ _ (lt32_or _ _ ?_ ?_) ?_) ?_
    · have h := sbox2_lt (zr / 16777216 % 256); omega
    · have h := sbox3_lt (zr / 65536 % 256); omega
    · have h := sbox4_lt (zr / 256 % 256); omega
    · have h := sbox1_lt (zr % 256); omega

lemma camSP_lt (t1 t2 : Nat) :
    (camSP t1 t2).1 < 4294967296 ∧ (camSP t1 t2).2 < 4294967296 := by
  obtain ⟨h1, h2⟩ := camS_lt t1 t2
  unfold camSP camP
  refine ⟨?ha, ?hb⟩
  · exact lt32_xor _ _ (lt32_xor _ _ h1 (rol32_lt _ _ h2))
      (ror32_lt _ _ (lt32_xor _ _ h2 (rol32_lt _ _ (lt32_xor _ _ h1 (rol32_lt _ _ h2)))))
  · refine lt32_xor _ _
      (lt32_xor _ _ h2 (rol32_lt _ _ (lt32_xor _ _ h1 (rol32_lt _ _ h2)))) ?hc
    refine ror32_lt _ _ ?hd
    exact lt32_xor _ _ (lt32_xor _ _ h1 (rol32_lt _ _ h2))
      (ror32_lt _ _ (lt32_xor _ _ h2 (rol32_lt _ _ (lt32_xor _ _ h1 (rol32_lt _ _ h2)))))

lemma camelliaRound_stOk (k1 k2 l1 l2 r1 r2 : Nat)
    (hl1 : l1 < 4294967296) (hl2 : l2 < 4294967296)
    (hr1 : r1 < 4294967296) (hr2 : r2 < 4294967296) :
    StOk (camelliaRound k1 k2 l1 l2 r1 r2) := by
  obtain ⟨h1, h2⟩ := camSP_lt (l1 ^^^ k1) (l2 ^^^ k2)
  exact ⟨lt32_xor _ _ h2 hr1, lt32_xor _ _ h1 hr2, hl1, hl2⟩

lemma camelliaFL_stOk (x1 x2 k1 k2 : Nat) (h1 : x1 < 4294967296)
    (h2 : x2 < 4294967296) (hk2 : k2 < 4294967296) :
    (camelliaFL x1 x2 k1 k2).1 < 4294967296 ∧ (camelliaFL x1 x2 k1 k2).2 < 4294967296 := by
  unfold camelliaFL
  have hxr : x2 ^^^ rol32 (x1 &&& k1) 1 < 4294967296 :=
    lt32_xor _ _ h2 (rol32_lt _ _ (by have h := Nat.and_le_left (n := x1) (m := k1); omega))
  exact ⟨lt32_xor _ _ h1 (lt32_or _ _ hxr hk2), hxr⟩

lemma camelliaInvFL_stOk (y1 y2 k1 k2 : Nat) (h1 : y1 < 4294967296)
    (h2 : y2 < 4294967296) (hk2 : k2 < 4294967296) :
    (camelliaInvFL y1 y2 k1 k2).1 < 4294967296 ∧
      (camelliaInvFL y1 y2 k1 k2).2 < 4294967296 := by
  unfold camelliaInvFL
  have hyl : y1 ^^^ (y2 ||| k2) < 4294967296 := lt32_xor _ _ h1 (lt32_or _ _ h2 hk2)
  exact ⟨hyl, lt32_xor _ _ h2 (rol32_lt _ _ (by
    have h := Nat.and_le_left (n := y1 ^^^ (y2 ||| k2)) (m := k1); omega))⟩

/-- FL keys of a pipeline element are 32-bit values (rounds need no key
bound: the S-layer output is bounded for any input). -/
def OpOk : CamOp → Prop
  | .round _ _ => True
  | .fl k1 k2 k3 k4 => k1 < 4294967296 ∧ k2 < 4294967296 ∧ k3 < 4294967296 ∧ k4 < 4294967296

lemma camStepOp_stOk (s : CamSt) (o : CamOp) (hs : StOk s) (ho : OpOk o) :
    StOk (camStepOp s o) := by
  obtain ⟨h1, h2, h3, h4⟩ := hs
  cases o with
  | round k1 k2 => exact camelliaRound_stOk k1 k2 _ _ _ _ h1 h2 h3 h4
  | fl k1 k2 k3 k4 =>
    obtain ⟨g1, g2, g3, g4⟩ := ho
    obtain ⟨f1, f2⟩ := camelliaFL_stOk s.1 s.2.1 k1 k2 h1 h2 g2
    obtain ⟨f3, f4⟩ := camelliaInvFL_stOk s.2.2.1 s.2.2.2 k3 k4 h3 h4 g4
    exact ⟨f1, f2, f3, f4⟩

lemma camFold_stOk (ops : List CamOp) : ∀ s, (∀ o ∈ ops, OpOk o) → StOk s →
    StOk (ops.foldl camStepOp s) := by
  induction ops with
  | nil => intro s _ hs; exact hs
  | cons o t ih =>
    intro s ho hs
    exact ih _ (fun q m => ho q (List.mem_cons_of_mem o m))
      (camStepOp_stOk s o hs (ho o (List.mem_cons_self o t)))

lemma camOps_opOk (ksl : List Nat) (h : KslOk ksl) : ∀ i idx,
    ∀ o ∈ camOps ksl i idx, OpOk o := by
  intro i
  induction i with
  | zero => intro idx o m; simp [camOps] at m
  | succ i ih =>
    intro idx o m
    by_cases hc : i + 1 = 7 ∨ i + 1 = 13 ∨ i + 1 = 19
    · simp only [camOps, if_pos hc, List.mem_cons] at m
      rcases m with rfl | rfl | m
      · trivial
      · exact ⟨h _, h _, h _, h _⟩
      · exact ih _ o m
    · simp only [camOps, if_neg hc, List.mem_cons] at m
      rcases m with rfl | m
      · trivial
      · exact ih _ o m

/-! ### Bounds on the camelliaInit output -/

lemma foldl_preserve {α β : Type} (P : α → Prop) (f : α → β → α) :
    ∀ (l : List β) (a : α), (∀ a b, P a → P (f a b)) → P a → P (l.foldl f a) := by
  intro l
  induction l with
  | nil => intro a _ h; exact h
  | cons b t ih => intro a hf h; exact ih _ hf (hf a b h)

lemma allLt32_set (l : List Nat) (i v : Nat) (h : AllLt32 l) (hv : v < 4294967296) :
    AllLt32 (l.set i v) := by
  intro x hx
  rcases List.mem_or_eq_of_mem_set hx with hx | rfl
  · exact h x hx
  · exact hv

lemma byteswap32_lt (x : Nat) : byteswap32 x < 4294967296 := by
  unfold byteswap32
  omega

lemma camelliaLoadKey_allLt32 (key : List Nat) (hb : ∀ b ∈ key, b < 256) :
    AllLt32 (camelliaLoadKey key) := by
  have hwords : AllLt32 (bytesToWords (key ++ List.replicate (64 - key.length) 0)) := by
    apply bytesToWords_allLt32
    intro b hbm
    rcases List.mem_append.mp hbm with hbm | hbm
    · exact hb b hbm
    · rw [List.eq_of_mem_replicate hbm]; norm_num
  unfold camelliaLoadKey
  apply foldl_preserve
  · intro k i hk
    have h1 : AllLt32 (k.set i (byteswap32 (k.getD i 0))) :=
      allLt32_set _ _ _ hk (byteswap32_lt _)
    have h2 : AllLt32 ((k.set i (byteswap32 (k.getD i 0))).set (4 + i)
        (byteswap32 ((k.set i (byteswap32 (k.getD i 0))).getD (4 + i) 0))) :=
      allLt32_set _ _ _ h1 (byteswap32_lt _)
    exact allLt32_set _ _ _ h2 (lt32_xor _ _
      (getD_lt_of_all _ _ h2 (by norm_num) _) (getD_lt_of_all _ _ h2 (by norm_num) _))
  · by_cases h24 : key.length = 24
    · rw [if_pos h24]
      have hs1 : AllLt32 ((bytesToWords (key ++ List.replicate (64 - key.length) 0)).set 6
          (4294967295 ^^^ (bytesToWords (key ++ List.replicate (64 - key.length) 0)).getD 4 0)) :=
        allLt32_set _ _ _ hwords (lt32_xor _ _ (by norm_num)
          (getD_lt_of_all _ _ hwords (by norm_num) _))
      exact allLt32_set _ _ _ hs1 (lt32_xor _ _ (by norm_num)
        (getD_lt_of_all _ _ hwords (by norm_num) _))
    · rw [if_neg h24]
      exact hwords

lemma sigma_lt (j : Nat) : sigmaT.getD j 0 < 4294967296 := by
  have hball : ∀ i < 12, sigmaT.getD i 0 < 4294967296 := by decide
  by_cases hj : j < 12
  · exact hball j hj
  · rw [List.getD_eq_default _ _ (show sigmaT.length ≤ j by
      have hl : sigmaT.length = 12 := by rfl
      omega)]
    norm_num

lemma camelliaKARounds_allLt32 (k : List Nat) (hk : AllLt32 k) :
    AllLt32 (camelliaKARounds k) := by
  unfold camelliaKARounds
  apply foldl_preserve _ _ _ _ _ hk
  intro k i hkk
  set r := camelliaRound (sigmaT.getD (2 * i) 0) (sigmaT.getD (2 * i + 1) 0)
    (k.getD 12 0) (k.getD 13 0) (k.getD 14 0) (k.getD 15 0) with hr
  obtain ⟨hc1, hc2, hc3, hc4⟩ : StOk r :=
    camelliaRound_stOk _ _ _ _ _ _ (getD_lt_of_all _ _ hkk (by norm_num) _)
      (getD_lt_of_all _ _ hkk (by norm_num) _) (getD_lt_of_all _ _ hkk (by norm_num) _)
      (getD_lt_of_all _ _ hkk (by norm_num) _)
  set K1 := (((k.set 12 r.1).set 13 r.2.1).set 14 r.2.2.1).set 15 r.2.2.2 with hK1
  have hset : AllLt32 K1 := by
    rw [hK1]
    exact allLt32_set _ _ _ (allLt32_set _ _ _ (allLt32_set _ _ _
      (allLt32_set _ _ _ hkk hc1) hc2) hc3) hc4
  have hxorset : ∀ (l : List Nat) (a b c : Nat), AllLt32 l →
      AllLt32 (l.set a (l.getD a 0 ^^^ l.getD b 0)) := fun l a b c hl =>
    allLt32_set _ _ _ hl (lt32_xor _ _ (getD_lt_of_all _ _ hl (by norm_num) _)
      (getD_lt_of_all _ _ hl (by norm_num) _))
  by_cases h1 : i = 1
  · simp only [if_pos h1]
    exact hxorset _ _ _ 0 (hxorset _ _ _ 0 (hxorset _ _ _ 0 (hxorset _ _ _ 0 hset)))
  · by_cases h3 : i = 3
    · simp only [if_neg h1, if_pos h3]
      have hcopy : AllLt32 ((((K1.set 8 (K1.getD 12 0)).set 9 (K1.getD 13 0)).set 10
          (K1.getD 14 0)).set 11 (K1.getD 15 0)) := by
        apply allLt32_set
        apply allLt32_set
        apply allLt32_set
        apply allLt32_set
        · exact hset
        all_goals exact getD_lt_of_all _ _ hset (by norm_num) _
      exact hxorset _ _ _ 0 (hxorset _ _ _ 0 (hxorset _ _ _ 0 (hxorset _ _ _ 0 hcopy)))
    · simp only [if_neg h1, if_neg h3]
      exact hset

lemma camelliaSubkey_allLt32 (k : List Nat) (e : CamelliaSubkey) (hk : AllLt32 k) :
    ∀ x ∈ camelliaSubkey k e, x < 4294967296 := by
  intro x hx
  unfold camelliaSubkey at hx
  by_cases hm : (e.shift + e.position) % 32 = 0
  · rw [if_pos hm] at hx
    simp only [List.mem_cons, List.not_mem_nil, or_false] at hx
    rcases hx with rfl | rfl <;> exact getD_lt_of_all _ _ hk (by norm_num) _
  · rw [if_neg hm] at hx
    simp only [List.mem_cons, List.not_mem_nil, or_false] at hx
    have hd1 : k.getD (e.key + ((e.shift + e.position) / 32 + 1) % 4) 0 /
        2 ^ (32 - (e.shift + e.position) % 32) < 4294967296 := by
      have h := getD_lt_of_all k _ hk (show 0 < 4294967296 by norm_num)
        (e.key + ((e.shift + e.position) / 32 + 1) % 4)
      have h2 := Nat.div_le_self (k.getD (e.key + ((e.shift + e.position) / 32 + 1) % 4) 0)
        (2 ^ (32 - (e.shift + e.position) % 32))
      omega
    have hd2 : k.getD (e.key + ((e.shift + e.position) / 32 + 2) % 4) 0 /
        2 ^ (32 - (e.shift + e.position) % 32) < 4294967296 := by
      have h := getD_lt_of_all k _ hk (show 0 < 4294967296 by norm_num)
        (e.key + ((e.shift + e.position) / 32 + 2) % 4)
      have h2 := Nat.div_le_self (k.getD (e.key + ((e.shift + e.position) / 32 + 2) % 4) 0)
        (2 ^ (32 - (e.shift + e.position) % 32))
      omega
    rcases hx with rfl | rfl
    · exact lt32_or _ _ (Nat.mod_lt _ (by norm_num)) hd1
    · exact lt32_or _ _ (Nat.mod_lt _ (by norm_num)) hd2

/-- Every subkey word of a successfully initialized Camellia context is a
32-bit value. -/
lemma camelliaInit_ksBound (c : CamelliaContext) (key : List Nat)
    (hlen : key.length = 16 ∨ key.length = 24 ∨ key.length = 32)
    (hkey : ∀ b ∈ key, b < 256) :
    KslOk ((camelliaInit c key).2).ks := by
  unfold camelliaInit
  rw [if_pos hlen]
  intro j
  apply getD_lt_of_all _ _ ?hall (by norm_num)
  have hkall : AllLt32 (camelliaKARounds (camelliaLoadKey key)) :=
    camelliaKARounds_allLt32 _ (camelliaLoadKey_allLt32 key hkey)
  apply foldl_preserve (fun acc => AllLt32 acc)
  · intro acc e hacc
    intro x hx
    rcases List.mem_append.mp hx with hx | hx
    · exact hacc x hx
    · exact camelliaSubkey_allLt32 _ e hkall x hx
  · intro x hx
    exact absurd hx (List.not_mem_nil x)

/-! ### Big-endian block load/store facts -/

lemma load32be_lt (b : List Nat) (hb : ∀ x ∈ b, x < 256) (i : Nat) :
    load32be b i < 4294967296 := by
  unfold load32be
  have g0 := getD_lt_of_all b 256 hb (by norm_num) i
  have g1 := getD_lt_of_all b 256 hb (by norm_num) (i + 1)
  have g2 := getD_lt_of_all b 256 hb (by norm_num) (i + 2)
  have g3 := getD_lt_of_all b 256 hb (by norm_num) (i + 3)
  omega

/-- Loading the four words of a stored word quadruple gives the words
back. -/
lemma load32be_stores (a b c d : Nat) (ha : a < 4294967296) (hb : b < 4294967296)
    (hc : c < 4294967296) (hd : d < 4294967296) :
    load32be (store32be a ++ store32be b ++ store32be c ++ store32be d) 0 = a ∧
      load32be (store32be a ++ store32be b ++ store32be c ++ store32be d) 4 = b ∧
      load32be (store32be a ++ store32be b ++ store32be c ++ store32be d) 8 = c ∧
      load32be (store32be a ++ store32be b ++ store32be c ++ store32be d) 12 = d := by
  refine ⟨?_, ?_, ?_, ?_⟩
  · show a / 16777216 % 256 * 16777216 + a / 65536 % 256 * 65536 + a / 256 % 256 * 256 +
      a % 256 = a
    omega
  · show b / 16777216 % 256 * 16777216 + b / 65536 % 256 * 65536 + b / 256 % 256 * 256 +
      b % 256 = b
    omega
  · show c / 16777216 % 256 * 16777216 + c / 65536 % 256 * 65536 + c / 256 % 256 * 256 +
      c % 256 = c
    omega
  · show d / 16777216 % 256 * 16777216 + d / 65536 % 256 * 65536 + d / 256 % 256 * 256 +
      d % 256 = d
    omega

/-- Storing the four words loaded from a 16-byte block reassembles the
block. -/
lemma stores_of_loads (b0 b1 b2 b3 b4 b5 b6 b7 b8 b9 b10 b11 b12 b13 b14 b15 : Nat)
    (h0 : b0 < 256) (h1 : b1 < 256) (h2 : b2 < 256) (h3 : b3 < 256) (h4 : b4 < 256) (h5 : b5 < 256) (h6 : b6 < 256) (h7 : b7 < 256) (h8 : b8 < 256) (h9 : b9 < 256) (h10 : b10 < 256) (h11 : b11 < 256) (h12 : b12 < 256) (h13 : b13 < 256) (h14 : b14 < 256) (h15 : b15 < 256) :
    store32be (load32be [b0, b1, b2, b3, b4, b5, b6, b7, b8, b9, b10, b11, b12, b13, b14, b15] 0) ++
      store32be (load32be [b0, b1, b2, b3, b4, b5, b6, b7, b8, b9, b10, b11, b12, b13, b14, b15] 4) ++
      store32be (load32be [b0, b1, b2, b3, b4, b5, b6, b7, b8, b9, b10, b11, b12, b13, b14, b15] 8) ++
      store32be (load32be [b0, b1, b2, b3, b4, b5, b6, b7, b8, b9, b10, b11, b12, b13, b14, b15] 12) =
      [b0, b1, b2, b3, b4, b5, b6, b7, b8, b9, b10, b11, b12, b13, b14, b15] := by
  have hq0 : store32be (load32be [b0, b1, b2, b3, b4, b5, b6, b7, b8, b9, b10, b11, b12, b13, b14, b15] 0) = [b0, b1, b2, b3] := by
    show [(b0 * 16777216 + b1 * 65536 + b2 * 256 + b3) / 16777216 % 256, (b0 * 16777216 + b1 * 65536 + b2 * 256 + b3) / 65536 % 256, (b0 * 16777216 + b1 * 65536 + b2 * 256 + b3) / 256 % 256, (b0 * 16777216 + b1 * 65536 + b2 * 256 + b3) % 256] = [b0, b1, b2, b3]
    simp only [List.cons.injEq, and_true]
    refine ⟨?_, ?_, ?_, ?_⟩ <;> omega
  have hq1 : store32be (load32be [b0, b1, b2, b3, b4, b5, b6, b7, b8, b9, b10, b11, b12, b13, b14, b15] 4) = [b4, b5, b6, b7] := by
    show [(b4 * 16777216 + b5 * 65536 + b6 * 256 + b7) / 16777216 % 256, (b4 * 16777216 + b5 * 65536 + b6 * 256 + b7) / 65536 % 256, (b4 * 16777216 + b5 * 65536 + b6 * 256 + b7) / 256 % 256, (b4 * 16777216 + b5 * 65536 + b6 * 256 + b7) % 256] = [b4, b5, b6, b7]
    simp only [List.cons.injEq, and_true]
    refine ⟨?_, ?_, ?_, ?_⟩ <;> omega
  have hq2 : store32be (load32be [b0, b1, b2, b3, b4, b5, b6, b7, b8, b9, b10, b11, b12, b13, b14, b15] 8) = [b8, b9, b10, b11] := by
    show [(b8 * 16777216 + b9 * 65536 + b10 * 256 + b11) / 16777216 % 256, (b8 * 16777216 + b9 * 65536 + b10 * 256 + b11) / 65536 % 256, (b8 * 16777216 + b9 * 65536 + b10 * 256 + b11) / 256 % 256, (b8 * 16777216 + b9 * 65536 + b10 * 256 + b11) % 256] = [b8, b9, b10, b11]
    simp only [List.cons.injEq, and_true]
    refine ⟨?_, ?_, ?_, ?_⟩ <;> omega
  have hq3 : store32be (load32be [b0, b1, b2, b3, b4, b5, b6, b7, b8, b9, b10, b11, b12, b13, b14, b15] 12) = [b12, b13, b14, b15] := by
    show [(b12 * 16777216 + b13 * 65536 + b14 * 256 + b15) / 16777216 % 256, (b12 * 16777216 + b13 * 65536 + b14 * 256 + b15) / 65536 % 256, (b12 * 16777216 + b13 * 65536 + b14 * 256 + b15) / 256 % 256, (b12 * 16777216 + b13 * 65536 + b14 * 256 + b15) % 256] = [b12, b13, b14, b15]
    simp only [List.cons.injEq, and_true]
    refine ⟨?_, ?_, ?_, ?_⟩ <;> omega
  rw [hq0, hq1, hq2, hq3]
  rfl

/-! ### Camellia block roundtrip -/

lemma camInvStepOp_stOk (s : CamSt) (o : CamOp) (hs : StOk s) (ho : OpOk o) :
    StOk (camInvStepOp o s) := by
  obtain ⟨h1, h2, h3, h4⟩ := hs
  cases o with
  | round k1 k2 => exact camelliaRound_stOk k1 k2 _ _ _ _ h1 h2 h3 h4
  | fl k1 k2 k3 k4 =>
    obtain ⟨g1, g2, g3, g4⟩ := ho
    obtain ⟨f1, f2⟩ := camelliaFL_stOk s.1 s.2.1 k3 k4 h1 h2 g4
    obtain ⟨f3, f4⟩ := camelliaInvFL_stOk s.2.2.1 s.2.2.2 k1 k2 h3 h4 g2
    exact ⟨f1, f2, f3, f4⟩

lemma camFoldr_stOk (ops : List CamOp) : ∀ s, (∀ o ∈ ops, OpOk o) → StOk s →
    StOk (ops.foldr camInvStepOp s) := by
  induction ops with
  | nil => intro s _ hs; exact hs
  | cons o t ih =>
    intro s ho hs
    exact camInvStepOp_stOk _ o
      (ih s (fun q m => ho q (List.mem_cons_of_mem o m)) hs)
      (ho o (List.mem_cons_self o t))

set_option maxHeartbeats 6400000 in
/-- Decrypting an encryption returns the plaintext, for any Camellia
context with 18 or 24 rounds and a 32-bit subkey schedule. -/
lemma cam_dec_enc (context : CamelliaContext) (p : List Nat)
    (hnr : context.nr = 18 ∨ context.nr = 24)
    (hp : p.length = 16) (hpb : ∀ b ∈ p, b < 256)
    (hks : KslOk context.ks) :
    camelliaDecryptBlock context (camelliaEncryptBlock context p) = p := by
  obtain ⟨b0, b1, b2, b3, b4, b5, b6, b7, b8, b9, b10, b11, b12, b13, b14, b15, rfl⟩ := list16_exists p hp
  have h0 : b0 < 256 := hpb b0 (by simp)
  have h1 : b1 < 256 := hpb b1 (by simp)
  have h2 : b2 < 256 := hpb b2 (by simp)
  have h3 : b3 < 256 := hpb b3 (by simp)
  have h4 : b4 < 256 := hpb b4 (by simp)
  have h5 : b5 < 256 := hpb b5 (by simp)
  have h6 : b6 < 256 := hpb b6 (by simp)
  have h7 : b7 < 256 := hpb b7 (by simp)
  have h8 : b8 < 256 := hpb b8 (by simp)
  have h9 : b9 < 256 := hpb b9 (by simp)
  have h10 : b10 < 256 := hpb b10 (by simp)
  have h11 : b11 < 256 := hpb b11 (by simp)
  have h12 : b12 < 256 := hpb b12 (by simp)
  have h13 : b13 < 256 := hpb b13 (by simp)
  have h14 : b14 < 256 := hpb b14 (by simp)
  have h15 : b15 < 256 := hpb b15 (by simp)
  rcases hnr with hnr | hnr
  ·
    set x0 := load32be [b0, b1, b2, b3, b4, b5, b6, b7, b8, b9, b10, b11, b12, b13, b14, b15] 0 with hx0
    set x1 := load32be [b0, b1, b2, b3, b4, b5, b6, b7, b8, b9, b10, b11, b12, b13, b14, b15] 4 with hx1
    set x2 := load32be [b0, b1, b2, b3, b4, b5, b6, b7, b8, b9, b10, b11, b12, b13, b14, b15] 8 with hx2
    set x3 := load32be [b0, b1, b2, b3, b4, b5, b6, b7, b8, b9, b10, b11, b12, b13, b14, b15] 12 with hx3
    set s0 : CamSt := (x0 ^^^ context.ks.getD 0 0, x1 ^^^ context.ks.getD 1 0,
      x2 ^^^ context.ks.getD 2 0, x3 ^^^ context.ks.getD 3 0) with hs0
    set S := (camOps context.ks 18 4).foldl camStepOp s0 with hS
    have hs0ok : StOk s0 :=
      ⟨lt32_xor _ _ (load32be_lt _ hpb _) (hks 0),
       lt32_xor _ _ (load32be_lt _ hpb _) (hks 1),
       lt32_xor _ _ (load32be_lt _ hpb _) (hks 2),
       lt32_xor _ _ (load32be_lt _ hpb _) (hks 3)⟩
    have hSok : StOk S := camFold_stOk _ _ (camOps_opOk _ hks 18 4) hs0ok
    have henc : camelliaEncryptBlock context [b0, b1, b2, b3, b4, b5, b6, b7, b8, b9, b10, b11, b12, b13, b14, b15] =
        store32be (S.2.2.1 ^^^ context.ks.getD 48 0) ++
        store32be (S.2.2.2 ^^^ context.ks.getD 49 0) ++
        store32be (S.1 ^^^ context.ks.getD 50 0) ++
        store32be (S.2.1 ^^^ context.ks.getD 51 0) := by
      simp only [camelliaEncryptBlock]
      rw [hnr, camEncRounds_18]
      try rw [← hx0, ← hx1, ← hx2, ← hx3, ← hs0, ← hS]
      try rfl
    have hE1 : (S.2.2.1 ^^^ context.ks.getD 48 0) < 4294967296 :=
      lt32_xor _ _ hSok.2.2.1 (hks 48)
    have hE2 : (S.2.2.2 ^^^ context.ks.getD 49 0) < 4294967296 :=
      lt32_xor _ _ hSok.2.2.2 (hks 49)
    have hE3 : (S.1 ^^^ context.ks.getD 50 0) < 4294967296 :=
      lt32_xor _ _ hSok.1 (hks 50)
    have hE4 : (S.2.1 ^^^ context.ks.getD 51 0) < 4294967296 :=
      lt32_xor _ _ hSok.2.1 (hks 51)
    obtain ⟨hl0, hl4, hl8, hl12⟩ := load32be_stores _ _ _ _ hE1 hE2 hE3 hE4
    rw [henc]
    simp only [camelliaDecryptBlock]
    rw [hnr]
    rw [show (if (18 : Nat) = 18 then (48 : Nat) else 64) = 48 from rfl]
    rw [hl0, hl4, hl8, hl12]
    simp only [Nat.xor_cancel_right]
    rw [camDecRounds_18]
    have hfold : (camOps context.ks 18 4).foldr camInvStepOp (S.2.2.1, S.2.2.2, S.1, S.2.1) =
        swapSt s0 := cam_dec_enc_fold (camOps context.ks 18 4) s0
    rw [hfold]
    show store32be (x0 ^^^ context.ks.getD 0 0 ^^^ context.ks.getD 0 0) ++
        store32be (x1 ^^^ context.ks.getD 1 0 ^^^ context.ks.getD 1 0) ++
        store32be (x2 ^^^ context.ks.getD 2 0 ^^^ context.ks.getD 2 0) ++
        store32be (x3 ^^^ context.ks.getD 3 0 ^^^ context.ks.getD 3 0) =
      [b0, b1, b2, b3, b4, b5, b6, b7, b8, b9, b10, b11, b12, b13, b14, b15]
    simp only [Nat.xor_cancel_right]
    rw [hx0, hx1, hx2, hx3]
    exact stores_of_loads b0 b1 b2 b3 b4 b5 b6 b7 b8 b9 b10 b11 b12 b13 b14 b15 h0 h1 h2 h3 h4 h5 h6 h7 h8 h9 h10 h11 h12 h13 h14 h15
  ·
    set x0 := load32be [b0, b1, b2, b3, b4, b5, b6, b7, b8, b9, b10, b11, b12, b13, b14, b15] 0 with hx0
    set x1 := load32be [b0, b1, b2, b3, b4, b5, b6, b7, b8, b9, b10, b11, b12, b13, b14, b15] 4 with hx1
    set x2 := load32be [b0, b1, b2, b3, b4, b5, b6, b7, b8, b9, b10, b11, b12, b13, b14, b15] 8 with hx2
    set x3 := load32be [b0, b1, b2, b3, b4, b5, b6, b7, b8, b9, b10, b11, b12, b13, b14, b15] 12 with hx3
    set s0 : CamSt := (x0 ^^^ context.ks.getD 0 0, x1 ^^^ context.ks.getD 1 0,
      x2 ^^^ context.ks.getD 2 0, x3 ^^^ context.ks.getD 3 0) with hs0
    set S := (camOps context.ks 24 4).foldl camStepOp s0 with hS
    have hs0ok : StOk s0 :=
      ⟨lt32_xor _ _ (load32be_lt _ hpb _) (hks 0),
       lt32_xor _ _ (load32be_lt _ hpb _) (hks 1),
       lt32_xor _ _ (load32be_lt _ hpb _) (hks 2),
       lt32_xor _ _ (load32be_lt _ hpb _) (hks 3)⟩
    have hSok : StOk S := camFold_stOk _ _ (camOps_opOk _ hks 24 4) hs0ok
    have henc : camelliaEncryptBlock context [b0, b1, b2, b3, b4, b5, b6, b7, b8, b9, b10, b11, b12, b13, b14, b15] =
        store32be (S.2.2.1 ^^^ context.ks.getD 64 0) ++
        store32be (S.2.2.2 ^^^ context.ks.getD 65 0) ++
        store32be (S.1 ^^^ context.ks.getD 66 0) ++
        store32be (S.2.1 ^^^ context.ks.getD 67 0) := by
      simp only [camelliaEncryptBlock]
      rw [hnr, camEncRounds_24]
      try rw [← hx0, ← hx1, ← hx2, ← hx3, ← hs0, ← hS]
      try rfl
    have hE1 : (S.2.2.1 ^^^ context.ks.getD 64 0) < 4294967296 :=
      lt32_xor _ _ hSok.2.2.1 (hks 64)
    have hE2 : (S.2.2.2 ^^^ context.ks.getD 65 0) < 4294967296 :=
      lt32_xor _ _ hSok.2.2.2 (hks 65)
    have hE3 : (S.1 ^^^ context.ks.getD 66 0) < 4294967296 :=
      lt32_xor _ _ hSok.1 (hks 66)
    have hE4 : (S.2.1 ^^^ context.ks.getD 67 0) < 4294967296 :=
      lt32_xor _ _ hSok.2.1 (hks 67)
    obtain ⟨hl0, hl4, hl8, hl12⟩ := load32be_stores _ _ _ _ hE1 hE2 hE3 hE4
    rw [henc]
    simp only [camelliaDecryptBlock]
    rw [hnr]
    rw [show (if (24 : Nat) = 18 then (48 : Nat) else 64) = 64 from rfl]
    rw [hl0, hl4, hl8, hl12]
    simp only [Nat.xor_cancel_right]
    rw [camDecRounds_24]
    have hfold : (camOps context.ks 24 4).foldr camInvStepOp (S.2.2.1, S.2.2.2, S.1, S.2.1) =
        swapSt s0 := cam_dec_enc_fold (camOps context.ks 24 4) s0
    rw [hfold]
    show store32be (x0 ^^^ context.ks.getD 0 0 ^^^ context.ks.getD 0 0) ++
        store32be (x1 ^^^ context.ks.getD 1 0 ^^^ context.ks.getD 1 0) ++
        store32be (x2 ^^^ context.ks.getD 2 0 ^^^ context.ks.getD 2 0) ++
        store32be (x3 ^^^ context.ks.getD 3 0 ^^^ context.ks.getD 3 0) =
      [b0, b1, b2, b3, b4, b5, b6, b7, b8, b9, b10, b11, b12, b13, b14, b15]
    simp only [Nat.xor_cancel_right]
    rw [hx0, hx1, hx2, hx3]
    exact stores_of_loads b0 b1 b2 b3 b4 b5 b6 b7 b8 b9 b10 b11 b12 b13 b14 b15 h0 h1 h2 h3 h4 h5 h6 h7 h8 h9 h10 h11 h12 h13 h14 h15

set_option maxHeartbeats 6400000 in
/-- Encrypting a decryption returns the ciphertext, for any Camellia
context with 18 or 24 rounds and a 32-bit subkey schedule. -/
lemma cam_enc_dec (context : CamelliaContext) (c : List Nat)
    (hnr : context.nr = 18 ∨ context.nr = 24)
    (hc : c.length = 16) (hcb : ∀ b ∈ c, b < 256)
    (hks : KslOk context.ks) :
    camelliaEncryptBlock context (camelliaDecryptBlock context c) = c := by
  obtain ⟨b0, b1, b2, b3, b4, b5, b6, b7, b8, b9, b10, b11, b12, b13, b14, b15, rfl⟩ := list16_exists c hc
  have h0 : b0 < 256 := hcb b0 (by simp)
  have h1 : b1 < 256 := hcb b1 (by simp)
  have h2 : b2 < 256 := hcb b2 (by simp)
  have h3 : b3 < 256 := hcb b3 (by simp)
  have h4 : b4 < 256 := hcb b4 (by simp)
  have h5 : b5 < 256 := hcb b5 (by simp)
  have h6 : b6 < 256 := hcb b6 (by simp)
  have h7 : b7 < 256 := hcb b7 (by simp)
  have h8 : b8 < 256 := hcb b8 (by simp)
  have h9 : b9 < 256 := hcb b9 (by simp)
  have h10 : b10 < 256 := hcb b10 (by simp)
  have h11 : b11 < 256 := hcb b11 (by simp)
  have h12 : b12 < 256 := hcb b12 (by simp)
  have h13 : b13 < 256 := hcb b13 (by simp)
  have h14 : b14 < 256 := hcb b14 (by simp)
  have h15 : b15 < 256 := hcb b15 (by simp)
  rcases hnr with hnr | hnr
  ·
    set y0 := load32be [b0, b1, b2, b3, b4, b5, b6, b7, b8, b9, b10, b11, b12, b13, b14, b15] 0 with hy0
    set y1 := load32be [b0, b1, b2, b3, b4, b5, b6, b7, b8, b9, b10, b11, b12, b13, b14, b15] 4 with hy1
    set y2 := load32be [b0, b1, b2, b3, b4, b5, b6, b7, b8, b9, b10, b11, b12, b13, b14, b15] 8 with hy2
    set y3 := load32be [b0, b1, b2, b3, b4, b5, b6, b7, b8, b9, b10, b11, b12, b13, b14, b15] 12 with hy3
    set t0 : CamSt := (y0 ^^^ context.ks.getD 48 0, y1 ^^^ context.ks.getD 49 0,
      y2 ^^^ context.ks.getD 50 0, y3 ^^^ context.ks.getD 51 0) with ht0
    set D := (camOps context.ks 18 4).foldr camInvStepOp t0 with hD
    have ht0ok : StOk t0 :=
      ⟨lt32_xor _ _ (load32be_lt _ hcb _) (hks 48),
       lt32_xor _ _ (load32be_lt _ hcb _) (hks 49),
       lt32_xor _ _ (load32be_lt _ hcb _) (hks 50),
       lt32_xor _ _ (load32be_lt _ hcb _) (hks 51)⟩
    have hDok : StOk D := camFoldr_stOk _ _ (camOps_opOk _ hks 18 4) ht0ok
    have hdec : camelliaDecryptBlock context [b0, b1, b2, b3, b4, b5, b6, b7, b8, b9, b10, b11, b12, b13, b14, b15] =
        store32be (D.2.2.1 ^^^ context.ks.getD 0 0) ++
        store32be (D.2.2.2 ^^^ context.ks.getD 1 0) ++
        store32be (D.1 ^^^ context.ks.getD 2 0) ++
        store32be (D.2.1 ^^^ context.ks.getD 3 0) := by
      simp only [camelliaDecryptBlock]
      rw [hnr]
      rw [show (if (18 : Nat) = 18 then (48 : Nat) else 64) = 48 from rfl]
      rw [camDecRounds_18]
      rw [← hy0, ← hy1, ← hy2, ← hy3, ← ht0, ← hD]
      try rfl
    have hD1 : (D.2.2.1 ^^^ context.ks.getD 0 0) < 4294967296 :=
      lt32_xor _ _ hDok.2.2.1 (hks 0)
    have hD2 : (D.2.2.2 ^^^ context.ks.getD 1 0) < 4294967296 :=
      lt32_xor _ _ hDok.2.2.2 (hks 1)
    have hD3 : (D.1 ^^^ context.ks.getD 2 0) < 4294967296 :=
      lt32_xor _ _ hDok.1 (hks 2)
    have hD4 : (D.2.1 ^^^ context.ks.getD 3 0) < 4294967296 :=
      lt32_xor _ _ hDok.2.1 (hks 3)
    obtain ⟨hl0, hl4, hl8, hl12⟩ := load32be_stores _ _ _ _ hD1 hD2 hD3 hD4
    rw [hdec]
    simp only [camelliaEncryptBlock]
    rw [hnr]
    rw [hl0, hl4, hl8, hl12]
    simp only [Nat.xor_cancel_right]
    rw [camEncRounds_18]
    have hfold : (camOps context.ks 18 4).foldl camStepOp (D.2.2.1, D.2.2.2, D.1, D.2.1) =
        swapSt t0 := cam_enc_dec_fold (camOps context.ks 18 4) t0
    rw [hfold]
    show store32be (y0 ^^^ context.ks.getD 48 0 ^^^ context.ks.getD 48 0) ++
        store32be (y1 ^^^ context.ks.getD 49 0 ^^^ context.ks.getD 49 0) ++
        store32be (y2 ^^^ context.ks.getD 50 0 ^^^ context.ks.getD 50 0) ++
        store32be (y3 ^^^ context.ks.getD 51 0 ^^^ context.ks.getD 51 0) =
      [b0, b1, b2, b3, b4, b5, b6, b7, b8, b9, b10, b11, b12, b13, b14, b15]
    simp only [Nat.xor_cancel_right]
    rw [hy0, hy1, hy2, hy3]
    exact stores_of_loads b0 b1 b2 b3 b4 b5 b6 b7 b8 b9 b10 b11 b12 b13 b14 b15 h0 h1 h2 h3 h4 h5 h6 h7 h8 h9 h10 h11 h12 h13 h14 h15
  ·
    set y0 := load32be [b0, b1, b2, b3, b4, b5, b6, b7, b8, b9, b10, b11, b12, b13, b14, b15] 0 with hy0
    set y1 := load32be [b0, b1, b2, b3, b4, b5, b6, b7, b8, b9, b10, b11, b12, b13, b14, b15] 4 with hy1
    set y2 := load32be [b0, b1, b2, b3, b4, b5, b6, b7, b8, b9, b10, b11, b12, b13, b14, b15] 8 with hy2
    set y3 := load32be [b0, b1, b2, b3, b4, b5, b6, b7, b8, b9, b10, b11, b12, b13, b14, b15] 12 with hy3
    set t0 : CamSt := (y0 ^^^ context.ks.getD 64 0, y1 ^^^ context.ks.getD 65 0,
      y2 ^^^ context.ks.getD 66 0, y3 ^^^ context.ks.getD 67 0) with ht0
    set D := (camOps context.ks 24 4).foldr camInvStepOp t0 with hD
    have ht0ok : StOk t0 :=
      ⟨lt32_xor _ _ (load32be_lt _ hcb _) (hks 64),
       lt32_xor _ _ (load32be_lt _ hcb _) (hks 65),
       lt32_xor _ _ (load32be_lt _ hcb _) (hks 66),
       lt32_xor _ _ (load32be_lt _ hcb _) (hks 67)⟩
    have hDok : StOk D := camFoldr_stOk _ _ (camOps_opOk _ hks 24 4) ht0ok
    have hdec : camelliaDecryptBlock context [b0, b1, b2, b3, b4, b5, b6, b7, b8, b9, b10, b11, b12, b13, b14, b15] =
        store32be (D.2.2.1 ^^^ context.ks.getD 0 0) ++
        store32be (D.2.2.2 ^^^ context.ks.getD 1 0) ++
        store32be (D.1 ^^^ context.ks.getD 2 0) ++
        store32be (D.2.1 ^^^ context.ks.getD 3 0) := by
      simp only [camelliaDecryptBlock]
      rw [hnr]
      rw [show (if (24 : Nat) = 18 then (48 : Nat) else 64) = 64 from rfl]
      rw [camDecRounds_24]
      rw [← hy0, ← hy1, ← hy2, ← hy3, ← ht0, ← hD]
      try rfl
    have hD1 : (D.2.2.1 ^^^ context.ks.getD 0 0) < 4294967296 :=
      lt32_xor _ _ hDok.2.2.1 (hks 0)
    have hD2 : (D.2.2.2 ^^^ context.ks.getD 1 0) < 4294967296 :=
      lt32_xor _ _ hDok.2.2.2 (hks 1)
    have hD3 : (D.1 ^^^ context.ks.getD 2 0) < 4294967296 :=
      lt32_xor _ _ hDok.1 (hks 2)
    have hD4 : (D.2.1 ^^^ context.ks.getD 3 0) < 4294967296 :=
      lt32_xor _ _ hDok.2.1 (hks 3)
    obtain ⟨hl0, hl4, hl8, hl12⟩ := load32be_stores _ _ _ _ hD1 hD2 hD3 hD4
    rw [hdec]
    simp only [camelliaEncryptBlock]
    rw [hnr]
    rw [hl0, hl4, hl8, hl12]
    simp only [Nat.xor_cancel_right]
    rw [camEncRounds_24]
    have hfold : (camOps context.ks 24 4).foldl camStepOp (D.2.2.1, D.2.2.2, D.1, D.2.1) =
        swapSt t0 := cam_enc_dec_fold (camOps context.ks 24 4) t0
    rw [hfold]
    show store32be (y0 ^^^ context.ks.getD 64 0 ^^^ context.ks.getD 64 0) ++
        store32be (y1 ^^^ context.ks.getD 65 0 ^^^ context.ks.getD 65 0) ++
        store32be (y2 ^^^ context.ks.getD 66 0 ^^^ context.ks.getD 66 0) ++
        store32be (y3 ^^^ context.ks.getD 67 0 ^^^ context.ks.getD 67 0) =
      [b0, b1, b2, b3, b4, b5, b6, b7, b8, b9, b10, b11, b12, b13, b14, b15]
    simp only [Nat.xor_cancel_right]
    rw [hy0, hy1, hy2, hy3]
    exact stores_of_loads b0 b1 b2 b3 b4 b5 b6 b7 b8 b9 b10 b11 b12 b13 b14 b15 h0 h1 h2 h3 h4 h5 h6 h7 h8 h9 h10 h11 h12 h13 h14 h15

/-! ### AES key-expansion characterization -/

lemma getD_append_left (l t : List Nat) (j : Nat) (h : j < l.length) :
    (l ++ t).getD j 0 = l.getD j 0 := by
  induction l generalizing j with
  | nil => simp at h
  | cons a s ih =>
    cases j with
    | zero => rfl
    | succ j =>
      simp only [List.cons_append, List.getD_cons_succ]
      exact ih j (by simp at h; omega)

lemma getD_append_length (l : List Nat) (v : Nat) :
    (l ++ [v]).getD l.length 0 = v := by
  induction l with
  | nil => rfl
  | cons a s ih =>
    simpa using ih

lemma getElem?_eq_some_getD (l : List Nat) (j : Nat) (h : j < l.length) :
    l[j]? = some (l.getD j 0) := by
  induction l generalizing j with
  | nil => simp at h
  | cons a s ih =>
    cases j with
    | zero => simp
    | succ j =>
      simp only [List.getElem?_cons_succ, List.getD_cons_succ]
      exact ih j (by simp at h; omega)

lemma aesExpandStep_length (nk : Nat) (ws : List Nat) :
    (aesExpandStep nk ws).length = ws.length + 1 := by
  simp [aesExpandStep]

/-- Words already in the schedule are unchanged by further expansion. -/
lemma aesExpand_stable (nk : Nat) : ∀ (n : Nat) (ws : List Nat) (j : Nat), j < ws.length →
    (aesExpand nk n ws).getD j 0 = ws.getD j 0 := by
  intro n
  induction n with
  | zero => intro ws j _; rfl
  | succ n ih =>
    intro ws j hj
    show (aesExpand nk n (aesExpandStep nk ws)).getD j 0 = ws.getD j 0
    rw [ih _ j (by rw [aesExpandStep_length]; omega)]
    unfold aesExpandStep
    exact getD_append_left _ _ _ hj

/-- The FIPS-197 recurrence: every word at or beyond the initial schedule
is the word `Nk` places back XORed with the transformed previous word. -/
lemma aesExpand_rec (nk : Nat) (hnk : 0 < nk) : ∀ (n : Nat) (ws : List Nat),
    nk ≤ ws.length → ∀ i, ws.length ≤ i → i < ws.length + n →
    (aesExpand nk n ws).getD i 0 =
      (aesExpand nk n ws).getD (i - nk) 0 ^^^ aesTemp nk (aesExpand nk n ws) i := by
  intro n
  induction n with
  | zero => intro ws _ i h1 h2; omega
  | succ n ih =>
    intro ws hnkw i h1 h2
    show (aesExpand nk n (aesExpandStep nk ws)).getD i 0 =
      (aesExpand nk n (aesExpandStep nk ws)).getD (i - nk) 0 ^^^
        aesTemp nk (aesExpand nk n (aesExpandStep nk ws)) i
    by_cases hi : i = ws.length
    · subst hi
      have e1 : (aesExpand nk n (aesExpandStep nk ws)).getD ws.length 0 =
          ws.getD (ws.length - nk) 0 ^^^ aesTemp nk ws ws.length := by
        rw [aesExpand_stable nk n _ _ (by rw [aesExpandStep_length]; omega)]
        unfold aesExpandStep
        exact getD_append_length ws _
      have e2 : (aesExpand nk n (aesExpandStep nk ws)).getD (ws.length - nk) 0 =
          ws.getD (ws.length - nk) 0 := by
        rw [aesExpand_stable nk n _ _ (by rw [aesExpandStep_length]; omega)]
        unfold aesExpandStep
        exact getD_append_left _ _ _ (by omega)
      have e3 : (aesExpand nk n (aesExpandStep nk ws)).getD (ws.length - 1) 0 =
          ws.getD (ws.length - 1) 0 := by
        rw [aesExpand_stable nk n _ _ (by rw [aesExpandStep_length]; omega)]
        unfold aesExpandStep
        exact getD_append_left _ _ _ (by omega)
      rw [e1, e2]
      unfold aesTemp
      rw [e3]
    · exact ih (aesExpandStep nk ws) (by rw [aesExpandStep_length]; omega) i
        (by rw [aesExpandStep_length]; omega) (by rw [aesExpandStep_length]; omega)

/-- The key-expansion step with every array and table access through
checked (`Option`-returning) indexing: `none` models an out-of-bounds
access. -/
def aesExpandStepChecked (nk : Nat) (ws : List Nat) : Option (List Nat) :=
  (ws[ws.length - 1]?).bind fun prev =>
    (if ws.length % nk == 0 then
        (rconT[ws.length / nk]?).map fun rc => subWord (rotWord prev) ^^^ rc
      else if nk > 6 && ws.length % nk == 4 then some (subWord prev)
      else some prev).bind fun temp =>
      (ws[ws.length - nk]?).map fun base => ws ++ [base ^^^ temp]

/-- The key-expansion loop with checked indexing. -/
def aesExpandChecked (nk : Nat) : Nat → List Nat → Option (List Nat)
  | 0, ws => some ws
  | n + 1, ws => (aesExpandStepChecked nk ws).bind (aesExpandChecked nk n)

lemma aesExpandStepChecked_eq (nk : Nat) (hnk : 0 < nk) (ws : List Nat)
    (hw : nk ≤ ws.length) (hrc : ws.length / nk < 11) :
    aesExpandStepChecked nk ws = some (aesExpandStep nk ws) := by
  have h1 : ws[ws.length - 1]? = some (ws.getD (ws.length - 1) 0) :=
    getElem?_eq_some_getD ws _ (by omega)
  have h2 : ws[ws.length - nk]? = some (ws.getD (ws.length - nk) 0) :=
    getElem?_eq_some_getD ws _ (by omega)
  have h3 : rconT[ws.length / nk]? = some (rconT.getD (ws.length / nk) 0) :=
    getElem?_eq_some_getD rconT _ (by rw [show rconT.length = 11 from rfl]; omega)
  unfold aesExpandStepChecked aesExpandStep aesTemp
  rw [h1, h2, h3]
  by_cases h0 : ws.length % nk == 0
  · simp only [h0, if_true]
    rfl
  · simp only [h0, Bool.false_eq_true, if_false]
    by_cases h4 : nk > 6 && ws.length % nk == 4
    · simp only [h4, if_true]
      rfl
    · simp only [h4, Bool.false_eq_true, if_false]
      rfl

/-- Under the valid-key preconditions the checked loop never reaches an
out-of-bounds branch and agrees with the unchecked loop. -/
lemma aesExpandChecked_eq (nk : Nat) (hnk : 0 < nk) : ∀ (n : Nat) (ws : List Nat),
    nk ≤ ws.length → (∀ m, m < n → (ws.length + m) / nk < 11) →
    aesExpandChecked nk n ws = some (aesExpand nk n ws) := by
  intro n
  induction n with
  | zero => intro ws _ _; rfl
  | succ n ih =>
    intro ws hw hrc
    have hstep : aesExpandStepChecked nk ws = some (aesExpandStep nk ws) :=
      aesExpandStepChecked_eq nk hnk ws hw (by have h := hrc 0 (by omega); simpa using h)
    show (aesExpandStepChecked nk ws).bind (aesExpandChecked nk n) =
      some (aesExpand nk n (aesExpandStep nk ws))
    rw [hstep]
    show aesExpandChecked nk n (aesExpandStep nk ws) =
      some (aesExpand nk n (aesExpandStep nk ws))
    refine ih (aesExpandStep nk ws) (by rw [aesExpandStep_length]; omega) ?_
    intro m hm
    rw [aesExpandStep_length]
    have h := hrc (m + 1) (by omega)
    have e : ws.length + 1 + m = ws.length + (m + 1) := by omega
    rw [e]
    exact h

lemma list24_exists (s : List Nat) (h : s.length = 24) :
    ∃ k0 k1 k2 k3 k4 k5 k6 k7 k8 k9 k10 k11 k12 k13 k14 k15 k16 k17 k18 k19 k20 k21 k22 k23,
      s = [k0, k1, k2, k3, k4, k5, k6, k7, k8, k9, k10, k11, k12, k13, k14, k15, k16, k17, k18, k19, k20, k21, k22, k23] := by
  obtain ⟨k0, s, rfl⟩ := List.exists_of_length_succ s (show s.length = 23 + 1 by omega)
  obtain ⟨k1, s, rfl⟩ := List.exists_of_length_succ s (show s.length = 22 + 1 by simp only [List.length_cons] at h; omega)
  obtain ⟨k2, s, rfl⟩ := List.exists_of_length_succ s (show s.length = 21 + 1 by simp only [List.length_cons] at h; omega)
  obtain ⟨k3, s, rfl⟩ := List.exists_of_length_succ s (show s.length = 20 + 1 by simp only [List.length_cons] at h; omega)
  obtain ⟨k4, s, rfl⟩ := List.exists_of_length_succ s (show s.length = 19 + 1 by simp only [List.length_cons] at h; omega)
  obtain ⟨k5, s, rfl⟩ := List.exists_of_length_succ s (show s.length = 18 + 1 by simp only [List.length_cons] at h; omega)
  obtain ⟨k6, s, rfl⟩ := List.exists_of_length_succ s (show s.length = 17 + 1 by simp only [List.length_cons] at h; omega)
  obtain ⟨k7, s, rfl⟩ := List.exists_of_length_succ s (show s.length = 16 + 1 by simp only [List.length_cons] at h; omega)
  obtain ⟨k8, s, rfl⟩ := List.exists_of_length_succ s (show s.length = 15 + 1 by simp only [List.length_cons] at h; omega)
  obtain ⟨k9, s, rfl⟩ := List.exists_of_length_succ s (show s.length = 14 + 1 by simp only [List.length_cons] at h; omega)
  obtain ⟨k10, s, rfl⟩ := List.exists_of_length_succ s (show s.length = 13 + 1 by simp only [List.length_cons] at h; omega)
  obtain ⟨k11, s, rfl⟩ := List.exists_of_length_succ s (show s.length = 12 + 1 by simp only [List.length_cons] at h; omega)
  obtain ⟨k12, s, rfl⟩ := List.exists_of_length_succ s (show s.length = 11 + 1 by simp only [List.length_cons] at h; omega)
  obtain ⟨k13, s, rfl⟩ := List.exists_of_length_succ s (show s.length = 10 + 1 by simp only [List.length_cons] at h; omega)
  obtain ⟨k14, s, rfl⟩ := List.exists_of_length_succ s (show s.length = 9 + 1 by simp only [List.length_cons] at h; omega)
  obtain ⟨k15, s, rfl⟩ := List.exists_of_length_succ s (show s.length = 8 + 1 by simp only [List.length_cons] at h; omega)
  obtain ⟨k16, s, rfl⟩ := List.exists_of_length_succ s (show s.length = 7 + 1 by simp only [List.length_cons] at h; omega)
  obtain ⟨k17, s, rfl⟩ := List.exists_of_length_succ s (show s.length = 6 + 1 by simp only [List.length_cons] at h; omega)
  obtain ⟨k18, s, rfl⟩ := List.exists_of_length_succ s (show s.length = 5 + 1 by simp only [List.length_cons] at h; omega)
  obtain ⟨k19, s, rfl⟩ := List.exists_of_length_succ s (show s.length = 4 + 1 by simp only [List.length_cons] at h; omega)
  obtain ⟨k20, s, rfl⟩ := List.exists_of_length_succ s (show s.length = 3 + 1 by simp only [List.length_cons] at h; omega)
  obtain ⟨k21, s, rfl⟩ := List.exists_of_length_succ s (show s.length = 2 + 1 by simp only [List.length_cons] at h; omega)
  obtain ⟨k22, s, rfl⟩ := List.exists_of_length_succ s (show s.length = 1 + 1 by simp only [List.length_cons] at h; omega)
  obtain ⟨k23, s, rfl⟩ := List.exists_of_length_succ s (show s.length = 0 + 1 by simp only [List.length_cons] at h; omega)
  obtain rfl : s = [] :=
    List.eq_nil_of_length_eq_zero (by simp only [List.length_cons] at h; omega)
  exact ⟨k0, k1, k2, k3, k4, k5, k6, k7, k8, k9, k10, k11, k12, k13, k14, k15, k16, k17, k18, k19, k20, k21, k22, k23, rfl⟩

lemma list32_exists (s : List Nat) (h : s.length = 32) :
    ∃ k0 k1 k2 k3 k4 k5 k6 k7 k8 k9 k10 k11 k12 k13 k14 k15 k16 k17 k18 k19 k20 k21 k22 k23 k24 k25 k26 k27 k28 k29 k30 k31,
      s = [k0, k1, k2, k3, k4, k5, k6, k7, k8, k9, k10, k11, k12, k13, k14, k15, k16, k17, k18, k19, k20, k21, k22, k23, k24, k25, k26, k27, k28, k29, k30, k31] := by
  obtain ⟨k0, s, rfl⟩ := List.exists_of_length_succ s (show s.length = 31 + 1 by omega)
  obtain ⟨k1, s, rfl⟩ := List.exists_of_length_succ s (show s.length = 30 + 1 by simp only [List.length_cons] at h; omega)
  obtain ⟨k2, s, rfl⟩ := List.exists_of_length_succ s (show s.length = 29 + 1 by simp only [List.length_cons] at h; omega)
  obtain ⟨k3, s, rfl⟩ := List.exists_of_length_succ s (show s.length = 28 + 1 by simp only [List.length_cons] at h; omega)
  obtain ⟨k4, s, rfl⟩ := List.exists_of_length_succ s (show s.length = 27 + 1 by simp only [List.length_cons] at h; omega)
  obtain ⟨k5, s, rfl⟩ := List.exists_of_length_succ s (show s.length = 26 + 1 by simp only [List.length_cons] at h; omega)
  obtain ⟨k6, s, rfl⟩ := List.exists_of_length_succ s (show s.length = 25 + 1 by simp only [List.length_cons] at h; omega)
  obtain ⟨k7, s, rfl⟩ := List.exists_of_length_succ s (show s.length = 24 + 1 by simp only [List.length_cons] at h; omega)
  obtain ⟨k8, s, rfl⟩ := List.exists_of_length_succ s (show s.length = 23 + 1 by simp only [List.length_cons] at h; omega)
  obtain ⟨k9, s, rfl⟩ := List.exists_of_length_succ s (show s.length = 22 + 1 by simp only [List.length_cons] at h; omega)
  obtain ⟨k10, s, rfl⟩ := List.exists_of_length_succ s (show s.length = 21 + 1 by simp only [List.length_cons] at h; omega)
  obtain ⟨k11, s, rfl⟩ := List.exists_of_length_succ s (show s.length = 20 + 1 by simp only [List.length_cons] at h; omega)
  obtain ⟨k12, s, rfl⟩ := List.exists_of_length_succ s (show s.length = 19 + 1 by simp only [List.length_cons] at h; omega)
  obtain ⟨k13, s, rfl⟩ := List.exists_of_length_succ s (show s.length = 18 + 1 by simp only [List.length_cons] at h; omega)
  obtain ⟨k14, s, rfl⟩ := List.exists_of_length_succ s (show s.length = 17 + 1 by simp only [List.length_cons] at h; omega)
  obtain ⟨k15, s, rfl⟩ := List.exists_of_length_succ s (show s.length = 16 + 1 by simp only [List.length_cons] at h; omega)
  obtain ⟨k16, s, rfl⟩ := List.exists_of_length_succ s (show s.length = 15 + 1 by simp only [List.length_cons] at h; omega)
  obtain ⟨k17, s, rfl⟩ := List.exists_of_length_succ s (show s.length = 14 + 1 by simp only [List.length_cons] at h; omega)
  obtain ⟨k18, s, rfl⟩ := List.exists_of_length_succ s (show s.length = 13 + 1 by simp only [List.length_cons] at h; omega)
  obtain ⟨k19, s, rfl⟩ := List.exists_of_length_succ s (show s.length = 12 + 1 by simp only [List.length_cons] at h; omega)
  obtain ⟨k20, s, rfl⟩ := List.exists_of_length_succ s (show s.length = 11 + 1 by simp only [List.length_cons] at h; omega)
  obtain ⟨k21, s, rfl⟩ := List.exists_of_length_succ s (show s.length = 10 + 1 by simp only [List.length_cons] at h; omega)
  obtain ⟨k22, s, rfl⟩ := List.exists_of_length_succ s (show s.length = 9 + 1 by simp only [List.length_cons] at h; omega)
  obtain ⟨k23, s, rfl⟩ := List.exists_of_length_succ s (show s.length = 8 + 1 by simp only [List.length_cons] at h; omega)
  obtain ⟨k24, s, rfl⟩ := List.exists_of_length_succ s (show s.length = 7 + 1 by simp only [List.length_cons] at h; omega)
  obtain ⟨k25, s, rfl⟩ := List.exists_of_length_succ s (show s.length = 6 + 1 by simp only [List.length_cons] at h; omega)
  obtain ⟨k26, s, rfl⟩ := List.exists_of_length_succ s (show s.length = 5 + 1 by simp only [List.length_cons] at h; omega)
  obtain ⟨k27, s, rfl⟩ := List.exists_of_length_succ s (show s.length = 4 + 1 by simp only [List.length_cons] at h; omega)
  obtain ⟨k28, s, rfl⟩ := List.exists_of_length_succ s (show s.length = 3 + 1 by simp only [List.length_cons] at h; omega)
  obtain ⟨k29, s, rfl⟩ := List.exists_of_length_succ s (show s.length = 2 + 1 by simp only [List.length_cons] at h; omega)
  obtain ⟨k30, s, rfl⟩ := List.exists_of_length_succ s (show s.length = 1 + 1 by simp only [List.length_cons] at h; omega)
  obtain ⟨k31, s, rfl⟩ := List.exists_of_length_succ s (show s.length = 0 + 1 by simp only [List.length_cons] at h; omega)
  obtain rfl : s = [] :=
    List.eq_nil_of_length_eq_zero (by simp only [List.length_cons] at h; omega)
  exact ⟨k0, k1, k2, k3, k4, k5, k6, k7, k8, k9, k10, k11, k12, k13, k14, k15, k16, k17, k18, k19, k20, k21, k22, k23, k24, k25, k26, k27, k28, k29, k30, k31, rfl⟩

/-! ### Camellia key-load invariants -/

lemma xor_ff : ∀ b < 256, 255 ^^^ b = 255 - b := by decide

lemma byteswap32_le32 (b0 b1 b2 b3 : Nat) (h0 : b0 < 256) (h1 : b1 < 256)
    (h2 : b2 < 256) (h3 : b3 < 256) :
    byteswap32 (le32 b0 b1 b2 b3) = le32 b3 b2 b1 b0 := by
  show byte0 (le32 b0 b1 b2 b3) * 16777216 + byte1 (le32 b0 b1 b2 b3) * 65536 +
    byte2 (le32 b0 b1 b2 b3) * 256 + byte3 (le32 b0 b1 b2 b3) = le32 b3 b2 b1 b0
  rw [byte0_le32 _ _ _ _ h0, byte1_le32 _ _ _ _ h0 h1, byte2_le32 _ _ _ _ h0 h1 h2,
      byte3_le32 _ _ _ _ h0 h1 h2 h3]
  unfold le32
  ring

/-- Complementing a packed word commutes with the byte swap. -/
lemma byteswap32_compl_le32 (b0 b1 b2 b3 : Nat) (h0 : b0 < 256) (h1 : b1 < 256)
    (h2 : b2 < 256) (h3 : b3 < 256) :
    byteswap32 (4294967295 ^^^ le32 b0 b1 b2 b3) =
      4294967295 ^^^ byteswap32 (le32 b0 b1 b2 b3) := by
  have e1 : (4294967295 : Nat) = le32 255 255 255 255 := by norm_num [le32]
  rw [e1, le32_xor 255 255 255 255 b0 b1 b2 b3 (by norm_num) (by norm_num) (by norm_num)
        h0 h1 h2,
      byteswap32_le32 _ _ _ _ (lt256_xor _ _ (by norm_num) h0) (lt256_xor _ _ (by norm_num) h1)
        (lt256_xor _ _ (by norm_num) h2) (lt256_xor _ _ (by norm_num) h3),
      byteswap32_le32 b0 b1 b2 b3 h0 h1 h2 h3,
      le32_xor 255 255 255 255 b3 b2 b1 b0 (by norm_num) (by norm_num) (by norm_num)
        h3 h2 h1]

/-! ### Camellia pipeline shape -/

/-- Subkey words consumed by one pipeline element. -/
def opCost : CamOp → Nat
  | CamOp.round _ _ => 2
  | CamOp.fl _ _ _ _ => 4

/-- Number of Feistel rounds in a pipeline. -/
def camOpsRounds : List CamOp → Nat
  | [] => 0
  | CamOp.round _ _ :: t => camOpsRounds t + 1
  | CamOp.fl _ _ _ _ :: t => camOpsRounds t

/-- For each FL / FL-inverse insertion, the number of Feistel rounds
performed before it (`n` counts the rounds already done). -/
def flAfterRounds : List CamOp → Nat → List Nat
  | [], _ => []
  | CamOp.round _ _ :: t, n => flAfterRounds t (n + 1)
  | CamOp.fl _ _ _ _ :: t, n => n :: flAfterRounds t n

/-! ### GF(2^8) product -/

/-- Modelled from the spec: the iteration of the Russian-peasant product in
GF(2^8), `fuel` bounding the number of bits of the right factor; each
doubling of the left factor is reduced by the polynomial 0x11B (the
`xtimeF` closed form). -/
def gfMulAux : Nat → Nat → Nat → Nat
  | 0, _, _ => 0
  | f + 1, a, b => (if b % 2 = 1 then a else 0) ^^^ gfMulAux f (xtimeF a) (b / 2)

/-- Modelled from the spec: the GF(2^8) product under reduction polynomial
0x11B, for byte-sized factors. -/
def gfMul (a b : Nat) : Nat := gfMulAux 8 a b

/-! ### Frame wrappers -/

/-- `aesEncryptBlock` paired with the context it leaves behind: the C body
reads `context->w` and `context->nr` and writes only the output buffer,
never the context, so the context coming out is the one passed in. -/
def aesEncryptBlockSt (context : AesContext) (input : List Nat) :
    AesContext × List Nat :=
  (context, aesEncryptBlock context input)

/-- `aesDecryptBlock` paired with the context it leaves behind (the C body
contains no store to the context). -/
def aesDecryptBlockSt (context : AesContext) (input : List Nat) :
    AesContext × List Nat :=
  (context, aesDecryptBlock context input)

/-- `camelliaEncryptBlock` paired with the context it leaves behind (the C
body contains no store to the context). -/
def camelliaEncryptBlockSt (context : CamelliaContext) (input : List Nat) :
    CamelliaContext × List Nat :=
  (context, camelliaEncryptBlock context input)

/-- `camelliaDecryptBlock` paired with the context it leaves behind (the C
body contains no store to the context). -/
def camelliaDecryptBlockSt (context : CamelliaContext) (input : List Nat) :
    CamelliaContext × List Nat :=
  (context, camelliaDecryptBlock context input)

/-- A context built by `camelliaInit` on an accepted key has 18 or 24
rounds. -/
lemma camelliaInit_nr (c : CamelliaContext) (key : List Nat)
    (hlen : key.length = 16 ∨ key.length = 24 ∨ key.length = 32) :
    ((camelliaInit c key).2).nr = 18 ∨ ((camelliaInit c key).2).nr = 24 := by
  unfold camelliaInit
  rw [if_pos hlen]
  by_cases h16 : key.length = 16
  · left
    simp [h16]
  · right
    simp [h16]

/-! ## The claims -/

/-- C1: for every accepted key (16, 24 or 32 bytes) and every 16-byte
block, decrypting the encryption returns the block and encrypting the
decryption returns the block, for the AES pair and for the Camellia pair,
under the context the respective `init` builds. -/
theorem claim_C1 : ∀ (ac : AesContext) (cc : CamelliaContext) (key p : List Nat),
    (key.length = 16 ∨ key.length = 24 ∨ key.length = 32) →
    (∀ b ∈ key, b < 256) → p.length = 16 → (∀ b ∈ p, b < 256) →
    (aesDecryptBlock ((aesInit ac key).2) (aesEncryptBlock ((aesInit ac key).2) p) = p ∧
     aesEncryptBlock ((aesInit ac key).2) (aesDecryptBlock ((aesInit ac key).2) p) = p) ∧
    (camelliaDecryptBlock ((camelliaInit cc key).2)
        (camelliaEncryptBlock ((camelliaInit cc key).2) p) = p ∧
     camelliaEncryptBlock ((camelliaInit cc key).2)
        (camelliaDecryptBlock ((camelliaInit cc key).2) p) = p) := by
  intro ac cc key p hlen hkey hp hpb
  exact ⟨⟨aes_dec_enc _ _ ⟨hp, hpb⟩ (aesInit_wBound ac key hlen hkey),
      aes_enc_dec _ _ ⟨hp, hpb⟩ (aesInit_wBound ac key hlen hkey)⟩,
    ⟨cam_dec_enc _ _ (camelliaInit_nr cc key hlen) hp hpb (camelliaInit_ksBound cc key hlen hkey),
      cam_enc_dec _ _ (camelliaInit_nr cc key hlen) hp hpb (camelliaInit_ksBound cc key hlen hkey)⟩⟩

/-- Witness for C1 at the AES-128 reference key and block. -/
theorem claim_C1_witness :
    (aes128Key.length = 16 ∨ aes128Key.length = 24 ∨ aes128Key.length = 32) ∧
    aesPlain.length = 16 ∧
    aesDecryptBlock ((aesInit ⟨0, []⟩ aes128Key).2)
        (aesEncryptBlock ((aesInit ⟨0, []⟩ aes128Key).2) aesPlain) = aesPlain ∧
    camelliaDecryptBlock ((camelliaInit ⟨0, [], []⟩ aes128Key).2)
        (camelliaEncryptBlock ((camelliaInit ⟨0, [], []⟩ aes128Key).2) aesPlain) = aesPlain :=
  ⟨by decide, by decide,
    ((claim_C1 ⟨0, []⟩ ⟨0, [], []⟩ aes128Key aesPlain (by decide) (by decide)
        (by decide) (by decide)).1).1,
    ((claim_C1 ⟨0, []⟩ ⟨0, [], []⟩ aes128Key aesPlain (by decide) (by decide)
        (by decide) (by decide)).2).1⟩

/-- C2: the six known-answer vectors hold in both directions: the three
FIPS-197 AES vectors and the three RFC 3713 Camellia vectors. -/
theorem claim_C2 :
    aesEncryptBlock ((aesInit ⟨0, []⟩ aes128Key).2) aesPlain = aes128Ct ∧
    aesDecryptBlock ((aesInit ⟨0, []⟩ aes128Key).2) aes128Ct = aesPlain ∧
    aesEncryptBlock ((aesInit ⟨0, []⟩ aes192Key).2) aesPlain = aes192Ct ∧
    aesDecryptBlock ((aesInit ⟨0, []⟩ aes192Key).2) aes192Ct = aesPlain ∧
    aesEncryptBlock ((aesInit ⟨0, []⟩ aes256Key).2) aesPlain = aes256Ct ∧
    aesDecryptBlock ((aesInit ⟨0, []⟩ aes256Key).2) aes256Ct = aesPlain ∧
    camelliaEncryptBlock ((camelliaInit ⟨0, [], []⟩ cam128Key).2) camPlain = cam128Ct ∧
    camelliaDecryptBlock ((camelliaInit ⟨0, [], []⟩ cam128Key).2) cam128Ct = camPlain ∧
    camelliaEncryptBlock ((camelliaInit ⟨0, [], []⟩ cam192Key).2) camPlain = cam192Ct ∧
    camelliaDecryptBlock ((camelliaInit ⟨0, [], []⟩ cam192Key).2) cam192Ct = camPlain ∧
    camelliaEncryptBlock ((camelliaInit ⟨0, [], []⟩ cam256Key).2) camPlain = cam256Ct ∧
    camelliaDecryptBlock ((camelliaInit ⟨0, [], []⟩ cam256Key).2) cam256Ct = camPlain :=
  ⟨by decide, by decide, by decide, by decide, by decide, by decide,
   by decide, by decide, by decide, by decide, by decide, by decide⟩

/-- C3 counterexample: at key pair (0,0), left (0,0) and right (0,1), the
round function's new left half is not (t2 XOR R2, t1 XOR R1): the claim as
stated fails on the code, whose round places t2 XOR R1 first. -/
theorem claim_C3_counterexample :
    ¬ ((camelliaRound 0 0 0 0 0 1).1 = (camSP (0 ^^^ 0) (0 ^^^ 0)).2 ^^^ 1 ∧
       (camelliaRound 0 0 0 0 0 1).2.1 = (camSP (0 ^^^ 0) (0 ^^^ 0)).1 ^^^ 0) := by
  decide

/-- C3 (amended): the round function sends (L1, L2, R1, R2) with keys
(k1, k2) to new left (t2 XOR R1, t1 XOR R2) and new right (L1, L2), where
(t1, t2) is the S-layer then P-layer of (L1 XOR k1, L2 XOR k2). -/
theorem claim_C3 : ∀ (k1 k2 l1 l2 r1 r2 : Nat),
    camelliaRound k1 k2 l1 l2 r1 r2 =
      ((camSP (l1 ^^^ k1) (l2 ^^^ k2)).2 ^^^ r1,
       (camSP (l1 ^^^ k1) (l2 ^^^ k2)).1 ^^^ r2, l1, l2) :=
  fun _ _ _ _ _ _ => rfl

/-- C4: a key length outside 16, 24, 32 makes both initializers return
the invalid-key-length error with the context unchanged; an accepted
length returns no error. -/
theorem claim_C4 : ∀ (ac : AesContext) (cc : CamelliaContext) (key : List Nat),
    (¬ (key.length = 16 ∨ key.length = 24 ∨ key.length = 32) →
      aesInit ac key = (ErrorT.invalidKeyLength, ac) ∧
      camelliaInit cc key = (ErrorT.invalidKeyLength, cc)) ∧
    ((key.length = 16 ∨ key.length = 24 ∨ key.length = 32) →
      (aesInit ac key).1 = ErrorT.noError ∧
      (camelliaInit cc key).1 = ErrorT.noError) := by
  intro ac cc key
  constructor
  · intro h
    constructor
    · unfold aesInit
      rw [if_neg h]
    · unfold camelliaInit
      rw [if_neg h]
  · intro h
    constructor
    · unfold aesInit
      rw [if_pos h]
    · unfold camelliaInit
      rw [if_pos h]

/-- Witness for C4 at a 1-byte key (rejected) and a 16-byte key
(accepted). -/
theorem claim_C4_witness :
    aesInit ⟨0, []⟩ [0] = (ErrorT.invalidKeyLength, ⟨0, []⟩) ∧
    camelliaInit ⟨0, [], []⟩ [0] = (ErrorT.invalidKeyLength, ⟨0, [], []⟩) ∧
    (aesInit ⟨0, []⟩ aes128Key).1 = ErrorT.noError ∧
    (camelliaInit ⟨0, [], []⟩ aes128Key).1 = ErrorT.noError :=
  ⟨((claim_C4 ⟨0, []⟩ ⟨0, [], []⟩ [0]).1 (by decide)).1,
   ((claim_C4 ⟨0, []⟩ ⟨0, [], []⟩ [0]).1 (by decide)).2,
   ((claim_C4 ⟨0, []⟩ ⟨0, [], []⟩ aes128Key).2 (by decide)).1,
   ((claim_C4 ⟨0, []⟩ ⟨0, [], []⟩ aes128Key).2 (by decide)).2⟩

/-- C5: after a successful `aesInit`, `nr` is 10, 12 or 14 by key length,
the first `Nk = keyLength / 4` schedule words are the key bytes loaded as
host-order words, and every further word up to `4 * (nr + 1)` satisfies
the FIPS-197 recurrence `w[i] = w[i - Nk] XOR t` with `t` the transformed
previous word. -/
theorem claim_C5 : ∀ (c : AesContext) (key : List Nat),
    (key.length = 16 ∨ key.length = 24 ∨ key.length = 32) →
    ((key.length = 16 → ((aesInit c key).2).nr = 10) ∧
     (key.length = 24 → ((aesInit c key).2).nr = 12) ∧
     (key.length = 32 → ((aesInit c key).2).nr = 14)) ∧
    (∀ i, i < key.length / 4 → ((aesInit c key).2).w.getD i 0 =
      le32 (key.getD (4 * i) 0) (key.getD (4 * i + 1) 0)
        (key.getD (4 * i + 2) 0) (key.getD (4 * i + 3) 0)) ∧
    (∀ i, key.length / 4 ≤ i → i < 4 * (((aesInit c key).2).nr + 1) →
      ((aesInit c key).2).w.getD i 0 =
        ((aesInit c key).2).w.getD (i - key.length / 4) 0 ^^^
          aesTemp (key.length / 4) (((aesInit c key).2).w) i) := by
  intro c key hlen
  rcases hlen with hc | hc | hc
  · obtain ⟨k0, k1, k2, k3, k4, k5, k6, k7, k8, k9, k10, k11, k12, k13, k14, k15, rfl⟩ := list16_exists key hc
    have hctx : (aesInit c [k0, k1, k2, k3, k4, k5, k6, k7, k8, k9, k10, k11, k12, k13, k14, k15]).2 = ⟨10, aesExpand 4 40 (bytesToWords [k0, k1, k2, k3, k4, k5, k6, k7, k8, k9, k10, k11, k12, k13, k14, k15])⟩ := by
      unfold aesInit
      rw [if_pos (Or.inl hc)]
      simp [hc]
      try rfl
    have hL : List.length [k0, k1, k2, k3, k4, k5, k6, k7, k8, k9, k10, k11, k12, k13, k14, k15] / 4 = 4 := by rw [hc]
    have hlenW : (bytesToWords [k0, k1, k2, k3, k4, k5, k6, k7, k8, k9, k10, k11, k12, k13, k14, k15]).length = 4 := rfl
    refine ⟨⟨fun _ => by rw [hctx]; try rfl, fun h24 => by simp at h24, fun h32 => by simp at h32⟩, ?_, ?_⟩
    · intro i hi
      rw [hL] at hi
      rw [hctx]
      show (aesExpand 4 40 (bytesToWords [k0, k1, k2, k3, k4, k5, k6, k7, k8, k9, k10, k11, k12, k13, k14, k15])).getD i 0 =
        le32 ([k0, k1, k2, k3, k4, k5, k6, k7, k8, k9, k10, k11, k12, k13, k14, k15].getD (4 * i) 0) ([k0, k1, k2, k3, k4, k5, k6, k7, k8, k9, k10, k11, k12, k13, k14, k15].getD (4 * i + 1) 0)
          ([k0, k1, k2, k3, k4, k5, k6, k7, k8, k9, k10, k11, k12, k13, k14, k15].getD (4 * i + 2) 0) ([k0, k1, k2, k3, k4, k5, k6, k7, k8, k9, k10, k11, k12, k13, k14, k15].getD (4 * i + 3) 0)
      rw [aesExpand_stable 4 40 _ i (by rw [hlenW]; omega)]
      interval_cases i <;> rfl
    · intro i h1 h2
      rw [hL] at h1
      rw [hctx] at h2
      have h2x : i < 44 := by simpa using h2
      rw [hctx, hL]
      show (aesExpand 4 40 (bytesToWords [k0, k1, k2, k3, k4, k5, k6, k7, k8, k9, k10, k11, k12, k13, k14, k15])).getD i 0 =
        (aesExpand 4 40 (bytesToWords [k0, k1, k2, k3, k4, k5, k6, k7, k8, k9, k10, k11, k12, k13, k14, k15])).getD (i - 4) 0 ^^^
          aesTemp 4 (aesExpand 4 40 (bytesToWords [k0, k1, k2, k3, k4, k5, k6, k7, k8, k9, k10, k11, k12, k13, k14, k15])) i
      exact aesExpand_rec 4 (by norm_num) 40 _ (le_of_eq hlenW.symm) i
        (by rw [hlenW]; omega) (by rw [hlenW]; omega)
  · obtain ⟨k0, k1, k2, k3, k4, k5, k6, k7, k8, k9, k10, k11, k12, k13, k14, k15, k16, k17, k18, k19, k20, k21, k22, k23, rfl⟩ := list24_exists key hc
    have hctx : (aesInit c [k0, k1, k2, k3, k4, k5, k6, k7, k8, k9, k10, k11, k12, k13, k14, k15, k16, k17, k18, k19, k20, k21, k22, k23]).2 = ⟨12, aesExpand 6 46 (bytesToWords [k0, k1, k2, k3, k4, k5, k6, k7, k8, k9, k10, k11, k12, k13, k14, k15, k16, k17, k18, k19, k20, k21, k22, k23])⟩ := by
      unfold aesInit
      rw [if_pos (Or.inr (Or.inl hc))]
      simp [hc]
      try rfl
    have hL : List.length [k0, k1, k2, k3, k4, k5, k6, k7, k8, k9, k10, k11, k12, k13, k14, k15, k16, k17, k18, k19, k20, k21, k22, k23] / 4 = 6 := by rw [hc]
    have hlenW : (bytesToWords [k0, k1, k2, k3, k4, k5, k6, k7, k8, k9, k10, k11, k12, k13, k14, k15, k16, k17, k18, k19, k20, k21, k22, k23]).length = 6 := rfl
    refine ⟨⟨fun h16 => by simp at h16, fun _ => by rw [hctx]; try rfl, fun h32 => by simp at h32⟩, ?_, ?_⟩
    · intro i hi
      rw [hL] at hi
      rw [hctx]
      show (aesExpand 6 46 (bytesToWords [k0, k1, k2, k3, k4, k5, k6, k7, k8, k9, k10, k11, k12, k13, k14, k15, k16, k17, k18, k19, k20, k21, k22, k23])).getD i 0 =
        le32 ([k0, k1, k2, k3, k4, k5, k6, k7, k8, k9, k10, k11, k12, k13, k14, k15, k16, k17, k18, k19, k20, k21, k22, k23].getD (4 * i) 0) ([k0, k1, k2, k3, k4, k5, k6, k7, k8, k9, k10, k11, k12, k13, k14, k15, k16, k17, k18, k19, k20, k21, k22, k23].getD (4 * i + 1) 0)
          ([k0, k1, k2, k3, k4, k5, k6, k7, k8, k9, k10, k11, k12, k13, k14, k15, k16, k17, k18, k19, k20, k21, k22, k23].getD (4 * i + 2) 0) ([k0, k1, k2, k3, k4, k5, k6, k7, k8, k9, k10, k11, k12, k13, k14, k15, k16, k17, k18, k19, k20, k21, k22, k23].getD (4 * i + 3) 0)
      rw [aesExpand_stable 6 46 _ i (by rw [hlenW]; omega)]
      interval_cases i <;> rfl
    · intro i h1 h2
      rw [hL] at h1
      rw [hctx] at h2
      have h2x : i < 52 := by simpa using h2
      rw [hctx, hL]
      show (aesExpand 6 46 (bytesToWords [k0, k1, k2, k3, k4, k5, k6, k7, k8, k9, k10, k11, k12, k13, k14, k15, k16, k17, k18, k19, k20, k21, k22, k23])).getD i 0 =
        (aesExpand 6 46 (bytesToWords [k0, k1, k2, k3, k4, k5, k6, k7, k8, k9, k10, k11, k12, k13, k14, k15, k16, k17, k18, k19, k20, k21, k22, k23])).getD (i - 6) 0 ^^^
          aesTemp 6 (aesExpand 6 46 (bytesToWords [k0, k1, k2, k3, k4, k5, k6, k7, k8, k9, k10, k11, k12, k13, k14, k15, k16, k17, k18, k19, k20, k21, k22, k23])) i
      exact aesExpand_rec 6 (by norm_num) 46 _ (le_of_eq hlenW.symm) i
        (by rw [hlenW]; omega) (by rw [hlenW]; omega)
  · obtain ⟨k0, k1, k2, k3, k4, k5, k6, k7, k8, k9, k10, k11, k12, k13, k14, k15, k16, k17, k18, k19, k20, k21, k22, k23, k24, k25, k26, k27, k28, k29, k30, k31, rfl⟩ := list32_exists key hc
    have hctx : (aesInit c [k0, k1, k2, k3, k4, k5, k6, k7, k8, k9, k10, k11, k12, k13, k14, k15, k16, k17, k18, k19, k20, k21, k22, k23, k24, k25, k26, k27, k28, k29, k30, k31]).2 = ⟨14, aesExpand 8 52 (bytesToWords [k0, k1, k2, k3, k4, k5, k6, k7, k8, k9, k10, k11, k12, k13, k14, k15, k16, k17, k18, k19, k20, k21, k22, k23, k24, k25, k26, k27, k28, k29, k30, k31])⟩ := by
      unfold aesInit
      rw [if_pos (Or.inr (Or.inr hc))]
      simp [hc]
      try rfl
    have hL : List.length [k0, k1, k2, k3, k4, k5, k6, k7, k8, k9, k10, k11, k12, k13, k14, k15, k16, k17, k18, k19, k20, k21, k22, k23, k24, k25, k26, k27, k28, k29, k30, k31] / 4 = 8 := by rw [hc]
    have hlenW : (bytesToWords [k0, k1, k2, k3, k4, k5, k6, k7, k8, k9, k10, k11, k12, k13, k14, k15, k16, k17, k18, k19, k20, k21, k22, k23, k24, k25, k26, k27, k28, k29, k30, k31]).length = 8 := rfl
    refine ⟨⟨fun h16 => by simp at h16, fun h24 => by simp at h24, fun _ => by rw [hctx]; try rfl⟩, ?_, ?_⟩
    · intro i hi
      rw [hL] at hi
      rw [hctx]
      show (aesExpand 8 52 (bytesToWords [k0, k1, k2, k3, k4, k5, k6, k7, k8, k9, k10, k11, k12, k13, k14, k15, k16, k17, k18, k19, k20, k21, k22, k23, k24, k25, k26, k27, k28, k29, k30, k31])).getD i 0 =
        le32 ([k0, k1, k2, k3, k4, k5, k6, k7, k8, k9, k10, k11, k12, k13, k14, k15, k16, k17, k18, k19, k20, k21, k22, k23, k24, k25, k26, k27, k28, k29, k30, k31].getD (4 * i) 0) ([k0, k1, k2, k3, k4, k5, k6, k7, k8, k9, k10, k11, k12, k13, k14, k15, k16, k17, k18, k19, k20, k21, k22, k23, k24, k25, k26, k27, k28, k29, k30, k31].getD (4 * i + 1) 0)
          ([k0, k1, k2, k3, k4, k5, k6, k7, k8, k9, k10, k11, k12, k13, k14, k15, k16, k17, k18, k19, k20, k21, k22, k23, k24, k25, k26, k27, k28, k29, k30, k31].getD (4 * i + 2) 0) ([k0, k1, k2, k3, k4, k5, k6, k7, k8, k9, k10, k11, k12, k13, k14, k15, k16, k17, k18, k19, k20, k21, k22, k23, k24, k25, k26, k27, k28, k29, k30, k31].getD (4 * i + 3) 0)
      rw [aesExpand_stable 8 52 _ i (by rw [hlenW]; omega)]
      interval_cases i <;> rfl
    · intro i h1 h2
      rw [hL] at h1
      rw [hctx] at h2
      have h2x : i < 60 := by simpa using h2
      rw [hctx, hL]
      show (aesExpand 8 52 (bytesToWords [k0, k1, k2, k3, k4, k5, k6, k7, k8, k9, k10, k11, k12, k13, k14, k15, k16, k17, k18, k19, k20, k21, k22, k23, k24, k25, k26, k27, k28, k29, k30, k31])).getD i 0 =
        (aesExpand 8 52 (bytesToWords [k0, k1, k2, k3, k4, k5, k6, k7, k8, k9, k10, k11, k12, k13, k14, k15, k16, k17, k18, k19, k20, k21, k22, k23, k24, k25, k26, k27, k28, k29, k30, k31])).getD (i - 8) 0 ^^^
          aesTemp 8 (aesExpand 8 52 (bytesToWords [k0, k1, k2, k3, k4, k5, k6, k7, k8, k9, k10, k11, k12, k13, k14, k15, k16, k17, k18, k19, k20, k21, k22, k23, k24, k25, k26, k27, k28, k29, k30, k31])) i
      exact aesExpand_rec 8 (by norm_num) 52 _ (le_of_eq hlenW.symm) i
        (by rw [hlenW]; omega) (by rw [hlenW]; omega)

/-- Witness for C5 at the AES-128 reference key, word 7 of the
schedule. -/
theorem claim_C5_witness :
    (aes128Key.length = 16 ∨ aes128Key.length = 24 ∨ aes128Key.length = 32) ∧
    ((aesInit ⟨0, []⟩ aes128Key).2).w.getD 7 0 =
      ((aesInit ⟨0, []⟩ aes128Key).2).w.getD 3 0 ^^^
        aesTemp 4 (((aesInit ⟨0, []⟩ aes128Key).2).w) 7 :=
  ⟨by decide, (claim_C5 ⟨0, []⟩ aes128Key (by decide)).2.2 7 (by decide) (by decide)⟩

/-- C6: the implemented InvMixColumns inverts the implemented MixColumns
on every byte state, in both orders, and the byte quantity
`q = p XOR xtime(xtime(xtime(p)))` computed through the `mul2` table is
the GF(2^8) product of 9 and `p` under reduction polynomial 0x11B. -/
theorem claim_C6 :
    (∀ s : List Nat, s.length = 16 → (∀ b ∈ s, b < 256) →
      invMixColumns (mixColumns s) = s ∧ mixColumns (invMixColumns s) = s) ∧
    (∀ p, p < 256 → p ^^^ m2 (m2 (m2 p)) = gfMul 9 p) :=
  ⟨fun s h1 h2 => ⟨invMixColumns_mixColumns s ⟨h1, h2⟩, mixColumns_invMixColumns s ⟨h1, h2⟩⟩,
   by decide⟩

/-- Witness for C6 at the zero state and the byte 93. -/
theorem claim_C6_witness :
    (List.replicate 16 0 : List Nat).length = 16 ∧
    invMixColumns (mixColumns (List.replicate 16 0)) = List.replicate 16 0 ∧
    (93 : Nat) < 256 ∧ 93 ^^^ m2 (m2 (m2 93)) = gfMul 9 93 :=
  ⟨by decide, (claim_C6.1 (List.replicate 16 0) (by decide) (by decide)).1,
   by decide, claim_C6.2 93 (by decide)⟩

/-- C7: in the encryption pipeline the FL / FL-inverse pair is inserted
exactly after rounds 6 and 12 for 18 rounds, and after 6, 12 and 18 for
24 rounds, never after the final round; it costs four subkey words beyond
the two per round, and with the four leading and four trailing whitening
words the schedule consumption is 52 and 68 words. -/
theorem claim_C7 : ∀ (ksl : List Nat),
    (flAfterRounds (camOps ksl 18 4) 0 = [6, 12] ∧
     camOpsRounds (camOps ksl 18 4) = 18 ∧
     (∀ s, camEncRounds ksl 18 4 s = ((camOps ksl 18 4).foldl camStepOp s, 48)) ∧
     4 + (camOps ksl 18 4).foldl (fun a o => a + opCost o) 0 + 4 = 52) ∧
    (flAfterRounds (camOps ksl 24 4) 0 = [6, 12, 18] ∧
     camOpsRounds (camOps ksl 24 4) = 24 ∧
     (∀ s, camEncRounds ksl 24 4 s = ((camOps ksl 24 4).foldl camStepOp s, 64)) ∧
     4 + (camOps ksl 24 4).foldl (fun a o => a + opCost o) 0 + 4 = 68) :=
  fun ksl => ⟨⟨rfl, rfl, camEncRounds_18 ksl, rfl⟩, ⟨rfl, rfl, camEncRounds_24 ksl, rfl⟩⟩

set_option maxHeartbeats 12800000 in
/-- C8: after the key-loading phase of `camelliaInit` (and before the six
sigma rounds) the banks satisfy KB[i] = KL[i] XOR KR[i] for i in 0..3,
and for a 24-byte key the words KR[2], KR[3] are the complements of
KR[0], KR[1], the complement commuting with the big-endian-to-host
conversion. -/
theorem claim_C8 : ∀ (key : List Nat),
    (key.length = 16 ∨ key.length = 24 ∨ key.length = 32) →
    (∀ b ∈ key, b < 256) →
    (∀ i, i < 4 → (camelliaLoadKey key).getD (12 + i) 0 =
        (camelliaLoadKey key).getD i 0 ^^^ (camelliaLoadKey key).getD (4 + i) 0) ∧
    (key.length = 24 →
      (camelliaLoadKey key).getD 6 0 = 4294967295 ^^^ (camelliaLoadKey key).getD 4 0 ∧
      (camelliaLoadKey key).getD 7 0 = 4294967295 ^^^ (camelliaLoadKey key).getD 5 0) := by
  intro key hlen hkey
  rcases hlen with hc | hc | hc
  · obtain ⟨k0, k1, k2, k3, k4, k5, k6, k7, k8, k9, k10, k11, k12, k13, k14, k15, rfl⟩ := list16_exists key hc
    have hbase : bytesToWords ([k0, k1, k2, k3, k4, k5, k6, k7, k8, k9, k10, k11, k12, k13, k14, k15] ++ List.replicate (64 - List.length [k0, k1, k2, k3, k4, k5, k6, k7, k8, k9, k10, k11, k12, k13, k14, k15]) 0) =
        [le32 k0 k1 k2 k3, le32 k4 k5 k6 k7, le32 k8 k9 k10 k11, le32 k12 k13 k14 k15, 0, 0, 0, 0, 0, 0, 0, 0, 0, 0, 0, 0] := by
      rw [hc]
      try rfl
    refine ⟨?_, fun h24 => by simp at h24⟩
    intro i hi
    simp only [camelliaLoadKey]
    rw [if_neg (show ¬ List.length [k0, k1, k2, k3, k4, k5, k6, k7, k8, k9, k10, k11, k12, k13, k14, k15] = 24 by simp), hbase]
    generalize le32 k0 k1 k2 k3 = w0
    generalize le32 k4 k5 k6 k7 = w1
    generalize le32 k8 k9 k10 k11 = w2
    generalize le32 k12 k13 k14 k15 = w3
    interval_cases i <;> rfl
  · obtain ⟨k0, k1, k2, k3, k4, k5, k6, k7, k8, k9, k10, k11, k12, k13, k14, k15, k16, k17, k18, k19, k20, k21, k22, k23, rfl⟩ := list24_exists key hc
    have g16 : k16 < 256 := hkey k16 (by simp)
    have g17 : k17 < 256 := hkey k17 (by simp)
    have g18 : k18 < 256 := hkey k18 (by simp)
    have g19 : k19 < 256 := hkey k19 (by simp)
    have g20 : k20 < 256 := hkey k20 (by simp)
    have g21 : k21 < 256 := hkey k21 (by simp)
    have g22 : k22 < 256 := hkey k22 (by simp)
    have g23 : k23 < 256 := hkey k23 (by simp)
    have hbase : bytesToWords ([k0, k1, k2, k3, k4, k5, k6, k7, k8, k9, k10, k11, k12, k13, k14, k15, k16, k17, k18, k19, k20, k21, k22, k23] ++ List.replicate (64 - List.length [k0, k1, k2, k3, k4, k5, k6, k7, k8, k9, k10, k11, k12, k13, k14, k15, k16, k17, k18, k19, k20, k21, k22, k23]) 0) =
        [le32 k0 k1 k2 k3, le32 k4 k5 k6 k7, le32 k8 k9 k10 k11, le32 k12 k13 k14 k15, le32 k16 k17 k18 k19, le32 k20 k21 k22 k23, 0, 0, 0, 0, 0, 0, 0, 0, 0, 0] := by
      rw [hc]
      try rfl
    refine ⟨?_, fun _ => ⟨?_, ?_⟩⟩
    · intro i hi
      simp only [camelliaLoadKey]
      rw [if_pos hc, hbase]
      generalize le32 k0 k1 k2 k3 = w0
      generalize le32 k4 k5 k6 k7 = w1
      generalize le32 k8 k9 k10 k11 = w2
      generalize le32 k12 k13 k14 k15 = w3
      interval_cases i <;> rfl
    · simp only [camelliaLoadKey]
      rw [if_pos hc, hbase]
      generalize le32 k0 k1 k2 k3 = w0
      generalize le32 k4 k5 k6 k7 = w1
      generalize le32 k8 k9 k10 k11 = w2
      generalize le32 k12 k13 k14 k15 = w3
      show byteswap32 (4294967295 ^^^ le32 k16 k17 k18 k19) =
        4294967295 ^^^ byteswap32 (le32 k16 k17 k18 k19)
      exact byteswap32_compl_le32 k16 k17 k18 k19 g16 g17 g18 g19
    · simp only [camelliaLoadKey]
      rw [if_pos hc, hbase]
      generalize le32 k0 k1 k2 k3 = w0
      generalize le32 k4 k5 k6 k7 = w1
      generalize le32 k8 k9 k10 k11 = w2
      generalize le32 k12 k13 k14 k15 = w3
      show byteswap32 (4294967295 ^^^ le32 k20 k21 k22 k23) =
        4294967295 ^^^ byteswap32 (le32 k20 k21 k22 k23)
      exact byteswap32_compl_le32 k20 k21 k22 k23 g20 g21 g22 g23
  · obtain ⟨k0, k1, k2, k3, k4, k5, k6, k7, k8, k9, k10, k11, k12, k13, k14, k15, k16, k17, k18, k19, k20, k21, k22, k23, k24, k25, k26, k27, k28, k29, k30, k31, rfl⟩ := list32_exists key hc
    have hbase : bytesToWords ([k0, k1, k2, k3, k4, k5, k6, k7, k8, k9, k10, k11, k12, k13, k14, k15, k16, k17, k18, k19, k20, k21, k22, k23, k24, k25, k26, k27, k28, k29, k30, k31] ++ List.replicate (64 - List.length [k0, k1, k2, k3, k4, k5, k6, k7, k8, k9, k10, k11, k12, k13, k14, k15, k16, k17, k18, k19, k20, k21, k22, k23, k24, k25, k26, k27, k28, k29, k30, k31]) 0) =
        [le32 k0 k1 k2 k3, le32 k4 k5 k6 k7, le32 k8 k9 k10 k11, le32 k12 k13 k14 k15, le32 k16 k17 k18 k19, le32 k20 k21 k22 k23, le32 k24 k25 k26 k27, le32 k28 k29 k30 k31, 0, 0, 0, 0, 0, 0, 0, 0] := by
      rw [hc]
      try rfl
    refine ⟨?_, fun h24 => by simp at h24⟩
    intro i hi
    simp only [camelliaLoadKey]
    rw [if_neg (show ¬ List.length [k0, k1, k2, k3, k4, k5, k6, k7, k8, k9, k10, k11, k12, k13, k14, k15, k16, k17, k18, k19, k20, k21, k22, k23, k24, k25, k26, k27, k28, k29, k30, k31] = 24 by simp), hbase]
    generalize le32 k0 k1 k2 k3 = w0
    generalize le32 k4 k5 k6 k7 = w1
    generalize le32 k8 k9 k10 k11 = w2
    generalize le32 k12 k13 k14 k15 = w3
    interval_cases i <;> rfl

/-- Witness for C8 at the RFC 3713 192-bit key. -/
theorem claim_C8_witness :
    (cam192Key.length = 16 ∨ cam192Key.length = 24 ∨ cam192Key.length = 32) ∧
    (camelliaLoadKey cam192Key).getD 12 0 =
      (camelliaLoadKey cam192Key).getD 0 0 ^^^ (camelliaLoadKey cam192Key).getD 4 0 ∧
    (camelliaLoadKey cam192Key).getD 6 0 =
      4294967295 ^^^ (camelliaLoadKey cam192Key).getD 4 0 :=
  ⟨by decide,
   (claim_C8 cam192Key (by decide) (by decide)).1 0 (by decide),
   ((claim_C8 cam192Key (by decide) (by decide)).2 (by decide)).1⟩

/-- C9: the encrypt and decrypt bodies never store to the context: the
context coming out of each block operation is the context passed in, with
`nr`, `w`, `k` and `ks` unchanged, for every input. -/
theorem claim_C9 : ∀ (ac : AesContext) (cc : CamelliaContext) (input : List Nat),
    aesEncryptBlockSt ac input = (ac, aesEncryptBlock ac input) ∧
    aesDecryptBlockSt ac input = (ac, aesDecryptBlock ac input) ∧
    camelliaEncryptBlockSt cc input = (cc, camelliaEncryptBlock cc input) ∧
    camelliaDecryptBlockSt cc input = (cc, camelliaDecryptBlock cc input) ∧
    (aesEncryptBlockSt ac input).1.nr = ac.nr ∧
    (aesEncryptBlockSt ac input).1.w = ac.w ∧
    (aesDecryptBlockSt ac input).1.w = ac.w ∧
    (camelliaEncryptBlockSt cc input).1.nr = cc.nr ∧
    (camelliaEncryptBlockSt cc input).1.k = cc.k ∧
    (camelliaEncryptBlockSt cc input).1.ks = cc.ks ∧
    (camelliaDecryptBlockSt cc input).1.ks = cc.ks :=
  fun _ _ _ => ⟨rfl, rfl, rfl, rfl, rfl, rfl, rfl, rfl, rfl, rfl, rfl⟩

/-- C10: on an accepted key every access of the key-expansion loop is in
bounds: the rcon index lies in 1..10 (10 only for Nk = 4) and the read
and write indices stay below `4 * (nr + 1)`; the loop with
`Option`-returning indexing completes without hitting an out-of-bounds
branch and returns the schedule. -/
theorem claim_C10 : ∀ (c : AesContext) (key : List Nat),
    (key.length = 16 ∨ key.length = 24 ∨ key.length = 32) →
    (∀ i, key.length / 4 ≤ i → i < 4 * (((aesInit c key).2).nr + 1) →
      (i % (key.length / 4) = 0 →
        1 ≤ i / (key.length / 4) ∧ i / (key.length / 4) ≤ 10 ∧
          (i / (key.length / 4) = 10 → key.length / 4 = 4)) ∧
      i - 1 < 4 * (((aesInit c key).2).nr + 1) ∧
      i - key.length / 4 < 4 * (((aesInit c key).2).nr + 1)) ∧
    aesExpandChecked (key.length / 4) (4 * (((aesInit c key).2).nr + 1) - key.length / 4)
        (bytesToWords key) = some (((aesInit c key).2).w) := by
  intro c key hlen
  rcases hlen with hc | hc | hc
  · obtain ⟨k0, k1, k2, k3, k4, k5, k6, k7, k8, k9, k10, k11, k12, k13, k14, k15, rfl⟩ := list16_exists key hc
    have hctx : (aesInit c [k0, k1, k2, k3, k4, k5, k6, k7, k8, k9, k10, k11, k12, k13, k14, k15]).2 = ⟨10, aesExpand 4 40 (bytesToWords [k0, k1, k2, k3, k4, k5, k6, k7, k8, k9, k10, k11, k12, k13, k14, k15])⟩ := by
      unfold aesInit
      rw [if_pos (Or.inl hc)]
      simp [hc]
      try rfl
    have hL : List.length [k0, k1, k2, k3, k4, k5, k6, k7, k8, k9, k10, k11, k12, k13, k14, k15] / 4 = 4 := by rw [hc]
    have hlenW : (bytesToWords [k0, k1, k2, k3, k4, k5, k6, k7, k8, k9, k10, k11, k12, k13, k14, k15]).length = 4 := rfl
    constructor
    · intro i h1 h2
      rw [hL] at h1
      rw [hctx] at h2
      have h2x : i < 44 := by simpa using h2
      rw [hctx, hL]
      show (i % 4 = 0 → 1 ≤ i / 4 ∧ i / 4 ≤ 10 ∧ (i / 4 = 10 → 4 = 4)) ∧
        i - 1 < 44 ∧ i - 4 < 44
      omega
    · rw [hctx, hL]
      show aesExpandChecked 4 40 (bytesToWords [k0, k1, k2, k3, k4, k5, k6, k7, k8, k9, k10, k11, k12, k13, k14, k15]) =
        some (aesExpand 4 40 (bytesToWords [k0, k1, k2, k3, k4, k5, k6, k7, k8, k9, k10, k11, k12, k13, k14, k15]))
      exact aesExpandChecked_eq 4 (by norm_num) 40 _ (le_of_eq hlenW.symm)
        (by intro m hm; rw [hlenW]; omega)
  · obtain ⟨k0, k1, k2, k3, k4, k5, k6, k7, k8, k9, k10, k11, k12, k13, k14, k15, k16, k17, k18, k19, k20, k21, k22, k23, rfl⟩ := list24_exists key hc
    have hctx : (aesInit c [k0, k1, k2, k3, k4, k5, k6, k7, k8, k9, k10, k11, k12, k13, k14, k15, k16, k17, k18, k19, k20, k21, k22, k23]).2 = ⟨12, aesExpand 6 46 (bytesToWords [k0, k1, k2, k3, k4, k5, k6, k7, k8, k9, k10, k11, k12, k13, k14, k15, k16, k17, k18, k19, k20, k21, k22, k23])⟩ := by
      unfold aesInit
      rw [if_pos (Or.inr (Or.inl hc))]
      simp [hc]
      try rfl
    have hL : List.length [k0, k1, k2, k3, k4, k5, k6, k7, k8, k9, k10, k11, k12, k13, k14, k15, k16, k17, k18, k19, k20, k21, k22, k23] / 4 = 6 := by rw [hc]
    have hlenW : (bytesToWords [k0, k1, k2, k3, k4, k5, k6, k7, k8, k9, k10, k11, k12, k13, k14, k15, k16, k17, k18, k19, k20, k21, k22, k23]).length = 6 := rfl
    constructor
    · intro i h1 h2
      rw [hL] at h1
      rw [hctx] at h2
      have h2x : i < 52 := by simpa using h2
      rw [hctx, hL]
      show (i % 6 = 0 → 1 ≤ i / 6 ∧ i / 6 ≤ 10 ∧ (i / 6 = 10 → 6 = 4)) ∧
        i - 1 < 52 ∧ i - 6 < 52
      omega
    · rw [hctx, hL]
      show aesExpandChecked 6 46 (bytesToWords [k0, k1, k2, k3, k4, k5, k6, k7, k8, k9, k10, k11, k12, k13, k14, k15, k16, k17, k18, k19, k20, k21, k22, k23]) =
        some (aesExpand 6 46 (bytesToWords [k0, k1, k2, k3, k4, k5, k6, k7, k8, k9, k10, k11, k12, k13, k14, k15, k16, k17, k18, k19, k20, k21, k22, k23]))
      exact aesExpandChecked_eq 6 (by norm_num) 46 _ (le_of_eq hlenW.symm)
        (by intro m hm; rw [hlenW]; omega)
  · obtain ⟨k0, k1, k2, k3, k4, k5, k6, k7, k8, k9, k10, k11, k12, k13, k14, k15, k16, k17, k18, k19, k20, k21, k22, k23, k24, k25, k26, k27, k28, k29, k30, k31, rfl⟩ := list32_exists key hc
    have hctx : (aesInit c [k0, k1, k2, k3, k4, k5, k6, k7, k8, k9, k10, k11, k12, k13, k14, k15, k16, k17, k18, k19, k20, k21, k22, k23, k24, k25, k26, k27, k28, k29, k30, k31]).2 = ⟨14, aesExpand 8 52 (bytesToWords [k0, k1, k2, k3, k4, k5, k6, k7, k8, k9, k10, k11, k12, k13, k14, k15, k16, k17, k18, k19, k20, k21, k22, k23, k24, k25, k26, k27, k28, k29, k30, k31])⟩ := by
      unfold aesInit
      rw [if_pos (Or.inr (Or.inr hc))]
      simp [hc]
      try rfl
    have hL : List.length [k0, k1, k2, k3, k4, k5, k6, k7, k8, k9, k10, k11, k12, k13, k14, k15, k16, k17, k18, k19, k20, k21, k22, k23, k24, k25, k26, k27, k28, k29, k30, k31] / 4 = 8 := by rw [hc]
    have hlenW : (bytesToWords [k0, k1, k2, k3, k4, k5, k6, k7, k8, k9, k10, k11, k12, k13, k14, k15, k16, k17, k18, k19, k20, k21, k22, k23, k24, k25, k26, k27, k28, k29, k30, k31]).length = 8 := rfl
    constructor
    · intro i h1 h2
      rw [hL] at h1
      rw [hctx] at h2
      have h2x : i < 60 := by simpa using h2
      rw [hctx, hL]
      show (i % 8 = 0 → 1 ≤ i / 8 ∧ i / 8 ≤ 10 ∧ (i / 8 = 10 → 8 = 4)) ∧
        i - 1 < 60 ∧ i - 8 < 60
      omega
    · rw [hctx, hL]
      show aesExpandChecked 8 52 (bytesToWords [k0, k1, k2, k3, k4, k5, k6, k7, k8, k9, k10, k11, k12, k13, k14, k15, k16, k17, k18, k19, k20, k21, k22, k23, k24, k25, k26, k27, k28, k29, k30, k31]) =
        some (aesExpand 8 52 (bytesToWords [k0, k1, k2, k3, k4, k5, k6, k7, k8, k9, k10, k11, k12, k13, k14, k15, k16, k17, k18, k19, k20, k21, k22, k23, k24, k25, k26, k27, k28, k29, k30, k31]))
      exact aesExpandChecked_eq 8 (by norm_num) 52 _ (le_of_eq hlenW.symm)
        (by intro m hm; rw [hlenW]; omega)

/-- Witness for C10 at the AES-128 reference key. -/
theorem claim_C10_witness :
    (aes128Key.length = 16 ∨ aes128Key.length = 24 ∨ aes128Key.length = 32) ∧
    aesExpandChecked (aes128Key.length / 4)
        (4 * (((aesInit ⟨0, []⟩ aes128Key).2).nr + 1) - aes128Key.length / 4)
        (bytesToWords aes128Key) = some (((aesInit ⟨0, []⟩ aes128Key).2).w) :=
  ⟨by decide, (claim_C10 ⟨0, []⟩ aes128Key (by decide)).2⟩

end CycloneCrypto
